import Mathlib

/-!
Advanced Hosting cloud controller manager: load-balancer reconciliation.

A shallow embedding of `advancedhosting/loadbalancers.go`, `advancedhosting/patcher.go`
and of `instanceIDByProviderID` from `advancedhosting/instances.go`.

* Go `error` values are modelled symbolically (`Error`); a `nil` error is `none`.
* The remote API and the Kubernetes client are arbitrary state transformers over an
  abstract state `σ`; every call the package issues is appended to a trace of `Call`s.
* A Go map is an association list with unique keys (`GoMap`); the order in which
  `range` visits a map is an arbitrary permutation supplied by `Runtime`.
* A runtime panic (index out of range) is the outcome `none` of the functions that
  can reach it.
-/

namespace ah

/-! ## Errors -/

/-- Go `error` values. `ErrResourceNotFound` is the API library's sentinel, which the
source compares by identity; `New` is a value built by `errors.New` or by `fmt.Errorf`
from strings only (and any other opaque error of a library); `Errorf format cause` is
`fmt.Errorf(format, cause)` with one `%v` verb; `NumError` is the `*strconv.NumError`
of `strconv.Atoi`. -/
inductive Error where
  | ErrResourceNotFound : Error
  | New (text : String) : Error
  | Errorf (format : String) (cause : Error) : Error
  | NumError (func num : String) (outOfRange : Bool) : Error
deriving DecidableEq, Repr

deriving instance DecidableEq for Except

/-! ## Remote data model (package `ah` of the API client) -/

structure LBIPAddress where
  ID : String
  Address : String
deriving DecidableEq, Repr

structure LBForwardingRule where
  ID : String
  RequestProtocol : String
  RequestPort : Int
  CommunicationProtocol : String
  CommunicationPort : Int
  State : String
deriving DecidableEq, Repr

structure LBHealthCheck where
  ID : String
  Type_ : String
  URL : String
  Interval : Int
  Timeout : Int
  UnhealthyThreshold : Int
  HealthyThreshold : Int
  Port : Int
  State : String
deriving DecidableEq, Repr

structure LBBackendNode where
  ID : String
  CloudServerID : String
  State : String
deriving DecidableEq, Repr

structure LoadBalancer where
  ID : String
  Name : String
  State : String
  BalancingAlgorithm : String
  IPAddresses : List LBIPAddress
  ForwardingRules : List LBForwardingRule
  HealthChecks : List LBHealthCheck
  BackendNodes : List LBBackendNode
deriving DecidableEq, Repr

structure LBForwardingRuleCreateRequest where
  RequestProtocol : String
  RequestPort : Int
  CommunicationProtocol : String
  CommunicationPort : Int
deriving DecidableEq, Repr

/-- The request type `ah.LBHealthCheckCreateRequest`; a Go `var request` starts from
the zero value of every field. -/
structure LBHealthCheckCreateRequest where
  Type_ : String := ""
  URL : String := ""
  Interval : Int := 0
  Timeout : Int := 0
  UnhealthyThreshold : Int := 0
  HealthyThreshold : Int := 0
  Port : Int := 0
deriving DecidableEq, Repr

structure LBHealthCheckUpdateRequest where
  Type_ : String
  URL : String
  Interval : Int
  Timeout : Int
  UnhealthyThreshold : Int
  HealthyThreshold : Int
  Port : Int
deriving DecidableEq, Repr

structure LBBackendNodeCreateRequest where
  CloudServerID : String
deriving DecidableEq, Repr

structure LoadBalancerCreateRequest where
  Name : String
  DatacenterID : String
  CreatePublicIPAddress : Bool
  PrivateNetworkIDs : List String
  BalancingAlgorithm : String
  ForwardingRules : List LBForwardingRuleCreateRequest
  HealthChecks : List LBHealthCheckCreateRequest
  BackendNodes : List LBBackendNodeCreateRequest
deriving DecidableEq, Repr

structure LoadBalancerUpdateRequest where
  Name : String := ""
  BalancingAlgorithm : String := ""
deriving DecidableEq, Repr

/-! ## Kubernetes data model -/

/-- A Go map as an association list; `mapSet` and `mapDelete` keep the keys unique. -/
abbrev GoMap (κ ν : Type) := List (κ × ν)

/-- The Go statement `m[k] = v`. -/
def mapSet {κ ν : Type} [DecidableEq κ] (m : GoMap κ ν) (k : κ) (v : ν) : GoMap κ ν :=
  (k, v) :: m.filter (fun e => decide (e.1 ≠ k))

/-- The Go statement `delete(m, k)`. -/
def mapDelete {κ ν : Type} [DecidableEq κ] (m : GoMap κ ν) (k : κ) : GoMap κ ν :=
  m.filter (fun e => decide (e.1 ≠ k))

/-- The Go expression `v, ok := m[k]`. -/
def mapGet {κ ν : Type} [DecidableEq κ] (m : GoMap κ ν) (k : κ) : Option ν :=
  (m.find? (fun e => decide (e.1 = k))).map Prod.snd

structure ServicePort where
  Name : String
  Protocol : String
  Port : Int
  NodePort : Int
deriving DecidableEq, Repr

structure Service where
  Namespace : String
  Name : String
  UID : String
  Annotations : GoMap String String
  Ports : List ServicePort
deriving DecidableEq, Repr

structure Node where
  ProviderID : String
deriving DecidableEq, Repr

structure LoadBalancerIngress where
  IP : String
deriving DecidableEq, Repr

structure LoadBalancerStatus where
  Ingress : List LoadBalancerIngress
deriving DecidableEq, Repr

/-! ## Calls, the remote API and the world -/

/-- One entry of a two-way merge patch of the annotations: a value to set, or `none`
for a key to remove. -/
abbrev PatchDoc := List (String × Option String)

/-- The remote calls of `LoadBalancersAPI` the package issues, and the `Patch` call on
the Kubernetes client. -/
inductive Call where
  | Get (lbID : String)
  | Create (request : LoadBalancerCreateRequest)
  | Update (lbID : String) (request : LoadBalancerUpdateRequest)
  | Delete (lbID : String)
  | CreateForwardingRule (lbID : String) (request : LBForwardingRuleCreateRequest)
  | GetForwardingRule (lbID frID : String)
  | DeleteForwardingRule (lbID frID : String)
  | CreateHealthCheck (lbID : String) (request : LBHealthCheckCreateRequest)
  | GetHealthCheck (lbID hcID : String)
  | UpdateHealthCheck (lbID hcID : String) (request : LBHealthCheckUpdateRequest)
  | DeleteHealthCheck (lbID hcID : String)
  | AddBackendNodes (lbID : String) (ids : List String)
  | ListBackendNodes (lbID : String)
  | GetBackendNode (lbID bnID : String)
  | DeleteBackendNode (lbID bnID : String)
  | PatchService (ns name : String) (patch : PatchDoc)
deriving DecidableEq, Repr

/-- The interface `ah.LoadBalancersAPI` (the methods the package uses) together with
the `Patch` method of the Kubernetes client, over an abstract remote state `σ`. A method
returning `(value, error)` yields `Except Error value`; a method returning `error`
yields `Option Error`. -/
structure APIClient (σ : Type) where
  Get : String → σ → Except Error LoadBalancer × σ
  Create : LoadBalancerCreateRequest → σ → Except Error LoadBalancer × σ
  Update : String → LoadBalancerUpdateRequest → σ → Option Error × σ
  Delete : String → σ → Option Error × σ
  CreateForwardingRule : String → LBForwardingRuleCreateRequest → σ →
    Except Error LBForwardingRule × σ
  GetForwardingRule : String → String → σ → Except Error LBForwardingRule × σ
  DeleteForwardingRule : String → String → σ → Option Error × σ
  CreateHealthCheck : String → LBHealthCheckCreateRequest → σ →
    Except Error LBHealthCheck × σ
  GetHealthCheck : String → String → σ → Except Error LBHealthCheck × σ
  UpdateHealthCheck : String → String → LBHealthCheckUpdateRequest → σ → Option Error × σ
  DeleteHealthCheck : String → String → σ → Option Error × σ
  AddBackendNodes : String → List String → σ → Except Error (List LBBackendNode) × σ
  ListBackendNodes : String → σ → Except Error (List LBBackendNode) × σ
  GetBackendNode : String → String → σ → Except Error LBBackendNode × σ
  DeleteBackendNode : String → String → σ → Option Error × σ
  PatchService : String → String → PatchDoc → σ → Option Error × σ

/-- The remote state together with the calls issued so far, oldest first. -/
structure World (σ : Type) where
  st : σ
  trace : List Call
deriving DecidableEq

/-- Issue one call: run it on the remote state and record it in the trace. -/
def invoke {σ α : Type} (c : Call) (f : σ → α × σ) (w : World σ) : α × World σ :=
  ((f w.st).1, { st := (f w.st).2, trace := w.trace ++ [c] })

/-- What the package takes from the Go runtime and from libraries outside it:
`strings.ToLower`, `cloudprovider.DefaultLoadBalancerName`, the order in which `range`
visits the two maps (any permutation of the entries), and the number of fetches the
context allows one convergence poll before it is done. -/
structure Runtime where
  ToLower : String → String
  DefaultLoadBalancerName : Service → String
  rangeForwardingRules : GoMap Int LBForwardingRule → List (Int × LBForwardingRule)
  rangeForwardingRules_perm : ∀ m, (rangeForwardingRules m).Perm m
  rangeBackendNodes : GoMap String LBBackendNode → List (String × LBBackendNode)
  rangeBackendNodes_perm : ∀ m, (rangeBackendNodes m).Perm m
  polls : Nat

structure clusterInfo where
  PrivateNetworkID : String
  DatacenterID : String
deriving DecidableEq, Repr

/-- The receiver `loadbalancers`: the API client, the cluster information and the
runtime. -/
structure loadbalancers (σ : Type) where
  client : APIClient σ
  clusterInfo : clusterInfo
  rt : Runtime

/-! ## Library functions of the Go standard library -/

/-- The value of a decimal digit, `none` for any other character. -/
def digitVal (c : Char) : Option Nat :=
  if 48 ≤ c.toNat ∧ c.toNat ≤ 57 then some (c.toNat - 48) else none

/-- The digit loop of `strconv.ParseUint(s, 10, 64)`: `.error false` is a syntax error,
`.error true` a range error, raised as soon as the 64-bit accumulator would overflow. -/
def parseUintLoop : List Char → Nat → Except Bool Nat
  | [], n => .ok n
  | c :: cs, n =>
    match digitVal c with
    | none => .error false
    | some d =>
      if 1844674407370955162 ≤ n then .error true
      else if 18446744073709551615 < n * 10 + d then .error true
      else parseUintLoop cs (n * 10 + d)

/-- The function `strconv.Atoi` on a platform with 64-bit `int`: an optional sign and a
non-empty run of decimal digits whose value fits `int`. -/
def Atoi (s : String) : Except Error Int :=
  let neg : Bool := match s.data with
    | c :: _ => decide (c = '-')
    | [] => false
  let ds : List Char := match s.data with
    | c :: r => if c = '-' ∨ c = '+' then r else c :: r
    | [] => []
  if ds = [] then .error (Error.NumError "Atoi" s false)
  else
    match parseUintLoop ds 0 with
    | .error false => .error (Error.NumError "Atoi" s false)
    | .error true => .error (Error.NumError "Atoi" s true)
    | .ok un =>
      if neg then
        if 9223372036854775808 < un then .error (Error.NumError "Atoi" s true)
        else .ok (-(un : Int))
      else
        if 9223372036854775808 ≤ un then .error (Error.NumError "Atoi" s true)
        else .ok (un : Int)

/-- The function `strconv.ParseBool`; `none` is its syntax error. -/
def ParseBool (str : String) : Option Bool :=
  if str = "1" ∨ str = "t" ∨ str = "T" ∨ str = "TRUE" ∨ str = "true" ∨ str = "True" then
    some true
  else if str = "0" ∨ str = "f" ∨ str = "F" ∨ str = "FALSE" ∨ str = "false"
      ∨ str = "False" then
    some false
  else none

/-! ## `instances.go`: provider IDs -/

def ahProviderPrefix : String := "advancedhosting://"

/-- The text after the leftmost occurrence of `pre` in the input, if there is one. -/
def afterFirst (pre : List Char) : List Char → Option (List Char)
  | [] => none
  | c :: cs =>
    if pre.isPrefixOf (c :: cs) then some ((c :: cs).drop pre.length)
    else afterFirst pre cs

/-- The first submatch of `providerIDRegexp`, the unanchored expression
`advancedhosting://(?P<instanceID>.*)`: what follows the leftmost occurrence of the
prefix, up to the first line break (`.` matches no line break). -/
def providerIDRegexp_FindStringSubmatch (providerID : String) : Option String :=
  (afterFirst ahProviderPrefix.data providerID.data).map
    (fun rest => String.mk (rest.takeWhile (fun c => decide (c ≠ '\n'))))

def instanceIDByProviderID (providerID : String) : Except Error String :=
  if providerID = "" then .error (Error.New "Empty ProviderID")
  else
    match providerIDRegexp_FindStringSubmatch providerID with
    | none => .error (Error.New "Invalid ProviderID")
    | some id => .ok id

/-! ## `loadbalancers.go`: constants and the desired state -/

def loadBalancerActiveStatus : String := "active"

def ServiceAnnotationLoadBalancerID : String :=
  "service.beta.kubernetes.io/ah-loadbalancer-id"
def ServiceAnnotationLoadBalancerName : String :=
  "service.beta.kubernetes.io/ah-loadbalancer-name"
def ServiceAnnotationLoadBalancerBalancingAlgorithm : String :=
  "service.beta.kubernetes.io/ah-loadbalancer-balancing-algorithm"
def ServiceAnnotationLoadBalancerEnableHealthCheck : String :=
  "service.beta.kubernetes.io/ah-loadbalancer-healthcheck-enabled"
def ServiceAnnotationLoadBalancerHealthCheckType : String :=
  "service.beta.kubernetes.io/ah-loadbalancer-healthcheck-type"
def ServiceAnnotationLoadBalancerHealthCheckURL : String :=
  "service.beta.kubernetes.io/ah-loadbalancer-healthcheck-url"
def ServiceAnnotationLoadBalancerHealthCheckInterval : String :=
  "service.beta.kubernetes.io/ah-loadbalancer-healthcheck-interval"
def ServiceAnnotationLoadBalancerHealthCheckTimeout : String :=
  "service.beta.kubernetes.io/ah-loadbalancer-healthcheck-timeout"
def ServiceAnnotationLoadBalancerHealthCheckUnhealthyThreshold : String :=
  "service.beta.kubernetes.io/ah-loadbalancer-healthcheck-unhealthy-threshold"
def ServiceAnnotationLoadBalancerHealthCheckHealthyThreshold : String :=
  "service.beta.kubernetes.io/ah-loadbalancer-healthcheck-healthy-threshold"
def ServiceAnnotationLoadBalancerHealthCheckPort : String :=
  "service.beta.kubernetes.io/ah-loadbalancer-healthcheck-port"

/-- The expression `service.ObjectMeta.Annotations[ServiceAnnotationLoadBalancerID]`:
the empty string when the annotation is absent. -/
def loadBalancerID (service : Service) : String :=
  (mapGet service.Annotations ServiceAnnotationLoadBalancerID).getD ""

def loadBalancerName (rt : Runtime) (service : Service) : String :=
  match mapGet service.Annotations ServiceAnnotationLoadBalancerName with
  | some name => name
  | none => rt.DefaultLoadBalancerName service

def loadBalancerBalancingAlgorithm (service : Service) : String :=
  match mapGet service.Annotations ServiceAnnotationLoadBalancerBalancingAlgorithm with
  | some v => v
  | none => "round_robin"

def lbForwardingRuleCreateRequest (rt : Runtime) (port : ServicePort) :
    LBForwardingRuleCreateRequest :=
  { RequestProtocol := rt.ToLower port.Protocol
    RequestPort := port.Port
    CommunicationProtocol := rt.ToLower port.Protocol
    CommunicationPort := port.NodePort }

def loadBalancerForwardingRules (rt : Runtime) (service : Service) :
    List LBForwardingRuleCreateRequest :=
  service.Ports.map (lbForwardingRuleCreateRequest rt)

def loadBalancerHealthChecksEnabled (service : Service) : Bool :=
  match mapGet service.Annotations ServiceAnnotationLoadBalancerEnableHealthCheck with
  | none => false
  | some v =>
    match ParseBool v with
    | none => false
    | some res => res

/-- One numeric annotation of `loadBalancerHealthCheckRequest`: absent keeps the zero
value, present must pass `strconv.Atoi`, whose error is wrapped under `format`. -/
def intAnnotation (service : Service) (key format : String) : Except Error Int :=
  match mapGet service.Annotations key with
  | none => .ok 0
  | some v =>
    match Atoi v with
    | .error err => .error (Error.Errorf format err)
    | .ok n => .ok n

def loadBalancerHealthCheckRequest (service : Service) :
    Except Error LBHealthCheckCreateRequest :=
  let type_ := (mapGet service.Annotations ServiceAnnotationLoadBalancerHealthCheckType).getD ""
  let url := (mapGet service.Annotations ServiceAnnotationLoadBalancerHealthCheckURL).getD ""
  match intAnnotation service ServiceAnnotationLoadBalancerHealthCheckInterval
      "Invalid health check interval: %v" with
  | .error err => .error err
  | .ok interval =>
  match intAnnotation service ServiceAnnotationLoadBalancerHealthCheckTimeout
      "Invalid health check timeout: %v" with
  | .error err => .error err
  | .ok timeout =>
  match intAnnotation service ServiceAnnotationLoadBalancerHealthCheckUnhealthyThreshold
      "Invalid health check unhealthy threshold: %v" with
  | .error err => .error err
  | .ok unhealthyThreshold =>
  match intAnnotation service ServiceAnnotationLoadBalancerHealthCheckHealthyThreshold
      "Invalid health check healthy threshold: %v" with
  | .error err => .error err
  | .ok healthyThreshold =>
  match intAnnotation service ServiceAnnotationLoadBalancerHealthCheckPort
      "Invalid health check port: %v" with
  | .error err => .error err
  | .ok port =>
    .ok { Type_ := type_, URL := url, Interval := interval, Timeout := timeout,
          UnhealthyThreshold := unhealthyThreshold, HealthyThreshold := healthyThreshold,
          Port := port }

def loadBalancerBackendNodes : List Node → Except Error (List LBBackendNodeCreateRequest)
  | [] => .ok []
  | node :: rest =>
    match instanceIDByProviderID node.ProviderID with
    | .error err => .error err
    | .ok id =>
      match loadBalancerBackendNodes rest with
      | .error err => .error err
      | .ok requests => .ok ({ CloudServerID := id } :: requests)

def makeLoadBalancerCreateRequest {σ : Type} (l : loadbalancers σ) (service : Service)
    (nodes : List Node) : Except Error LoadBalancerCreateRequest :=
  let healthChecks : Except Error (List LBHealthCheckCreateRequest) :=
    if loadBalancerHealthChecksEnabled service then
      match loadBalancerHealthCheckRequest service with
      | .error err => .error err
      | .ok healthCheck => .ok [healthCheck]
    else .ok []
  match healthChecks with
  | .error err => .error err
  | .ok hcs =>
    match loadBalancerBackendNodes nodes with
    | .error err => .error err
    | .ok backendNodes =>
      .ok { Name := loadBalancerName l.rt service
            DatacenterID := l.clusterInfo.DatacenterID
            CreatePublicIPAddress := true
            PrivateNetworkIDs := [l.clusterInfo.PrivateNetworkID]
            BalancingAlgorithm := loadBalancerBalancingAlgorithm service
            ForwardingRules := loadBalancerForwardingRules l.rt service
            HealthChecks := hcs
            BackendNodes := backendNodes }

/-- The status of a load balancer: the source indexes `loadBalancer.IPAddresses[0]`, so
an empty address list is a runtime panic, the outcome `none`. -/
def loadBalancerStatus (loadBalancer : LoadBalancer) : Option LoadBalancerStatus :=
  match loadBalancer.IPAddresses with
  | [] => none
  | ip :: _ => some { Ingress := [{ IP := ip.Address }] }

/-! ## The convergence poller and the identity binder -/

/-- Modelled from the spec: `waitForState`, the convergence poller (§4.1), is called by
`loadbalancers.go` but its source is not part of the files at hand. It invokes the
state-fetch function until the fetched state equals the target; a fetch error aborts the
poll at once and is returned; when the context is done, here after `polls` fetches, a
timeout error is returned. -/
def waitForState {σ : Type} (polls : Nat)
    (stateFunc : World σ → Except Error String × World σ) (requiredState : String)
    (w : World σ) : Option Error × World σ :=
  match polls with
  | 0 => (some (Error.New "context deadline exceeded"), w)
  | n + 1 =>
    match stateFunc w with
    | (.error err, w1) => (some err, w1)
    | (.ok state, w1) =>
      if state = requiredState then (none, w1)
      else waitForState n stateFunc requiredState w1

/-- Modelled from the spec: `annotateService`, the identity binder (§2, §4.3), is called
by `createLoadBalancer` but its source is not part of the files at hand. It stores the
value under the key in the annotations of the service object. -/
def annotateService (service : Service) (annotationName value : String) : Service :=
  { service with Annotations := mapSet service.Annotations annotationName value }

/-! ## `patcher.go` -/

/-- The patcher keeps a deep copy of the service as `origin`; its `updated` field is the
pointer to the caller's service object, which `Patch` reads when it runs. -/
structure servicePatcher where
  origin : Service
deriving DecidableEq, Repr

def newServicePatcher (origin : Service) : servicePatcher :=
  { origin := origin }

/-- The two-way merge patch between two services, of which the package changes the
annotations only: the annotations to set and those to remove. It is empty when the two
annotation maps hold the same entries. -/
def CreateTwoWayMergePatch (origin updated : Service) : PatchDoc :=
  (updated.Annotations.filter (fun e =>
      decide (mapGet updated.Annotations e.1 = some e.2
        ∧ mapGet origin.Annotations e.1 ≠ some e.2))).map (fun e => (e.1, some e.2))
  ++ (origin.Annotations.filter (fun e =>
      (mapGet updated.Annotations e.1).isNone)).map (fun e => (e.1, none))

def servicePatcher.Patch {σ : Type} (sp : servicePatcher) (l : loadbalancers σ)
    (updated : Service) (w : World σ) : Option Error × World σ :=
  if CreateTwoWayMergePatch sp.origin updated = [] then (none, w)
  else
    match invoke (Call.PatchService sp.origin.Namespace sp.origin.Name
        (CreateTwoWayMergePatch sp.origin updated))
      (l.client.PatchService sp.origin.Namespace sp.origin.Name
        (CreateTwoWayMergePatch sp.origin updated)) w with
    | (some err, w1) =>
      (some (Error.Errorf ("failed to patch service object " ++ sp.origin.Namespace ++ "/"
        ++ sp.origin.Name ++ ": %s") err), w1)
    | (none, w1) => (none, w1)

/-! ## `loadbalancers.go`: the locator -/

def loadBalancerByID {σ : Type} (l : loadbalancers σ) (lbID : String) (w : World σ) :
    Except Error LoadBalancer × World σ :=
  if lbID = "" then (.error Error.ErrResourceNotFound, w)
  else invoke (Call.Get lbID) (l.client.Get lbID) w

/-- The result is the triple `(status, exists, err)`, or `none` for a panic. -/
def GetLoadBalancer {σ : Type} (l : loadbalancers σ) (service : Service) (w : World σ) :
    Option (Option LoadBalancerStatus × Bool × Option Error) × World σ :=
  if loadBalancerID service = "" then (some (none, false, none), w)
  else
    match loadBalancerByID l (loadBalancerID service) w with
    | (.error err, w1) =>
      if err = Error.ErrResourceNotFound then (some (none, false, none), w1)
      else (some (none, false, some err), w1)
    | (.ok loadBalancer, w1) =>
      match loadBalancerStatus loadBalancer with
      | none => (none, w1)
      | some status => (some (some status, true, none), w1)

def GetLoadBalancerName {σ : Type} (l : loadbalancers σ) (service : Service) : String :=
  loadBalancerName l.rt service

/-! ## `loadbalancers.go`: top-level info and forwarding rules -/

def updateLoadBalancerInfo {σ : Type} (l : loadbalancers σ) (service : Service)
    (lb : LoadBalancer) (w : World σ) : Option Error × World σ :=
  let request : LoadBalancerUpdateRequest :=
    { Name := if loadBalancerName l.rt service ≠ lb.Name then loadBalancerName l.rt service
        else ""
      BalancingAlgorithm :=
        if loadBalancerBalancingAlgorithm service ≠ lb.BalancingAlgorithm then
          loadBalancerBalancingAlgorithm service
        else "" }
  let updated : Bool := decide (loadBalancerName l.rt service ≠ lb.Name)
    || decide (loadBalancerBalancingAlgorithm service ≠ lb.BalancingAlgorithm)
  if updated = false then (none, w)
  else
    match invoke (Call.Update lb.ID request) (l.client.Update lb.ID request) w with
    | (some err, w1) => (some err, w1)
    | (none, w1) =>
      waitForState l.rt.polls
        (fun w2 =>
          match invoke (Call.Get lb.ID) (l.client.Get lb.ID) w2 with
          | (.error err, w3) => (.error err, w3)
          | (.ok lb1, w3) => (.ok lb1.State, w3))
        "active" w1

def addForwardingRule {σ : Type} (l : loadbalancers σ) (lbID : String) (port : ServicePort)
    (w : World σ) : Option Error × World σ :=
  match invoke (Call.CreateForwardingRule lbID (lbForwardingRuleCreateRequest l.rt port))
      (l.client.CreateForwardingRule lbID (lbForwardingRuleCreateRequest l.rt port)) w with
  | (.error err, w1) => (some err, w1)
  | (.ok fr, w1) =>
    waitForState l.rt.polls
      (fun w2 =>
        match invoke (Call.GetForwardingRule lbID fr.ID)
            (l.client.GetForwardingRule lbID fr.ID) w2 with
        | (.error err, w3) => (.error err, w3)
        | (.ok fr1, w3) => (.ok fr1.State, w3))
      "active" w1

def removeForwardingRule {σ : Type} (l : loadbalancers σ) (lbID frID : String)
    (w : World σ) : Option Error × World σ :=
  match invoke (Call.DeleteForwardingRule lbID frID)
      (l.client.DeleteForwardingRule lbID frID) w with
  | (some err, w1) => (some err, w1)
  | (none, w1) =>
    waitForState l.rt.polls
      (fun w2 =>
        match invoke (Call.GetForwardingRule lbID frID)
            (l.client.GetForwardingRule lbID frID) w2 with
        | (.error err, w3) =>
          if err = Error.ErrResourceNotFound then (.ok "deleted", w3) else (.error err, w3)
        | (.ok fr, w3) => (.ok fr.State, w3))
      "deleted" w1

/-- Whether a rule differs from the desired mapping of a port in one of its four
fields: the condition of `updateForwardingRule`. -/
def forwardingRuleDiffers (rt : Runtime) (port : ServicePort) (fr : LBForwardingRule) :
    Bool :=
  decide (fr.RequestProtocol ≠ rt.ToLower port.Protocol)
    || decide (fr.RequestPort ≠ port.Port)
    || decide (fr.CommunicationProtocol ≠ rt.ToLower port.Protocol)
    || decide (fr.CommunicationPort ≠ port.NodePort)

def updateForwardingRule {σ : Type} (l : loadbalancers σ) (port : ServicePort)
    (fr : LBForwardingRule) (lbID : String) (w : World σ) : Option Error × World σ :=
  if forwardingRuleDiffers l.rt port fr then
    match removeForwardingRule l lbID fr.ID w with
    | (some err, w1) => (some err, w1)
    | (none, w1) => addForwardingRule l lbID port w1
  else (none, w)

/-- The first loop of `updateForwardingRules`: the map `frsToDelete`. -/
def forwardingRulesByPort (rules : List LBForwardingRule) : GoMap Int LBForwardingRule :=
  rules.foldl (fun m fr => mapSet m fr.RequestPort fr) []

/-- The second loop of `updateForwardingRules`, over the service ports; it returns the
map `frsToDelete` it leaves behind. -/
def updateForwardingRules_ports {σ : Type} (l : loadbalancers σ) (lbID : String) :
    List ServicePort → GoMap Int LBForwardingRule → World σ →
      Option Error × GoMap Int LBForwardingRule × World σ
  | [], frsToDelete, w => (none, frsToDelete, w)
  | port :: rest, frsToDelete, w =>
    match mapGet frsToDelete port.Port with
    | none =>
      match addForwardingRule l lbID port w with
      | (some err, w1) => (some err, frsToDelete, w1)
      | (none, w1) => updateForwardingRules_ports l lbID rest frsToDelete w1
    | some fr =>
      match updateForwardingRule l port fr lbID w with
      | (some err, w1) => (some err, frsToDelete, w1)
      | (none, w1) =>
        updateForwardingRules_ports l lbID rest (mapDelete frsToDelete port.Port) w1

/-- The third loop of `updateForwardingRules`, over what is left of `frsToDelete`. -/
def updateForwardingRules_stale {σ : Type} (l : loadbalancers σ) (lbID : String) :
    List (Int × LBForwardingRule) → World σ → Option Error × World σ
  | [], w => (none, w)
  | e :: rest, w =>
    match removeForwardingRule l lbID e.2.ID w with
    | (some err, w1) => (some err, w1)
    | (none, w1) => updateForwardingRules_stale l lbID rest w1

def updateForwardingRules {σ : Type} (l : loadbalancers σ) (service : Service)
    (lb : LoadBalancer) (w : World σ) : Option Error × World σ :=
  match updateForwardingRules_ports l lb.ID service.Ports
      (forwardingRulesByPort lb.ForwardingRules) w with
  | (some err, _, w1) => (some err, w1)
  | (none, frsToDelete, w1) =>
    updateForwardingRules_stale l lb.ID (l.rt.rangeForwardingRules frsToDelete) w1

/-! ## `loadbalancers.go`: health checks -/

/-- Whether the existing health check differs from the desired one in one of the seven
policy fields: the condition of `updateHealthChecks`. -/
def healthCheckDiffers (origHC : LBHealthCheck) (hc : LBHealthCheckCreateRequest) : Bool :=
  decide (origHC.Type_ ≠ hc.Type_)
    || decide (origHC.URL ≠ hc.URL)
    || decide (origHC.Interval ≠ hc.Interval)
    || decide (origHC.Timeout ≠ hc.Timeout)
    || decide (origHC.UnhealthyThreshold ≠ hc.UnhealthyThreshold)
    || decide (origHC.HealthyThreshold ≠ hc.HealthyThreshold)
    || decide (origHC.Port ≠ hc.Port)

/-- The state-fetch function of the health-check polls of the create and update
paths. -/
def healthCheckState {σ : Type} (l : loadbalancers σ) (lbID hcID : String) (w : World σ) :
    Except Error String × World σ :=
  match invoke (Call.GetHealthCheck lbID hcID) (l.client.GetHealthCheck lbID hcID) w with
  | (.error err, w1) => (.error err, w1)
  | (.ok hc, w1) => (.ok hc.State, w1)

def updateHealthChecks {σ : Type} (l : loadbalancers σ) (service : Service)
    (lb : LoadBalancer) (w : World σ) : Option Error × World σ :=
  match loadBalancerHealthCheckRequest service with
  | .error err => (some err, w)
  | .ok hc =>
    match lb.HealthChecks with
    | [] =>
      match invoke (Call.CreateHealthCheck lb.ID hc) (l.client.CreateHealthCheck lb.ID hc)
          w with
      | (.error err, w1) => (some err, w1)
      | (.ok healthCheck, w1) =>
        waitForState l.rt.polls (healthCheckState l lb.ID healthCheck.ID) "active" w1
    | origHC :: _ =>
      if healthCheckDiffers origHC hc then
        let request : LBHealthCheckUpdateRequest :=
          { Type_ := hc.Type_, URL := hc.URL, Interval := hc.Interval,
            Timeout := hc.Timeout, UnhealthyThreshold := hc.UnhealthyThreshold,
            HealthyThreshold := hc.HealthyThreshold, Port := hc.Port }
        match invoke (Call.UpdateHealthCheck lb.ID origHC.ID request)
            (l.client.UpdateHealthCheck lb.ID origHC.ID request) w with
        | (some err, w1) => (some err, w1)
        | (none, w1) =>
          waitForState l.rt.polls (healthCheckState l lb.ID origHC.ID) "active" w1
      else (none, w)

def deleteHealthChecks {σ : Type} (l : loadbalancers σ) (lb : LoadBalancer) (w : World σ) :
    Option Error × World σ :=
  match lb.HealthChecks with
  | [] => (none, w)
  | origHC :: _ =>
    match invoke (Call.DeleteHealthCheck lb.ID origHC.ID)
        (l.client.DeleteHealthCheck lb.ID origHC.ID) w with
    | (some err, w1) => (some err, w1)
    | (none, w1) =>
      waitForState l.rt.polls
        (fun w2 =>
          match invoke (Call.GetHealthCheck lb.ID origHC.ID)
              (l.client.GetHealthCheck lb.ID origHC.ID) w2 with
          | (.error err, w3) =>
            if err = Error.ErrResourceNotFound then (.ok "deleted", w3)
            else (.error err, w3)
          | (.ok hc, w3) => (.ok hc.State, w3))
        "deleted" w1

/-! ## `loadbalancers.go`: backend nodes -/

/-- The state a poll of `addBackendNodes` reports for one listing: the state of the
first just-added node that is not active in the listing (the empty string when the
listing lacks it), `"active"` when there is none. -/
def addedNodesState (backendMap : GoMap String String) : List LBBackendNode → String
  | [] => "active"
  | bn :: rest =>
    if (mapGet backendMap bn.ID).getD "" ≠ "active" then (mapGet backendMap bn.ID).getD ""
    else addedNodesState backendMap rest

def addBackendNodes {σ : Type} (l : loadbalancers σ) (lbID : String) (bns : List String)
    (w : World σ) : Option Error × World σ :=
  match invoke (Call.AddBackendNodes lbID bns) (l.client.AddBackendNodes lbID bns) w with
  | (.error err, w1) => (some err, w1)
  | (.ok backendNodes, w1) =>
    waitForState l.rt.polls
      (fun w2 =>
        match invoke (Call.ListBackendNodes lbID) (l.client.ListBackendNodes lbID) w2 with
        | (.error err, w3) => (.error err, w3)
        | (.ok bns1, w3) =>
          (.ok (addedNodesState
            (bns1.foldl (fun m bn => mapSet m bn.ID bn.State) []) backendNodes), w3))
      "active" w1

def removeBackendNode {σ : Type} (l : loadbalancers σ) (lbID bnID : String) (w : World σ) :
    Option Error × World σ :=
  match invoke (Call.DeleteBackendNode lbID bnID) (l.client.DeleteBackendNode lbID bnID)
      w with
  | (some err, w1) => (some err, w1)
  | (none, w1) =>
    waitForState l.rt.polls
      (fun w2 =>
        match invoke (Call.GetBackendNode lbID bnID) (l.client.GetBackendNode lbID bnID)
            w2 with
        | (.error err, w3) =>
          if err = Error.ErrResourceNotFound then (.ok "deleted", w3)
          else (.error err, w3)
        | (.ok bn, w3) => (.ok bn.State, w3))
      "deleted" w1

/-- The first loop of `updateBackendNodes`: the map `bnsToDelete`. -/
def backendNodesByServer (bns : List LBBackendNode) : GoMap String LBBackendNode :=
  bns.foldl (fun m bn => mapSet m bn.CloudServerID bn) []

/-- The second loop of `updateBackendNodes`, over the nodes: it returns `bnsToAdd` and
what is left of `bnsToDelete`, or the error of the first provider ID that does not
parse. -/
def updateBackendNodes_nodes :
    List Node → List String → GoMap String LBBackendNode →
      Except Error (List String × GoMap String LBBackendNode)
  | [], bnsToAdd, bnsToDelete => .ok (bnsToAdd, bnsToDelete)
  | node :: rest, bnsToAdd, bnsToDelete =>
    match instanceIDByProviderID node.ProviderID with
    | .error err => .error err
    | .ok id =>
      match mapGet bnsToDelete id with
      | none => updateBackendNodes_nodes rest (bnsToAdd ++ [id]) bnsToDelete
      | some _ => updateBackendNodes_nodes rest bnsToAdd (mapDelete bnsToDelete id)

/-- The last loop of `updateBackendNodes`, over what is left of `bnsToDelete`. -/
def updateBackendNodes_stale {σ : Type} (l : loadbalancers σ) (lbID : String) :
    List (String × LBBackendNode) → World σ → Option Error × World σ
  | [], w => (none, w)
  | e :: rest, w =>
    match removeBackendNode l lbID e.2.ID w with
    | (some err, w1) => (some err, w1)
    | (none, w1) => updateBackendNodes_stale l lbID rest w1

def updateBackendNodes {σ : Type} (l : loadbalancers σ) (nodes : List Node)
    (lb : LoadBalancer) (w : World σ) : Option Error × World σ :=
  match updateBackendNodes_nodes nodes [] (backendNodesByServer lb.BackendNodes) with
  | .error err => (some err, w)
  | .ok (bnsToAdd, bnsToDelete) =>
    match (if 0 < bnsToAdd.length then addBackendNodes l lb.ID bnsToAdd w
        else (none, w)) with
    | (some err, w1) => (some err, w1)
    | (none, w1) =>
      updateBackendNodes_stale l lb.ID (l.rt.rangeBackendNodes bnsToDelete) w1

/-! ## `loadbalancers.go`: the orchestrator -/

def updateLoadBalancer {σ : Type} (l : loadbalancers σ) (service : Service)
    (nodes : List Node) (lb : LoadBalancer) (w : World σ) : Option Error × World σ :=
  match updateLoadBalancerInfo l service lb w with
  | (some err, w1) => (some err, w1)
  | (none, w1) =>
    match updateForwardingRules l service lb w1 with
    | (some err, w2) => (some err, w2)
    | (none, w2) =>
      match (if loadBalancerHealthChecksEnabled service then
          updateHealthChecks l service lb w2 else deleteHealthChecks l lb w2) with
      | (some err, w3) => (some err, w3)
      | (none, w3) => updateBackendNodes l nodes lb w3

/-- The result carries the service object as `createLoadBalancer` leaves it: the source
annotates the object it is given. -/
def createLoadBalancer {σ : Type} (l : loadbalancers σ) (service : Service)
    (nodes : List Node) (w : World σ) : Except Error LoadBalancer × Service × World σ :=
  match makeLoadBalancerCreateRequest l service nodes with
  | .error err =>
    (.error (Error.Errorf "Error makeLoadBalancerCreateRequest: %v" err), service, w)
  | .ok request =>
    match invoke (Call.Create request) (l.client.Create request) w with
    | (.error err, w1) =>
      (.error (Error.Errorf "API LoadBalancers.Create error: %v" err), service, w1)
    | (.ok loadBalancer, w1) =>
      match (newServicePatcher service).Patch l
          (annotateService service ServiceAnnotationLoadBalancerID loadBalancer.ID) w1 with
      | (some err, w2) =>
        (.error err,
          annotateService service ServiceAnnotationLoadBalancerID loadBalancer.ID, w2)
      | (none, w2) =>
        (.ok loadBalancer,
          annotateService service ServiceAnnotationLoadBalancerID loadBalancer.ID, w2)

/-- The part of `EnsureLoadBalancer` after the load balancer is located or created:
the active-state gate, the update and the status. The result is the pair
`(status, err)`, or `none` for a panic. -/
def EnsureLoadBalancer_gate {σ : Type} (l : loadbalancers σ) (service : Service)
    (nodes : List Node) (loadBalancer : LoadBalancer) (w : World σ) :
    Option (Option LoadBalancerStatus × Option Error) × Service × World σ :=
  if loadBalancer.State ≠ loadBalancerActiveStatus then
    (some (none, some (Error.New ("Load balancer is not active yet: " ++ loadBalancer.State))),
      service, w)
  else
    match updateLoadBalancer l service nodes loadBalancer w with
    | (some err, w1) =>
      (some (none, some (Error.Errorf "Error updating load balancer: %v" err)), service, w1)
    | (none, w1) =>
      match loadBalancerStatus loadBalancer with
      | none => (none, service, w1)
      | some status => (some (some status, none), service, w1)

/-- The result is the pair `(status, err)`, or `none` for a panic, with the service
object as the call leaves it and the world after the call. -/
def EnsureLoadBalancer {σ : Type} (l : loadbalancers σ) (service : Service)
    (nodes : List Node) (w : World σ) :
    Option (Option LoadBalancerStatus × Option Error) × Service × World σ :=
  match loadBalancerByID l (loadBalancerID service) w with
  | (.error err, w1) =>
    if err = Error.ErrResourceNotFound then
      match createLoadBalancer l service nodes w1 with
      | (.error err1, service1, w2) =>
        (some (none, some (Error.Errorf "Error creating load balancer: %v" err1)),
          service1, w2)
      | (.ok loadBalancer, service1, w2) =>
        EnsureLoadBalancer_gate l service1 nodes loadBalancer w2
    else (some (none, some err), service, w1)
  | (.ok loadBalancer, w1) => EnsureLoadBalancer_gate l service nodes loadBalancer w1

def UpdateLoadBalancer {σ : Type} (l : loadbalancers σ) (service : Service)
    (nodes : List Node) (w : World σ) : Option Error × World σ :=
  match loadBalancerByID l (loadBalancerID service) w with
  | (.error err, w1) => (some err, w1)
  | (.ok loadBalancer, w1) =>
    if loadBalancer.State ≠ loadBalancerActiveStatus then
      (some (Error.New ("Load balancer is not active yet: " ++ loadBalancer.State)), w1)
    else updateLoadBalancer l service nodes loadBalancer w1

def EnsureLoadBalancerDeleted {σ : Type} (l : loadbalancers σ) (service : Service)
    (w : World σ) : Option Error × World σ :=
  match loadBalancerByID l (loadBalancerID service) w with
  | (.error err, w1) =>
    if err = Error.ErrResourceNotFound then (none, w1) else (some err, w1)
  | (.ok loadBalancer, w1) =>
    if loadBalancer.State = "deleting" then
      (some (Error.New "Load balancer is already in deletion state"), w1)
    else
      match invoke (Call.Delete loadBalancer.ID) (l.client.Delete loadBalancer.ID) w1 with
      | (some err, w2) =>
        if err = Error.ErrResourceNotFound then (none, w2)
        else (some (Error.Errorf "Error deleting load balancer: %v" err), w2)
      | (none, w2) => (some (Error.New "LB deletion has been started"), w2)

/-! ## Observing a run -/

/-- The calls issued between two worlds of one run: what the trace gained. -/
def issued {σ : Type} (before after : World σ) : List Call :=
  after.trace.drop before.trace.length

/-- The run from `w` to `w'` only appended calls, each of which satisfies `P`. -/
def Extends {σ : Type} (P : Call → Prop) (w w' : World σ) : Prop :=
  ∃ evs, w'.trace = w.trace ++ evs ∧ ∀ c ∈ evs, P c

/-- The calls the locator issues: none for an empty identifier, else one `Get`. -/
def locateCalls (lbID : String) : List Call :=
  if lbID = "" then [] else [Call.Get lbID]

/-- The calls `servicePatcher.Patch` issues after `createLoadBalancer` has annotated the
service with the identifier: none when the annotation already held it, else one patch
that sets the load-balancer-ID annotation. -/
def patchCalls (service : Service) (lbID : String) : List Call :=
  if mapGet service.Annotations ServiceAnnotationLoadBalancerID = some lbID then []
  else [Call.PatchService service.Namespace service.Name
    [(ServiceAnnotationLoadBalancerID, some lbID)]]

/-- The mapping a remote forwarding rule carries: its two protocols and two ports. -/
def LBForwardingRule.mapping (fr : LBForwardingRule) : LBForwardingRuleCreateRequest :=
  { RequestProtocol := fr.RequestProtocol
    RequestPort := fr.RequestPort
    CommunicationProtocol := fr.CommunicationProtocol
    CommunicationPort := fr.CommunicationPort }

/-- An existing rule that has to go: its request port is not a desired port, or it
differs from the desired mapping at that port. -/
def staleForwardingRule (rt : Runtime) (ports : List ServicePort) (fr : LBForwardingRule) :
    Bool :=
  decide (fr.RequestPort ∉ ports.map ServicePort.Port)
    || ports.any (fun port => decide (port.Port = fr.RequestPort)
        && forwardingRuleDiffers rt port fr)

/-- A desired mapping that has to be created: no existing rule at its port, or a
differing one. -/
def needsForwardingRule (rt : Runtime) (rules : List LBForwardingRule) (port : ServicePort) :
    Bool :=
  decide (port.Port ∉ rules.map LBForwardingRule.RequestPort)
    || rules.any (fun fr => decide (fr.RequestPort = port.Port)
        && forwardingRuleDiffers rt port fr)

/-- Whether the loop over the ports creates a rule for the port, given the map
`frsToDelete` it finds. -/
def createsForwardingRule (rt : Runtime) (frsToDelete : GoMap Int LBForwardingRule)
    (port : ServicePort) : Bool :=
  match mapGet frsToDelete port.Port with
  | none => true
  | some fr => forwardingRuleDiffers rt port fr

/-- The calls that change the remote load balancer after it exists: `Update` and every
forwarding-rule, health-check and backend-node call. -/
def Call.isUpdateOrSubresource : Call → Bool
  | Call.Get _ => false
  | Call.Create _ => false
  | Call.Delete _ => false
  | Call.PatchService _ _ _ => false
  | _ => true

/-- The calls that change remote state: every call but the four `Get`s and the
listing. -/
def Call.isMutating : Call → Bool
  | Call.Get _ => false
  | Call.GetForwardingRule _ _ => false
  | Call.GetHealthCheck _ _ => false
  | Call.GetBackendNode _ _ => false
  | Call.ListBackendNodes _ => false
  | _ => true

/-- The calls `updateLoadBalancer` can issue: `Update`, `Get` and every forwarding-rule,
health-check and backend-node call. -/
def Call.isReconcile : Call → Bool
  | Call.Create _ => false
  | Call.Delete _ => false
  | Call.PatchService _ _ _ => false
  | _ => true

def Call.isCreate : Call → Bool
  | Call.Create _ => true
  | _ => false

def Call.isDelete : Call → Bool
  | Call.Delete _ => true
  | _ => false

def Call.isCreateForwardingRule : Call → Bool
  | Call.CreateForwardingRule _ _ => true
  | _ => false

def Call.isDeleteForwardingRule : Call → Bool
  | Call.DeleteForwardingRule _ _ => true
  | _ => false

def Call.isAddBackendNodes : Call → Bool
  | Call.AddBackendNodes _ _ => true
  | _ => false

def Call.isDeleteBackendNode : Call → Bool
  | Call.DeleteBackendNode _ _ => true
  | _ => false

/-! ## Observing a run: the blocks of `updateLoadBalancer` -/

def Call.isUpdate : Call → Bool
  | Call.Update _ _ => true
  | _ => false

/-- The calls of the top-level info sync: `Update` and the `Get` of its poll. -/
def Call.isInfoCall : Call → Bool
  | Call.Update _ _ => true
  | Call.Get _ => true
  | _ => false

def Call.isForwardingRuleCall : Call → Bool
  | Call.CreateForwardingRule _ _ => true
  | Call.GetForwardingRule _ _ => true
  | Call.DeleteForwardingRule _ _ => true
  | _ => false

def Call.isHealthCheckCall : Call → Bool
  | Call.CreateHealthCheck _ _ => true
  | Call.GetHealthCheck _ _ => true
  | Call.UpdateHealthCheck _ _ _ => true
  | Call.DeleteHealthCheck _ _ => true
  | _ => false

def Call.isBackendNodeCall : Call → Bool
  | Call.AddBackendNodes _ _ => true
  | Call.ListBackendNodes _ => true
  | Call.GetBackendNode _ _ => true
  | Call.DeleteBackendNode _ _ => true
  | _ => false

def Call.isCreateHealthCheck : Call → Bool
  | Call.CreateHealthCheck _ _ => true
  | _ => false

def Call.isUpdateHealthCheck : Call → Bool
  | Call.UpdateHealthCheck _ _ _ => true
  | _ => false

def Call.isDeleteHealthCheck : Call → Bool
  | Call.DeleteHealthCheck _ _ => true
  | _ => false

/-- The health-check step of `updateLoadBalancer`: the sync when health checks are
enabled, the deletion when they are not. -/
def healthCheckStep {σ : Type} (l : loadbalancers σ) (service : Service) (lb : LoadBalancer)
    (w : World σ) : Option Error × World σ :=
  if loadBalancerHealthChecksEnabled service then updateHealthChecks l service lb w
  else deleteHealthChecks l lb w

/-- The update request `updateLoadBalancerInfo` builds: each field holds the desired
value when it differs from the remote one and is left empty otherwise. -/
def loadBalancerUpdateRequest (rt : Runtime) (service : Service) (lb : LoadBalancer) :
    LoadBalancerUpdateRequest :=
  { Name := if loadBalancerName rt service ≠ lb.Name then loadBalancerName rt service else ""
    BalancingAlgorithm :=
      if loadBalancerBalancingAlgorithm service ≠ lb.BalancingAlgorithm then
        loadBalancerBalancingAlgorithm service
      else "" }

/-- The update request `updateHealthChecks` builds from the desired health check. -/
def healthCheckUpdateRequest (hc : LBHealthCheckCreateRequest) : LBHealthCheckUpdateRequest :=
  { Type_ := hc.Type_, URL := hc.URL, Interval := hc.Interval, Timeout := hc.Timeout,
    UnhealthyThreshold := hc.UnhealthyThreshold, HealthyThreshold := hc.HealthyThreshold,
    Port := hc.Port }

/-- The state-fetch function `stateFunc` of `addBackendNodes`: the closure over the
response `backendNodes` of the `AddBackendNodes` call. -/
def addBackendNodes_stateFunc {σ : Type} (l : loadbalancers σ) (lbID : String)
    (backendNodes : List LBBackendNode) (w : World σ) : Except Error String × World σ :=
  match invoke (Call.ListBackendNodes lbID) (l.client.ListBackendNodes lbID) w with
  | (.error err, w1) => (.error err, w1)
  | (.ok bns, w1) =>
    (.ok (addedNodesState (bns.foldl (fun m bn => mapSet m bn.ID bn.State) []) backendNodes),
      w1)

/-- The state a listing reports for a node ID: the state of its node of that ID, the
empty string when it has none (should a listing repeat an ID, its last entry counts). -/
def currentState (bns : List LBBackendNode) (bnID : String) : String :=
  ((bns.reverse.find? (fun bn => decide (bn.ID = bnID))).map LBBackendNode.State).getD ""

/-- The interval annotation, when present, does not pass `strconv.Atoi`, or likewise the
timeout, unhealthy-threshold, healthy-threshold or port annotation. -/
def malformedHealthCheckAnnotation (service : Service) : Bool :=
  [ServiceAnnotationLoadBalancerHealthCheckInterval,
   ServiceAnnotationLoadBalancerHealthCheckTimeout,
   ServiceAnnotationLoadBalancerHealthCheckUnhealthyThreshold,
   ServiceAnnotationLoadBalancerHealthCheckHealthyThreshold,
   ServiceAnnotationLoadBalancerHealthCheckPort].any
    (fun key =>
      match mapGet service.Annotations key with
      | none => false
      | some v =>
        match Atoi v with
        | .error _ => true
        | .ok _ => false)

/-- A numeric field of the desired health check holds the value of its annotation: zero
when the annotation is absent, else the integer `strconv.Atoi` reads from it. -/
def intAnnotationHolds (service : Service) (key : String) (n : Int) : Bool :=
  match mapGet service.Annotations key with
  | none => decide (n = 0)
  | some v => decide (Atoi v = .ok n)

/-- The calls of `removeBackendNode`: `DeleteBackendNode` and the `GetBackendNode` of its
poll. -/
def Call.isRemoveBackendNodeCall : Call → Bool
  | Call.DeleteBackendNode _ _ => true
  | Call.GetBackendNode _ _ => true
  | _ => false

/-- The desired instance IDs that no existing backend node carries as CloudServerID, in
the order given. -/
def missingInstanceIDs (ids : List String) (existing : List LBBackendNode) : List String :=
  ids.filter (fun id => decide (id ∉ existing.map LBBackendNode.CloudServerID))

/-! ## `instances.go`: the instance lookup -/

/-- The fields of `ah.Instance` the package reads. -/
structure Instance where
  ID : String
  Name : String
  State : String
deriving DecidableEq, Repr

/-- The receiver `instances`: the method `Instances.Get` of its API client, over an
abstract remote state `σ`. -/
structure instances (σ : Type) where
  Get : String → σ → Except Error Instance × σ

/-- The remote state together with the instance IDs `Instances.Get` was called with so
far, oldest first. -/
structure InstancesWorld (σ : Type) where
  st : σ
  gets : List String
deriving DecidableEq

def instanceByProviderID {σ : Type} (i : instances σ) (providerID : String)
    (w : InstancesWorld σ) : Except Error Instance × InstancesWorld σ :=
  match instanceIDByProviderID providerID with
  | .error err => (.error err, w)
  | .ok instanceID =>
    match i.Get instanceID w.st with
    | (.error err, st1) => (.error err, { st := st1, gets := w.gets ++ [instanceID] })
    | (.ok inst, st1) => (.ok inst, { st := st1, gets := w.gets ++ [instanceID] })

/-- The result is the pair `(exists, err)`. -/
def InstanceExistsByProviderID {σ : Type} (i : instances σ) (providerID : String)
    (w : InstancesWorld σ) : (Bool × Option Error) × InstancesWorld σ :=
  match instanceByProviderID i providerID w with
  | (.error err, w1) =>
    if err = Error.ErrResourceNotFound then ((false, none), w1)
    else ((false, some err), w1)
  | (.ok _, w1) => ((true, none), w1)

/-! ## The state-fetch functions of the polls -/

/-- The closure `stateFunc` of `removeForwardingRule`. -/
def removeForwardingRule_stateFunc {σ : Type} (l : loadbalancers σ) (lbID frID : String)
    (w : World σ) : Except Error String × World σ :=
  match invoke (Call.GetForwardingRule lbID frID) (l.client.GetForwardingRule lbID frID)
      w with
  | (.error err, w1) =>
    if err = Error.ErrResourceNotFound then (.ok "deleted", w1) else (.error err, w1)
  | (.ok fr, w1) => (.ok fr.State, w1)

/-- The closure `stateFunc` of `deleteHealthChecks`. -/
def deleteHealthChecks_stateFunc {σ : Type} (l : loadbalancers σ) (lbID hcID : String)
    (w : World σ) : Except Error String × World σ :=
  match invoke (Call.GetHealthCheck lbID hcID) (l.client.GetHealthCheck lbID hcID) w with
  | (.error err, w1) =>
    if err = Error.ErrResourceNotFound then (.ok "deleted", w1) else (.error err, w1)
  | (.ok hc, w1) => (.ok hc.State, w1)

/-- The closure `stateFunc` of `removeBackendNode`. -/
def removeBackendNode_stateFunc {σ : Type} (l : loadbalancers σ) (lbID bnID : String)
    (w : World σ) : Except Error String × World σ :=
  match invoke (Call.GetBackendNode lbID bnID) (l.client.GetBackendNode lbID bnID) w with
  | (.error err, w1) =>
    if err = Error.ErrResourceNotFound then (.ok "deleted", w1) else (.error err, w1)
  | (.ok bn, w1) => (.ok bn.State, w1)

/-- The closure `stateFunc` of `addForwardingRule`, for the ID of the created rule. -/
def addForwardingRule_stateFunc {σ : Type} (l : loadbalancers σ) (lbID frID : String)
    (w : World σ) : Except Error String × World σ :=
  match invoke (Call.GetForwardingRule lbID frID) (l.client.GetForwardingRule lbID frID)
      w with
  | (.error err, w1) => (.error err, w1)
  | (.ok fr, w1) => (.ok fr.State, w1)

/-- The closure `stateFunc` of `updateLoadBalancerInfo`. -/
def updateLoadBalancerInfo_stateFunc {σ : Type} (l : loadbalancers σ) (lbID : String)
    (w : World σ) : Except Error String × World σ :=
  match invoke (Call.Get lbID) (l.client.Get lbID) w with
  | (.error err, w1) => (.error err, w1)
  | (.ok lb, w1) => (.ok lb.State, w1)

/-! ## Observing the errors of the remote calls -/

/-- The error a call that returns `(value, error)` has returned, as a list: empty when
it succeeded. -/
def failureOf {α : Type} : Except Error α → List Error
  | .error err => [err]
  | .ok _ => []

/-- The error of a result `(value, error)`, if any. -/
def errorOf {α : Type} : Except Error α → Option Error
  | .error err => some err
  | .ok _ => none

/-- A method returning `(value, error)` keeps the log: after the call the log is the log
before it, followed by the error the call returned, if it returned one. -/
def RecordsExcept {σ α : Type} (log : σ → List Error) (f : σ → Except Error α × σ) : Prop :=
  ∀ s, log (f s).2 = log s ++ failureOf (f s).1

/-- A method returning `error` keeps the log. -/
def RecordsOption {σ : Type} (log : σ → List Error) (f : σ → Option Error × σ) : Prop :=
  ∀ s, log (f s).2 = log s ++ (f s).1.toList

/-- The remote state of the client keeps a log of the errors its load-balancer methods
have returned, oldest first; the `Patch` method of the Kubernetes client leaves the log
as it is. -/
structure Records {σ : Type} (c : APIClient σ) (log : σ → List Error) : Prop where
  Get : ∀ lbID, RecordsExcept log (c.Get lbID)
  Create : ∀ request, RecordsExcept log (c.Create request)
  Update : ∀ lbID request, RecordsOption log (c.Update lbID request)
  Delete : ∀ lbID, RecordsOption log (c.Delete lbID)
  CreateForwardingRule : ∀ lbID request,
    RecordsExcept log (c.CreateForwardingRule lbID request)
  GetForwardingRule : ∀ lbID frID, RecordsExcept log (c.GetForwardingRule lbID frID)
  DeleteForwardingRule : ∀ lbID frID, RecordsOption log (c.DeleteForwardingRule lbID frID)
  CreateHealthCheck : ∀ lbID request, RecordsExcept log (c.CreateHealthCheck lbID request)
  GetHealthCheck : ∀ lbID hcID, RecordsExcept log (c.GetHealthCheck lbID hcID)
  UpdateHealthCheck : ∀ lbID hcID request,
    RecordsOption log (c.UpdateHealthCheck lbID hcID request)
  DeleteHealthCheck : ∀ lbID hcID, RecordsOption log (c.DeleteHealthCheck lbID hcID)
  AddBackendNodes : ∀ lbID ids, RecordsExcept log (c.AddBackendNodes lbID ids)
  ListBackendNodes : ∀ lbID, RecordsExcept log (c.ListBackendNodes lbID)
  GetBackendNode : ∀ lbID bnID, RecordsExcept log (c.GetBackendNode lbID bnID)
  DeleteBackendNode : ∀ lbID bnID, RecordsOption log (c.DeleteBackendNode lbID bnID)
  PatchService : ∀ ns name patch s, log (c.PatchService ns name patch s).2 = log s

/-- Between two worlds the log gained errors that are all the not-found condition,
except that the step may have gained the error it returns. -/
def Propagates {σ : Type} (log : σ → List Error) (r : Option Error) (w w' : World σ) :
    Prop :=
  ∃ errs, log w'.st = log w.st ++ errs
    ∧ ∀ e ∈ errs, e ≠ Error.ErrResourceNotFound → r = some e

/-- Run a method returning `(value, error)` on the remote state and append the error it
returns to the log kept next to that state. -/
def recordExcept {σ α : Type} (f : σ → Except Error α × σ) (s : σ × List Error) :
    Except Error α × (σ × List Error) :=
  ((f s.1).1, ((f s.1).2, s.2 ++ failureOf (f s.1).1))

/-- Run a method returning `error` and append the error it returns to the log. -/
def recordOption {σ : Type} (f : σ → Option Error × σ) (s : σ × List Error) :
    Option Error × (σ × List Error) :=
  ((f s.1).1, ((f s.1).2, s.2 ++ (f s.1).1.toList))

/-- The client that answers as `c` does and keeps the log of the errors returned. -/
def APIClient.recording {σ : Type} (c : APIClient σ) : APIClient (σ × List Error) :=
  { Get := fun lbID => recordExcept (c.Get lbID)
    Create := fun request => recordExcept (c.Create request)
    Update := fun lbID request => recordOption (c.Update lbID request)
    Delete := fun lbID => recordOption (c.Delete lbID)
    CreateForwardingRule := fun lbID request =>
      recordExcept (c.CreateForwardingRule lbID request)
    GetForwardingRule := fun lbID frID => recordExcept (c.GetForwardingRule lbID frID)
    DeleteForwardingRule := fun lbID frID => recordOption (c.DeleteForwardingRule lbID frID)
    CreateHealthCheck := fun lbID request => recordExcept (c.CreateHealthCheck lbID request)
    GetHealthCheck := fun lbID hcID => recordExcept (c.GetHealthCheck lbID hcID)
    UpdateHealthCheck := fun lbID hcID request =>
      recordOption (c.UpdateHealthCheck lbID hcID request)
    DeleteHealthCheck := fun lbID hcID => recordOption (c.DeleteHealthCheck lbID hcID)
    AddBackendNodes := fun lbID ids => recordExcept (c.AddBackendNodes lbID ids)
    ListBackendNodes := fun lbID => recordExcept (c.ListBackendNodes lbID)
    GetBackendNode := fun lbID bnID => recordExcept (c.GetBackendNode lbID bnID)
    DeleteBackendNode := fun lbID bnID => recordOption (c.DeleteBackendNode lbID bnID)
    PatchService := fun ns name patch s =>
      ((c.PatchService ns name patch s.1).1, ((c.PatchService ns name patch s.1).2, s.2)) }

/-! ## Test doubles, after `loadbalancers_test.go` -/

/-- An ASCII `strings.ToLower`. -/
def asciiLower (s : String) : String :=
  String.mk (s.data.map Char.toLower)

/-- A runtime whose `range` visits a map in the order of the association list and whose
context allows three fetches per poll. -/
def testRuntime : Runtime :=
  { ToLower := asciiLower
    DefaultLoadBalancerName := fun service => "a" ++ service.UID
    rangeForwardingRules := fun m => m
    rangeForwardingRules_perm := fun m => List.Perm.refl m
    rangeBackendNodes := fun m => m
    rangeBackendNodes_perm := fun m => List.Perm.refl m
    polls := 3 }

/-- A remote platform in the manner of the gomock expectations of the tests: `Get` and
`Create` answer with the given results, every mutation succeeds, a created sub-resource
is active at its first fetch, a deleted one is reported not-found, and the state is the
list of backend nodes added so far. -/
def mockLoadBalancersAPI (get create : Except Error LoadBalancer) :
    APIClient (List LBBackendNode) :=
  { Get := fun _ st => (get, st)
    Create := fun _ st => (create, st)
    Update := fun _ _ st => (none, st)
    Delete := fun _ st => (none, st)
    CreateForwardingRule := fun _ request st =>
      (.ok { ID := "test-new-id", RequestProtocol := request.RequestProtocol,
             RequestPort := request.RequestPort,
             CommunicationProtocol := request.CommunicationProtocol,
             CommunicationPort := request.CommunicationPort, State := "creating" }, st)
    GetForwardingRule := fun _ frID st =>
      (if frID = "test-new-id" then
        .ok { ID := frID, RequestProtocol := "", RequestPort := 0,
              CommunicationProtocol := "", CommunicationPort := 0, State := "active" }
      else .error Error.ErrResourceNotFound, st)
    DeleteForwardingRule := fun _ _ st => (none, st)
    CreateHealthCheck := fun _ request st =>
      (.ok { ID := "test-id", Type_ := request.Type_, URL := request.URL,
             Interval := request.Interval, Timeout := request.Timeout,
             UnhealthyThreshold := request.UnhealthyThreshold,
             HealthyThreshold := request.HealthyThreshold, Port := request.Port,
             State := "creating" }, st)
    GetHealthCheck := fun _ hcID st =>
      (if hcID = "test-id" then
        .ok { ID := hcID, Type_ := "", URL := "", Interval := 0, Timeout := 0,
              UnhealthyThreshold := 0, HealthyThreshold := 0, Port := 0, State := "active" }
      else .error Error.ErrResourceNotFound, st)
    UpdateHealthCheck := fun _ _ _ st => (none, st)
    DeleteHealthCheck := fun _ _ st => (none, st)
    AddBackendNodes := fun _ ids st =>
      (.ok (ids.map (fun id =>
          { ID := "test-backend-node-" ++ id, CloudServerID := id, State := "creating" })),
        st ++ ids.map (fun id =>
          { ID := "test-backend-node-" ++ id, CloudServerID := id, State := "active" }))
    ListBackendNodes := fun _ st => (.ok st, st)
    GetBackendNode := fun _ _ st => (.error Error.ErrResourceNotFound, st)
    DeleteBackendNode := fun _ _ st => (none, st)
    PatchService := fun _ _ _ st => (none, st) }

def testLoadbalancers (get create : Except Error LoadBalancer) :
    loadbalancers (List LBBackendNode) :=
  { client := mockLoadBalancersAPI get create
    clusterInfo := { PrivateNetworkID := "test-pn-id", DatacenterID := "test-dc-id" }
    rt := testRuntime }

/-- The test double with a remote platform whose `Update` fails. -/
def testLoadbalancersUpdateFails (get : Except Error LoadBalancer) :
    loadbalancers (List LBBackendNode) :=
  { client :=
      { mockLoadBalancersAPI get (.error (Error.New "unused")) with
        Update := fun _ _ st => (some (Error.New "update failed"), st) }
    clusterInfo := { PrivateNetworkID := "test-pn-id", DatacenterID := "test-dc-id" }
    rt := testRuntime }

def testAnnotaions : GoMap String String :=
  [ (ServiceAnnotationLoadBalancerID, "test-lb-id"),
    (ServiceAnnotationLoadBalancerName, "test-lb-name"),
    (ServiceAnnotationLoadBalancerBalancingAlgorithm, "round_robin"),
    (ServiceAnnotationLoadBalancerEnableHealthCheck, "true"),
    (ServiceAnnotationLoadBalancerHealthCheckType, "tcp"),
    (ServiceAnnotationLoadBalancerHealthCheckURL, ""),
    (ServiceAnnotationLoadBalancerHealthCheckInterval, "5"),
    (ServiceAnnotationLoadBalancerHealthCheckTimeout, "2"),
    (ServiceAnnotationLoadBalancerHealthCheckUnhealthyThreshold, "5"),
    (ServiceAnnotationLoadBalancerHealthCheckHealthyThreshold, "5"),
    (ServiceAnnotationLoadBalancerHealthCheckPort, "8080") ]

def testPorts : List ServicePort :=
  [ { Name := "test-port", Protocol := "tcp", Port := 80, NodePort := 30000 } ]

def testService (annotations : GoMap String String) (ports : List ServicePort) : Service :=
  { Namespace := "default", Name := "test-service", UID := "test-uid",
    Annotations := annotations, Ports := ports }

def testNodes : List Node :=
  [ { ProviderID := "advancedhosting://test-cloud-server-1" },
    { ProviderID := "advancedhosting://test-cloud-server-2" } ]

def testLBGetResponse : LoadBalancer :=
  { ID := "test-lb-id"
    Name := "test-lb-name"
    State := "active"
    BalancingAlgorithm := "round_robin"
    IPAddresses := [ { ID := "", Address := "1.2.3.4" } ]
    ForwardingRules :=
      [ { ID := "", RequestProtocol := "tcp", RequestPort := 80,
          CommunicationProtocol := "tcp", CommunicationPort := 30000, State := "" } ]
    HealthChecks :=
      [ { ID := "", Type_ := "tcp", URL := "", Interval := 5, Timeout := 2,
          UnhealthyThreshold := 5, HealthyThreshold := 5, Port := 8080, State := "" } ]
    BackendNodes :=
      [ { ID := "test-id-1", CloudServerID := "test-cloud-server-1", State := "" },
        { ID := "test-id-2", CloudServerID := "test-cloud-server-2", State := "" } ] }

/-- The world before a call: nothing issued yet, no backend node added by the mock. -/
def testWorld : World (List LBBackendNode) :=
  { st := [], trace := [] }

/-- The mock of `InstancesAPI` of `instances_test.go`: `Get` returns the given result
for any ID. -/
def mockInstancesAPI (get : Except Error Instance) : instances Unit :=
  { Get := fun _ st => (get, st) }

/-- The mock of `TestLoadBalancers_DisableHC`, over a counter of the polls made: the
first `Get` of a sub-resource reports the state "deleting", every later one the
not-found error; the deletions succeed. -/
def mockDeletingThenGone : APIClient Nat :=
  { Get := fun _ st => (.ok testLBGetResponse, st)
    Create := fun _ st => (.error (Error.New "unused"), st)
    Update := fun _ _ st => (none, st)
    Delete := fun _ st => (none, st)
    CreateForwardingRule := fun _ _ st => (.error (Error.New "unused"), st)
    GetForwardingRule := fun _ frID st =>
      (if st = 0 then
        .ok { ID := frID, RequestProtocol := "", RequestPort := 0,
              CommunicationProtocol := "", CommunicationPort := 0, State := "deleting" }
      else .error Error.ErrResourceNotFound, st + 1)
    DeleteForwardingRule := fun _ _ st => (none, st)
    CreateHealthCheck := fun _ _ st => (.error (Error.New "unused"), st)
    GetHealthCheck := fun _ hcID st =>
      (if st = 0 then
        .ok { ID := hcID, Type_ := "", URL := "", Interval := 0, Timeout := 0,
              UnhealthyThreshold := 0, HealthyThreshold := 0, Port := 0,
              State := "deleting" }
      else .error Error.ErrResourceNotFound, st + 1)
    UpdateHealthCheck := fun _ _ _ st => (none, st)
    DeleteHealthCheck := fun _ _ st => (none, st)
    AddBackendNodes := fun _ _ st => (.error (Error.New "unused"), st)
    ListBackendNodes := fun _ st => (.ok [], st)
    GetBackendNode := fun _ bnID st =>
      (if st = 0 then .ok { ID := bnID, CloudServerID := "", State := "deleting" }
      else .error Error.ErrResourceNotFound, st + 1)
    DeleteBackendNode := fun _ _ st => (none, st)
    PatchService := fun _ _ _ st => (none, st) }

def testLoadbalancersDeletingThenGone : loadbalancers Nat :=
  { client := mockDeletingThenGone
    clusterInfo := { PrivateNetworkID := "test-pn-id", DatacenterID := "test-dc-id" }
    rt := testRuntime }

/-- The mock client with the log of the errors it returns; `Update` fails with the given
error, if one is given. -/
def testLoadbalancersRecording (get create : Except Error LoadBalancer)
    (update : Option Error) : loadbalancers (List LBBackendNode × List Error) :=
  { client := APIClient.recording
      { mockLoadBalancersAPI get create with Update := fun _ _ st => (update, st) }
    clusterInfo := { PrivateNetworkID := "test-pn-id", DatacenterID := "test-dc-id" }
    rt := testRuntime }

/-! ## Traces: basic facts -/

theorem issued_eq_of_trace {σ : Type} {w w' : World σ} {evs : List Call}
    (h : w'.trace = w.trace ++ evs) : issued w w' = evs := by
  simp [issued, h]

theorem issued_self {σ : Type} (w : World σ) : issued w w = [] := by
  simp [issued]

theorem Extends.refl {σ : Type} (P : Call → Prop) (w : World σ) : Extends P w w :=
  ⟨[], by simp, by simp⟩

theorem Extends.trans {σ : Type} {P : Call → Prop} {w1 w2 w3 : World σ}
    (h12 : Extends P w1 w2) (h23 : Extends P w2 w3) : Extends P w1 w3 := by
  obtain ⟨e1, ht1, hp1⟩ := h12
  obtain ⟨e2, ht2, hp2⟩ := h23
  refine ⟨e1 ++ e2, by rw [ht2, ht1, List.append_assoc], ?_⟩
  intro c hc
  rcases List.mem_append.1 hc with h | h
  · exact hp1 c h
  · exact hp2 c h

theorem Extends.forall_issued {σ : Type} {P : Call → Prop} {w w' : World σ}
    (h : Extends P w w') : ∀ c ∈ issued w w', P c := by
  obtain ⟨evs, ht, hp⟩ := h
  rw [issued_eq_of_trace ht]
  exact hp

theorem Extends.trace_eq {σ : Type} {P : Call → Prop} {w w' : World σ}
    (h : Extends P w w') : w'.trace = w.trace ++ issued w w' := by
  obtain ⟨evs, ht, _⟩ := h
  rw [issued_eq_of_trace ht, ht]

theorem invoke_trace {σ α : Type} (c : Call) (f : σ → α × σ) (w : World σ) :
    (invoke c f w).2.trace = w.trace ++ [c] := rfl

theorem invoke_extends {σ α : Type} {P : Call → Prop} {c : Call} (hc : P c)
    (f : σ → α × σ) (w : World σ) : Extends P w (invoke c f w).2 :=
  ⟨[c], rfl, by simpa using hc⟩

theorem waitForState_extends {σ : Type} {P : Call → Prop}
    (stateFunc : World σ → Except Error String × World σ)
    (hf : ∀ w, Extends P w (stateFunc w).2) (requiredState : String) :
    ∀ (polls : Nat) (w : World σ),
      Extends P w (waitForState polls stateFunc requiredState w).2 := by
  intro polls
  induction polls with
  | zero => intro w; exact Extends.refl P w
  | succ n ih =>
    intro w
    have h1 := hf w
    unfold waitForState
    rcases hsf : stateFunc w with ⟨r, w1⟩
    rw [hsf] at h1
    cases r with
    | error err => exact h1
    | ok state =>
      by_cases hs : state = requiredState
      · simpa [hs] using h1
      · simpa [hs] using h1.trans (ih w1)

theorem loadBalancerByID_empty {σ : Type} (l : loadbalancers σ) (w : World σ) :
    loadBalancerByID l "" w = (.error Error.ErrResourceNotFound, w) := by
  simp [loadBalancerByID]

theorem loadBalancerByID_nonempty {σ : Type} (l : loadbalancers σ) {lbID : String}
    (h : lbID ≠ "") (w : World σ) :
    loadBalancerByID l lbID w = invoke (Call.Get lbID) (l.client.Get lbID) w := by
  simp [loadBalancerByID, h]

theorem loadBalancerByID_trace {σ : Type} (l : loadbalancers σ) (lbID : String)
    (w : World σ) :
    (loadBalancerByID l lbID w).2.trace = w.trace ++ locateCalls lbID := by
  by_cases h : lbID = ""
  · simp [loadBalancerByID, locateCalls, h]
  · simp [loadBalancerByID, locateCalls, h, invoke]

/-! ## The locator: `GetLoadBalancer` -/

/-- C6, the code at the failing input: with a stored identifier whose `Get` succeeds
with a load balancer that has no IP address, `GetLoadBalancer` indexes the empty address
list and panics instead of returning `(status, true, nil)`. -/
theorem GetLoadBalancer_no_address_panics :
    loadBalancerID (testService testAnnotaions testPorts) = "test-lb-id"
    ∧ ((testLoadbalancers (.ok { testLBGetResponse with IPAddresses := [] })
          (.error (Error.New "unused"))).client.Get "test-lb-id" testWorld.st).1
        = .ok { testLBGetResponse with IPAddresses := [] }
    ∧ (GetLoadBalancer
        (testLoadbalancers (.ok { testLBGetResponse with IPAddresses := [] })
          (.error (Error.New "unused")))
        (testService testAnnotaions testPorts) testWorld).1 = none := by
  decide

/-- The outcomes of the locator on a load balancer that has an IP address:
`GetLoadBalancer` returns `(nil, false, nil)` and leaves the world as
it is, issuing no call, when the load-balancer-ID annotation is absent or empty;
otherwise it issues exactly one `Get` for the stored identifier and returns
`(nil, false, nil)` when that `Get` reports not-found, `(nil, false, err)` with the
`Get`'s error for any other failure, and `(status, true, nil)` with the status of the
first IP address when the `Get` succeeds with a load balancer that has an address. -/
theorem GetLoadBalancer_outcome {σ : Type} (l : loadbalancers σ) (service : Service)
    (w : World σ) :
    (loadBalancerID service = "" →
      GetLoadBalancer l service w = (some (none, false, none), w))
    ∧ (loadBalancerID service ≠ "" →
      issued w (GetLoadBalancer l service w).2 = [Call.Get (loadBalancerID service)]
      ∧ ((l.client.Get (loadBalancerID service) w.st).1 = .error Error.ErrResourceNotFound →
          (GetLoadBalancer l service w).1 = some (none, false, none))
      ∧ (∀ err, err ≠ Error.ErrResourceNotFound →
          (l.client.Get (loadBalancerID service) w.st).1 = .error err →
          (GetLoadBalancer l service w).1 = some (none, false, some err))
      ∧ (∀ lb ip rest, (l.client.Get (loadBalancerID service) w.st).1 = .ok lb →
          lb.IPAddresses = ip :: rest →
          (GetLoadBalancer l service w).1
            = some (some { Ingress := [{ IP := ip.Address }] }, true, none))) := by
  refine ⟨fun h => by simp [GetLoadBalancer, h], fun h => ?_⟩
  have hw : (GetLoadBalancer l service w).2
      = (invoke (Call.Get (loadBalancerID service))
          (l.client.Get (loadBalancerID service)) w).2 := by
    simp only [GetLoadBalancer, h, if_false, loadBalancerByID]
    rcases hg : invoke (Call.Get (loadBalancerID service))
        (l.client.Get (loadBalancerID service)) w with ⟨r, w1⟩
    cases r with
    | error err => by_cases he : err = Error.ErrResourceNotFound <;> simp [he]
    | ok lb => cases hs : loadBalancerStatus lb <;> simp [hs]
  refine ⟨?_, ?_, ?_, ?_⟩
  · rw [hw]; exact issued_eq_of_trace (invoke_trace _ _ _)
  · intro hg
    simp [GetLoadBalancer, h, loadBalancerByID, invoke, hg]
  · intro err hne hg
    simp [GetLoadBalancer, h, loadBalancerByID, invoke, hg, hne]
  · intro lb ip rest hg hip
    simp [GetLoadBalancer, h, loadBalancerByID, invoke, hg, loadBalancerStatus, hip]

/-- The run of `TestLoadBalancers_GetLoadBalancer`. -/
theorem GetLoadBalancer_outcome_witness :
    (GetLoadBalancer (testLoadbalancers (.ok testLBGetResponse) (.error (Error.New "unused")))
        (testService testAnnotaions testPorts) testWorld).1
      = some (some { Ingress := [{ IP := "1.2.3.4" }] }, true, none) :=
  ((GetLoadBalancer_outcome
      (testLoadbalancers (.ok testLBGetResponse) (.error (Error.New "unused")))
      (testService testAnnotaions testPorts) testWorld).2 (by decide)).2.2.2
    testLBGetResponse { ID := "", Address := "1.2.3.4" } [] (by decide) (by decide)

/-! ## `EnsureLoadBalancerDeleted` -/

/-- C7: when the stored identifier is empty or the remote `Get` reports not-found for
it, `EnsureLoadBalancerDeleted` returns nil and issues no `Delete` call. -/
theorem EnsureLoadBalancerDeleted_absent {σ : Type} (l : loadbalancers σ)
    (service : Service) (w : World σ)
    (h : loadBalancerID service = ""
      ∨ (l.client.Get (loadBalancerID service) w.st).1 = .error Error.ErrResourceNotFound) :
    (EnsureLoadBalancerDeleted l service w).1 = none
    ∧ ∀ c ∈ issued w (EnsureLoadBalancerDeleted l service w).2, c.isDelete = false := by
  by_cases he : loadBalancerID service = ""
  · simp [EnsureLoadBalancerDeleted, he, loadBalancerByID, issued]
  · rcases h with h | h
    · exact absurd h he
    · have hr : EnsureLoadBalancerDeleted l service w
          = (none, (invoke (Call.Get (loadBalancerID service))
              (l.client.Get (loadBalancerID service)) w).2) := by
        simp [EnsureLoadBalancerDeleted, he, loadBalancerByID, invoke, h]
      rw [hr]
      refine ⟨rfl, ?_⟩
      rw [issued_eq_of_trace (invoke_trace _ _ _)]
      simp [Call.isDelete]

/-- Witness of C7: the run of `TestLoadBalancers_EnsureAlreadyDeletedLB`. -/
theorem EnsureLoadBalancerDeleted_absent_witness :
    (EnsureLoadBalancerDeleted
        (testLoadbalancers (.error Error.ErrResourceNotFound) (.error (Error.New "unused")))
        (testService testAnnotaions testPorts) testWorld).1 = none
    ∧ ∀ c ∈ issued testWorld (EnsureLoadBalancerDeleted
        (testLoadbalancers (.error Error.ErrResourceNotFound) (.error (Error.New "unused")))
        (testService testAnnotaions testPorts) testWorld).2, c.isDelete = false :=
  EnsureLoadBalancerDeleted_absent
    (testLoadbalancers (.error Error.ErrResourceNotFound) (.error (Error.New "unused")))
    (testService testAnnotaions testPorts) testWorld (Or.inr (by decide))

/-- C8, as stated, fails: for a non-empty stored identifier that the remote platform
reports not-found, `EnsureLoadBalancerDeleted` has issued one remote call, the `Get`
that reported it (the run of `TestLoadBalancers_EnsureAlreadyDeletedLB`, which expects
that `Get` once). -/
theorem EnsureLoadBalancerDeleted_not_found_issues_Get :
    loadBalancerID (testService testAnnotaions testPorts) ≠ ""
    ∧ ((testLoadbalancers (.error Error.ErrResourceNotFound)
          (.error (Error.New "unused"))).client.Get
        (loadBalancerID (testService testAnnotaions testPorts)) testWorld.st).1
        = .error Error.ErrResourceNotFound
    ∧ issued testWorld (EnsureLoadBalancerDeleted
        (testLoadbalancers (.error Error.ErrResourceNotFound) (.error (Error.New "unused")))
        (testService testAnnotaions testPorts) testWorld).2 = [Call.Get "test-lb-id"]
    ∧ (issued testWorld (EnsureLoadBalancerDeleted
        (testLoadbalancers (.error Error.ErrResourceNotFound) (.error (Error.New "unused")))
        (testService testAnnotaions testPorts) testWorld).2).length ≠ 0 := by
  decide

/-- C8 (amended): when the locator key resolves to not-found, `EnsureLoadBalancerDeleted`
issues no remote call at all if the stored identifier is empty, and exactly one remote
call, the locating `Get`, if it is non-empty; in both cases it issues no mutating
call. -/
theorem EnsureLoadBalancerDeleted_absent_calls {σ : Type} (l : loadbalancers σ)
    (service : Service) (w : World σ)
    (h : loadBalancerID service = ""
      ∨ (l.client.Get (loadBalancerID service) w.st).1 = .error Error.ErrResourceNotFound) :
    issued w (EnsureLoadBalancerDeleted l service w).2
        = (if loadBalancerID service = "" then [] else [Call.Get (loadBalancerID service)])
    ∧ ∀ c ∈ issued w (EnsureLoadBalancerDeleted l service w).2, c.isMutating = false := by
  by_cases he : loadBalancerID service = ""
  · simp [EnsureLoadBalancerDeleted, he, loadBalancerByID, issued]
  · rcases h with h | h
    · exact absurd h he
    · have hr : EnsureLoadBalancerDeleted l service w
          = (none, (invoke (Call.Get (loadBalancerID service))
              (l.client.Get (loadBalancerID service)) w).2) := by
        simp [EnsureLoadBalancerDeleted, he, loadBalancerByID, invoke, h]
      rw [hr, issued_eq_of_trace (invoke_trace _ _ _)]
      simp [he, Call.isMutating]

/-- Witness of C8 (amended): a service without the load-balancer-ID annotation. -/
theorem EnsureLoadBalancerDeleted_absent_calls_witness :
    issued testWorld (EnsureLoadBalancerDeleted
        (testLoadbalancers (.error (Error.New "unreachable")) (.error (Error.New "unused")))
        (testService [] testPorts) testWorld).2
        = (if loadBalancerID (testService [] testPorts) = "" then []
            else [Call.Get (loadBalancerID (testService [] testPorts))])
    ∧ ∀ c ∈ issued testWorld (EnsureLoadBalancerDeleted
        (testLoadbalancers (.error (Error.New "unreachable")) (.error (Error.New "unused")))
        (testService [] testPorts) testWorld).2, c.isMutating = false :=
  EnsureLoadBalancerDeleted_absent_calls
    (testLoadbalancers (.error (Error.New "unreachable")) (.error (Error.New "unused")))
    (testService [] testPorts) testWorld (Or.inl (by decide))

/-- C9: when the stored identifier locates a load balancer in state "deleting",
`EnsureLoadBalancerDeleted` returns the error "Load balancer is already in deletion
state" and issues no `Delete` call. -/
theorem EnsureLoadBalancerDeleted_deleting {σ : Type} (l : loadbalancers σ)
    (service : Service) (w : World σ) (lb : LoadBalancer)
    (hid : loadBalancerID service ≠ "")
    (hget : (l.client.Get (loadBalancerID service) w.st).1 = .ok lb)
    (hstate : lb.State = "deleting") :
    (EnsureLoadBalancerDeleted l service w).1
        = some (Error.New "Load balancer is already in deletion state")
    ∧ ∀ c ∈ issued w (EnsureLoadBalancerDeleted l service w).2, c.isDelete = false := by
  have hr : EnsureLoadBalancerDeleted l service w
      = (some (Error.New "Load balancer is already in deletion state"),
          (invoke (Call.Get (loadBalancerID service))
            (l.client.Get (loadBalancerID service)) w).2) := by
    simp [EnsureLoadBalancerDeleted, hid, loadBalancerByID, invoke, hget, hstate]
  rw [hr]
  refine ⟨rfl, ?_⟩
  rw [issued_eq_of_trace (invoke_trace _ _ _)]
  simp [Call.isDelete]

/-- Witness of C9: the run of `TestLoadBalancers_EnsureDeletion`. -/
theorem EnsureLoadBalancerDeleted_deleting_witness :
    (EnsureLoadBalancerDeleted
        (testLoadbalancers (.ok { testLBGetResponse with State := "deleting" })
          (.error (Error.New "unused")))
        (testService testAnnotaions testPorts) testWorld).1
        = some (Error.New "Load balancer is already in deletion state")
    ∧ ∀ c ∈ issued testWorld (EnsureLoadBalancerDeleted
        (testLoadbalancers (.ok { testLBGetResponse with State := "deleting" })
          (.error (Error.New "unused")))
        (testService testAnnotaions testPorts) testWorld).2, c.isDelete = false :=
  EnsureLoadBalancerDeleted_deleting
    (testLoadbalancers (.ok { testLBGetResponse with State := "deleting" })
      (.error (Error.New "unused")))
    (testService testAnnotaions testPorts) testWorld
    { testLBGetResponse with State := "deleting" } (by decide) (by decide) (by decide)

/-- C10: when the stored identifier locates a load balancer in a state other than
"deleting" and the `Delete` call succeeds, `EnsureLoadBalancerDeleted` issues the
locating `Get`, then exactly one `Delete`, for the located load balancer's ID, and no
further remote call, and returns the non-nil error "LB deletion has been started". -/
theorem EnsureLoadBalancerDeleted_started {σ : Type} (l : loadbalancers σ)
    (service : Service) (w : World σ) (lb : LoadBalancer)
    (hid : loadBalancerID service ≠ "")
    (hget : (l.client.Get (loadBalancerID service) w.st).1 = .ok lb)
    (hstate : lb.State ≠ "deleting")
    (hdel : (l.client.Delete lb.ID (l.client.Get (loadBalancerID service) w.st).2).1 = none) :
    (EnsureLoadBalancerDeleted l service w).1
        = some (Error.New "LB deletion has been started")
    ∧ (EnsureLoadBalancerDeleted l service w).1 ≠ none
    ∧ issued w (EnsureLoadBalancerDeleted l service w).2
        = [Call.Get (loadBalancerID service), Call.Delete lb.ID]
    ∧ (EnsureLoadBalancerDeleted l service w).2.st
        = (l.client.Delete lb.ID (l.client.Get (loadBalancerID service) w.st).2).2 := by
  have hr : EnsureLoadBalancerDeleted l service w
      = (some (Error.New "LB deletion has been started"),
          { st := (l.client.Delete lb.ID (l.client.Get (loadBalancerID service) w.st).2).2,
            trace := w.trace ++ [Call.Get (loadBalancerID service), Call.Delete lb.ID] }) := by
    simp [EnsureLoadBalancerDeleted, hid, loadBalancerByID, invoke, hget, hstate, hdel]
  rw [hr]
  refine ⟨rfl, by simp, ?_, rfl⟩
  exact issued_eq_of_trace rfl

/-- Witness of C10: the run of `TestLoadBalancers_Delete`. -/
theorem EnsureLoadBalancerDeleted_started_witness :
    (EnsureLoadBalancerDeleted
        (testLoadbalancers (.ok testLBGetResponse) (.error (Error.New "unused")))
        (testService testAnnotaions testPorts) testWorld).1
        = some (Error.New "LB deletion has been started")
    ∧ issued testWorld (EnsureLoadBalancerDeleted
        (testLoadbalancers (.ok testLBGetResponse) (.error (Error.New "unused")))
        (testService testAnnotaions testPorts) testWorld).2
        = [Call.Get "test-lb-id", Call.Delete "test-lb-id"] :=
  have h := EnsureLoadBalancerDeleted_started
    (testLoadbalancers (.ok testLBGetResponse) (.error (Error.New "unused")))
    (testService testAnnotaions testPorts) testWorld testLBGetResponse
    (by decide) (by decide) (by decide) (by decide)
  ⟨h.1, h.2.2.1⟩

/-! ## What the reconciliation steps can issue -/

theorem updateLoadBalancerInfo_extends {σ : Type} (l : loadbalancers σ) (service : Service)
    (lb : LoadBalancer) (w : World σ) :
    Extends (fun c => c.isReconcile = true) w (updateLoadBalancerInfo l service lb w).2 := by
  unfold updateLoadBalancerInfo
  simp only
  split
  · exact Extends.refl _ w
  · have h := invoke_extends (P := fun c => c.isReconcile = true)
      (c := Call.Update lb.ID
        { Name := if loadBalancerName l.rt service ≠ lb.Name then
            loadBalancerName l.rt service else ""
          BalancingAlgorithm :=
            if loadBalancerBalancingAlgorithm service ≠ lb.BalancingAlgorithm then
              loadBalancerBalancingAlgorithm service
            else "" }) rfl
      (l.client.Update lb.ID
        { Name := if loadBalancerName l.rt service ≠ lb.Name then
            loadBalancerName l.rt service else ""
          BalancingAlgorithm :=
            if loadBalancerBalancingAlgorithm service ≠ lb.BalancingAlgorithm then
              loadBalancerBalancingAlgorithm service
            else "" }) w
    revert h
    rcases invoke _ _ w with ⟨r, w1⟩
    intro h
    cases r with
    | some err => exact h
    | none =>
      refine h.trans (waitForState_extends _ (fun w2 => ?_) _ _ _)
      have h2 := invoke_extends (P := fun c => c.isReconcile = true) (c := Call.Get lb.ID)
        rfl (l.client.Get lb.ID) w2
      rcases hi : invoke (Call.Get lb.ID) (l.client.Get lb.ID) w2 with ⟨r2, w3⟩
      rw [hi] at h2
      cases r2 <;> simpa using h2

theorem addForwardingRule_extends {σ : Type} (l : loadbalancers σ) (lbID : String)
    (port : ServicePort) (w : World σ) :
    Extends (fun c => c.isReconcile = true) w (addForwardingRule l lbID port w).2 := by
  unfold addForwardingRule
  have h := invoke_extends (P := fun c => c.isReconcile = true)
    (c := Call.CreateForwardingRule lbID (lbForwardingRuleCreateRequest l.rt port)) rfl
    (l.client.CreateForwardingRule lbID (lbForwardingRuleCreateRequest l.rt port)) w
  revert h
  rcases invoke _ _ w with ⟨r, w1⟩
  intro h
  cases r with
  | error err => exact h
  | ok fr =>
    refine h.trans (waitForState_extends _ (fun w2 => ?_) _ _ _)
    have h2 := invoke_extends (P := fun c => c.isReconcile = true)
      (c := Call.GetForwardingRule lbID fr.ID) rfl (l.client.GetForwardingRule lbID fr.ID) w2
    rcases hi : invoke (Call.GetForwardingRule lbID fr.ID)
      (l.client.GetForwardingRule lbID fr.ID) w2 with ⟨r2, w3⟩
    rw [hi] at h2
    cases r2 <;> simpa using h2

theorem removeForwardingRule_extends {σ : Type} (l : loadbalancers σ) (lbID frID : String)
    (w : World σ) :
    Extends (fun c => c.isReconcile = true) w (removeForwardingRule l lbID frID w).2 := by
  unfold removeForwardingRule
  have h := invoke_extends (P := fun c => c.isReconcile = true)
    (c := Call.DeleteForwardingRule lbID frID) rfl
    (l.client.DeleteForwardingRule lbID frID) w
  revert h
  rcases invoke _ _ w with ⟨r, w1⟩
  intro h
  cases r with
  | some err => exact h
  | none =>
    refine h.trans (waitForState_extends _ (fun w2 => ?_) _ _ _)
    have h2 := invoke_extends (P := fun c => c.isReconcile = true)
      (c := Call.GetForwardingRule lbID frID) rfl (l.client.GetForwardingRule lbID frID) w2
    rcases hi : invoke (Call.GetForwardingRule lbID frID)
      (l.client.GetForwardingRule lbID frID) w2 with ⟨r2, w3⟩
    rw [hi] at h2
    cases r2 with
    | error err => by_cases he : err = Error.ErrResourceNotFound <;> simpa [he] using h2
    | ok fr => simpa using h2

theorem updateForwardingRule_extends {σ : Type} (l : loadbalancers σ) (port : ServicePort)
    (fr : LBForwardingRule) (lbID : String) (w : World σ) :
    Extends (fun c => c.isReconcile = true) w (updateForwardingRule l port fr lbID w).2 := by
  unfold updateForwardingRule
  split
  · have h := removeForwardingRule_extends l lbID fr.ID w
    revert h
    rcases removeForwardingRule l lbID fr.ID w with ⟨r, w1⟩
    intro h
    cases r with
    | some err => exact h
    | none => exact h.trans (addForwardingRule_extends l lbID port w1)
  · exact Extends.refl _ w

theorem updateForwardingRules_ports_extends {σ : Type} (l : loadbalancers σ)
    (lbID : String) :
    ∀ (ports : List ServicePort) (m : GoMap Int LBForwardingRule) (w : World σ),
      Extends (fun c => c.isReconcile = true) w
        (updateForwardingRules_ports l lbID ports m w).2.2 := by
  intro ports
  induction ports with
  | nil => intro m w; exact Extends.refl _ w
  | cons port rest ih =>
    intro m w
    unfold updateForwardingRules_ports
    cases hg : mapGet m port.Port with
    | none =>
      simp only
      have h := addForwardingRule_extends l lbID port w
      revert h
      rcases addForwardingRule l lbID port w with ⟨r, w1⟩
      intro h
      cases r with
      | some err => exact h
      | none => exact h.trans (ih m w1)
    | some fr =>
      simp only
      have h := updateForwardingRule_extends l port fr lbID w
      revert h
      rcases updateForwardingRule l port fr lbID w with ⟨r, w1⟩
      intro h
      cases r with
      | some err => exact h
      | none => exact h.trans (ih _ w1)

theorem updateForwardingRules_stale_extends {σ : Type} (l : loadbalancers σ)
    (lbID : String) :
    ∀ (es : List (Int × LBForwardingRule)) (w : World σ),
      Extends (fun c => c.isReconcile = true) w
        (updateForwardingRules_stale l lbID es w).2 := by
  intro es
  induction es with
  | nil => intro w; exact Extends.refl _ w
  | cons e rest ih =>
    intro w
    unfold updateForwardingRules_stale
    have h := removeForwardingRule_extends l lbID e.2.ID w
    revert h
    rcases removeForwardingRule l lbID e.2.ID w with ⟨r, w1⟩
    intro h
    cases r with
    | some err => exact h
    | none => exact h.trans (ih w1)

theorem updateForwardingRules_extends {σ : Type} (l : loadbalancers σ) (service : Service)
    (lb : LoadBalancer) (w : World σ) :
    Extends (fun c => c.isReconcile = true) w (updateForwardingRules l service lb w).2 := by
  unfold updateForwardingRules
  have h := updateForwardingRules_ports_extends l lb.ID service.Ports
    (forwardingRulesByPort lb.ForwardingRules) w
  revert h
  rcases updateForwardingRules_ports l lb.ID service.Ports
    (forwardingRulesByPort lb.ForwardingRules) w with ⟨r, m, w1⟩
  intro h
  cases r with
  | some err => exact h
  | none => exact h.trans (updateForwardingRules_stale_extends l lb.ID _ w1)

theorem healthCheckState_extends {σ : Type} (l : loadbalancers σ) (lbID hcID : String)
    (w : World σ) :
    Extends (fun c => c.isReconcile = true) w (healthCheckState l lbID hcID w).2 := by
  unfold healthCheckState
  have h2 := invoke_extends (P := fun c => c.isReconcile = true)
    (c := Call.GetHealthCheck lbID hcID) rfl (l.client.GetHealthCheck lbID hcID) w
  rcases hi : invoke (Call.GetHealthCheck lbID hcID) (l.client.GetHealthCheck lbID hcID) w
    with ⟨r2, w3⟩
  rw [hi] at h2
  cases r2 <;> simpa using h2

theorem updateHealthChecks_extends {σ : Type} (l : loadbalancers σ) (service : Service)
    (lb : LoadBalancer) (w : World σ) :
    Extends (fun c => c.isReconcile = true) w (updateHealthChecks l service lb w).2 := by
  unfold updateHealthChecks
  cases loadBalancerHealthCheckRequest service with
  | error err => exact Extends.refl _ w
  | ok hc =>
    cases lb.HealthChecks with
    | nil =>
      simp only
      have h := invoke_extends (P := fun c => c.isReconcile = true)
        (c := Call.CreateHealthCheck lb.ID hc) rfl (l.client.CreateHealthCheck lb.ID hc) w
      revert h
      rcases invoke _ _ w with ⟨r, w1⟩
      intro h
      cases r with
      | error err => exact h
      | ok healthCheck =>
        exact h.trans (waitForState_extends _ (healthCheckState_extends l _ _) _ _ _)
    | cons origHC _ =>
      simp only
      split
      · have h := invoke_extends (P := fun c => c.isReconcile = true)
          (c := Call.UpdateHealthCheck lb.ID origHC.ID
            { Type_ := hc.Type_, URL := hc.URL, Interval := hc.Interval,
              Timeout := hc.Timeout, UnhealthyThreshold := hc.UnhealthyThreshold,
              HealthyThreshold := hc.HealthyThreshold, Port := hc.Port }) rfl
          (l.client.UpdateHealthCheck lb.ID origHC.ID
            { Type_ := hc.Type_, URL := hc.URL, Interval := hc.Interval,
              Timeout := hc.Timeout, UnhealthyThreshold := hc.UnhealthyThreshold,
              HealthyThreshold := hc.HealthyThreshold, Port := hc.Port }) w
        revert h
        rcases invoke _ _ w with ⟨r, w1⟩
        intro h
        cases r with
        | some err => exact h
        | none =>
          exact h.trans (waitForState_extends _ (healthCheckState_extends l _ _) _ _ _)
      · exact Extends.refl _ w

theorem deleteHealthChecks_extends {σ : Type} (l : loadbalancers σ) (lb : LoadBalancer)
    (w : World σ) :
    Extends (fun c => c.isReconcile = true) w (deleteHealthChecks l lb w).2 := by
  unfold deleteHealthChecks
  cases lb.HealthChecks with
  | nil => exact Extends.refl _ w
  | cons origHC _ =>
    simp only
    have h := invoke_extends (P := fun c => c.isReconcile = true)
      (c := Call.DeleteHealthCheck lb.ID origHC.ID) rfl
      (l.client.DeleteHealthCheck lb.ID origHC.ID) w
    revert h
    rcases invoke _ _ w with ⟨r, w1⟩
    intro h
    cases r with
    | some err => exact h
    | none =>
      refine h.trans (waitForState_extends _ (fun w2 => ?_) _ _ _)
      have h2 := invoke_extends (P := fun c => c.isReconcile = true)
        (c := Call.GetHealthCheck lb.ID origHC.ID) rfl
        (l.client.GetHealthCheck lb.ID origHC.ID) w2
      rcases hi : invoke (Call.GetHealthCheck lb.ID origHC.ID)
        (l.client.GetHealthCheck lb.ID origHC.ID) w2 with ⟨r2, w3⟩
      rw [hi] at h2
      cases r2 with
      | error err => by_cases he : err = Error.ErrResourceNotFound <;> simpa [he] using h2
      | ok hc => simpa using h2

theorem addBackendNodes_extends {σ : Type} (l : loadbalancers σ) (lbID : String)
    (bns : List String) (w : World σ) :
    Extends (fun c => c.isReconcile = true) w (addBackendNodes l lbID bns w).2 := by
  unfold addBackendNodes
  have h := invoke_extends (P := fun c => c.isReconcile = true)
    (c := Call.AddBackendNodes lbID bns) rfl (l.client.AddBackendNodes lbID bns) w
  revert h
  rcases invoke _ _ w with ⟨r, w1⟩
  intro h
  cases r with
  | error err => exact h
  | ok backendNodes =>
    refine h.trans (waitForState_extends _ (fun w2 => ?_) _ _ _)
    have h2 := invoke_extends (P := fun c => c.isReconcile = true)
      (c := Call.ListBackendNodes lbID) rfl (l.client.ListBackendNodes lbID) w2
    rcases hi : invoke (Call.ListBackendNodes lbID) (l.client.ListBackendNodes lbID) w2
      with ⟨r2, w3⟩
    rw [hi] at h2
    cases r2 <;> simpa using h2

theorem removeBackendNode_extends {σ : Type} (l : loadbalancers σ) (lbID bnID : String)
    (w : World σ) :
    Extends (fun c => c.isReconcile = true) w (removeBackendNode l lbID bnID w).2 := by
  unfold removeBackendNode
  have h := invoke_extends (P := fun c => c.isReconcile = true)
    (c := Call.DeleteBackendNode lbID bnID) rfl (l.client.DeleteBackendNode lbID bnID) w
  revert h
  rcases invoke _ _ w with ⟨r, w1⟩
  intro h
  cases r with
  | some err => exact h
  | none =>
    refine h.trans (waitForState_extends _ (fun w2 => ?_) _ _ _)
    have h2 := invoke_extends (P := fun c => c.isReconcile = true)
      (c := Call.GetBackendNode lbID bnID) rfl (l.client.GetBackendNode lbID bnID) w2
    rcases hi : invoke (Call.GetBackendNode lbID bnID) (l.client.GetBackendNode lbID bnID) w2
      with ⟨r2, w3⟩
    rw [hi] at h2
    cases r2 with
    | error err => by_cases he : err = Error.ErrResourceNotFound <;> simpa [he] using h2
    | ok bn => simpa using h2

theorem updateBackendNodes_stale_extends {σ : Type} (l : loadbalancers σ) (lbID : String) :
    ∀ (es : List (String × LBBackendNode)) (w : World σ),
      Extends (fun c => c.isReconcile = true) w
        (updateBackendNodes_stale l lbID es w).2 := by
  intro es
  induction es with
  | nil => intro w; exact Extends.refl _ w
  | cons e rest ih =>
    intro w
    unfold updateBackendNodes_stale
    have h := removeBackendNode_extends l lbID e.2.ID w
    revert h
    rcases removeBackendNode l lbID e.2.ID w with ⟨r, w1⟩
    intro h
    cases r with
    | some err => exact h
    | none => exact h.trans (ih w1)

theorem updateBackendNodes_extends {σ : Type} (l : loadbalancers σ) (nodes : List Node)
    (lb : LoadBalancer) (w : World σ) :
    Extends (fun c => c.isReconcile = true) w (updateBackendNodes l nodes lb w).2 := by
  unfold updateBackendNodes
  cases updateBackendNodes_nodes nodes [] (backendNodesByServer lb.BackendNodes) with
  | error err => exact Extends.refl _ w
  | ok p =>
    obtain ⟨bnsToAdd, bnsToDelete⟩ := p
    simp only
    have h : Extends (fun c => c.isReconcile = true) w
        (if 0 < bnsToAdd.length then addBackendNodes l lb.ID bnsToAdd w else (none, w)).2 := by
      split
      · exact addBackendNodes_extends l lb.ID bnsToAdd w
      · exact Extends.refl _ w
    revert h
    rcases (if 0 < bnsToAdd.length then addBackendNodes l lb.ID bnsToAdd w else (none, w))
      with ⟨r, w1⟩
    intro h
    cases r with
    | some err => exact h
    | none => exact h.trans (updateBackendNodes_stale_extends l lb.ID _ w1)

/-- Every call `updateLoadBalancer` issues is an `Update`, a `Get` or a call on a
forwarding rule, a health check or a backend node. -/
theorem updateLoadBalancer_extends {σ : Type} (l : loadbalancers σ) (service : Service)
    (nodes : List Node) (lb : LoadBalancer) (w : World σ) :
    Extends (fun c => c.isReconcile = true) w (updateLoadBalancer l service nodes lb w).2 := by
  unfold updateLoadBalancer
  have h := updateLoadBalancerInfo_extends l service lb w
  revert h
  rcases updateLoadBalancerInfo l service lb w with ⟨r, w1⟩
  intro h
  cases r with
  | some err => exact h
  | none =>
    simp only
    have h2 := updateForwardingRules_extends l service lb w1
    revert h2
    rcases updateForwardingRules l service lb w1 with ⟨r2, w2⟩
    intro h2
    cases r2 with
    | some err => exact h.trans h2
    | none =>
      simp only
      have h3 : Extends (fun c => c.isReconcile = true) w2
          (if loadBalancerHealthChecksEnabled service then updateHealthChecks l service lb w2
            else deleteHealthChecks l lb w2).2 := by
        split
        · exact updateHealthChecks_extends l service lb w2
        · exact deleteHealthChecks_extends l lb w2
      revert h3
      rcases (if loadBalancerHealthChecksEnabled service then
        updateHealthChecks l service lb w2 else deleteHealthChecks l lb w2) with ⟨r3, w3⟩
      intro h3
      cases r3 with
      | some err => exact (h.trans h2).trans h3
      | none => exact ((h.trans h2).trans h3).trans (updateBackendNodes_extends l nodes lb w3)

/-! ## Go maps -/

theorem mapGet_nil {κ ν : Type} [DecidableEq κ] (k : κ) :
    mapGet ([] : GoMap κ ν) k = none := rfl

theorem mapGet_cons {κ ν : Type} [DecidableEq κ] (e : κ × ν) (rest : GoMap κ ν) (k : κ) :
    mapGet (e :: rest) k = if e.1 = k then some e.2 else mapGet rest k := by
  unfold mapGet
  by_cases h : e.1 = k
  · rw [List.find?_cons_of_pos _ (by simpa using h), if_pos h]; rfl
  · rw [List.find?_cons_of_neg _ (by simpa using h), if_neg h]

theorem mapGet_filter_ne {κ ν : Type} [DecidableEq κ] (m : GoMap κ ν) {k k' : κ}
    (h : k' ≠ k) :
    mapGet (m.filter (fun e => decide (e.1 ≠ k))) k' = mapGet m k' := by
  induction m with
  | nil => rfl
  | cons e rest ih =>
    by_cases hek : e.1 = k
    · have hek' : ¬ e.1 = k' := fun h' => h (h'.symm.trans hek)
      rw [List.filter_cons_of_neg (by simpa using hek), mapGet_cons, if_neg hek', ih]
    · rw [List.filter_cons_of_pos (by simpa using hek), mapGet_cons, mapGet_cons, ih]

theorem mapGet_filter_self {κ ν : Type} [DecidableEq κ] (m : GoMap κ ν) (k : κ) :
    mapGet (m.filter (fun e => decide (e.1 ≠ k))) k = none := by
  induction m with
  | nil => rfl
  | cons e rest ih =>
    by_cases hek : e.1 = k
    · rw [List.filter_cons_of_neg (by simpa using hek), ih]
    · rw [List.filter_cons_of_pos (by simpa using hek), mapGet_cons, if_neg hek, ih]

theorem mapGet_mapSet_self {κ ν : Type} [DecidableEq κ] (m : GoMap κ ν) (k : κ) (v : ν) :
    mapGet (mapSet m k v) k = some v := by
  unfold mapSet
  rw [mapGet_cons, if_pos rfl]

theorem mapGet_mapSet_ne {κ ν : Type} [DecidableEq κ] (m : GoMap κ ν) {k k' : κ} (v : ν)
    (h : k' ≠ k) : mapGet (mapSet m k v) k' = mapGet m k' := by
  unfold mapSet
  rw [mapGet_cons, if_neg (Ne.symm h), mapGet_filter_ne m h]

theorem mapGet_mapDelete_ne {κ ν : Type} [DecidableEq κ] (m : GoMap κ ν) {k k' : κ}
    (h : k' ≠ k) : mapGet (mapDelete m k) k' = mapGet m k' :=
  mapGet_filter_ne m h

theorem mapGet_mapDelete_self {κ ν : Type} [DecidableEq κ] (m : GoMap κ ν) (k : κ) :
    mapGet (mapDelete m k) k = none :=
  mapGet_filter_self m k

theorem mapGet_isSome_of_mem {κ ν : Type} [DecidableEq κ] {m : GoMap κ ν} {e : κ × ν}
    (h : e ∈ m) : (mapGet m e.1).isSome = true := by
  induction m with
  | nil => cases h
  | cons a rest ih =>
    rw [mapGet_cons]
    by_cases ha : a.1 = e.1
    · rw [if_pos ha]; rfl
    · rw [if_neg ha]
      rcases List.mem_cons.1 h with h1 | h1
      · exact absurd (by rw [h1]) ha
      · exact ih h1

theorem mapGet_eq_none_iff {κ ν : Type} [DecidableEq κ] (m : GoMap κ ν) (k : κ) :
    mapGet m k = none ↔ ∀ e ∈ m, e.1 ≠ k := by
  simp [mapGet, List.find?_eq_none]

theorem mapGet_mem {κ ν : Type} [DecidableEq κ] {m : GoMap κ ν} {k : κ} {v : ν}
    (h : mapGet m k = some v) : (k, v) ∈ m := by
  unfold mapGet at h
  rcases hf : m.find? (fun e => decide (e.1 = k)) with _ | e
  · simp [hf] at h
  · rw [hf] at h
    have hk : e.1 = k := by simpa using List.find?_some hf
    have hv : e.2 = v := by simpa using h
    have hm := List.mem_of_find?_eq_some hf
    have : e = (k, v) := Prod.ext hk hv
    rwa [this] at hm

/-! ## The identity binder and the patch -/

/-- After `annotateService` the two-way merge patch is empty when the annotation
already held the value, and else sets that annotation and nothing more. -/
theorem CreateTwoWayMergePatch_annotateService (service : Service) (k v : String) :
    CreateTwoWayMergePatch service (annotateService service k v)
      = if mapGet service.Annotations k = some v then [] else [(k, some v)] := by
  have hdel : (service.Annotations.filter (fun e =>
      (mapGet (mapSet service.Annotations k v) e.1).isNone)) = [] := by
    rw [List.filter_eq_nil_iff]
    intro e he
    by_cases hek : e.1 = k
    · rw [hek, mapGet_mapSet_self]; simp
    · rw [mapGet_mapSet_ne _ _ hek]
      have := mapGet_isSome_of_mem he
      simpa [Option.isNone_iff_eq_none, Option.isSome_iff_ne_none] using this
  have hset : ((service.Annotations.filter (fun e => decide (e.1 ≠ k))).filter (fun e =>
      decide (mapGet (mapSet service.Annotations k v) e.1 = some e.2
        ∧ mapGet service.Annotations e.1 ≠ some e.2))) = [] := by
    rw [List.filter_eq_nil_iff]
    intro e he
    have hek : e.1 ≠ k := by simpa using (List.mem_filter.1 he).2
    rw [mapGet_mapSet_ne _ _ hek]
    simp
  unfold CreateTwoWayMergePatch annotateService
  simp only [hdel, List.map_nil, List.append_nil]
  rw [show mapSet service.Annotations k v
      = (k, v) :: service.Annotations.filter (fun e => decide (e.1 ≠ k)) from rfl]
  rw [List.filter_cons]
  rw [show ((k, v) :: service.Annotations.filter (fun e => decide (e.1 ≠ k)))
      = mapSet service.Annotations k v from rfl]
  rw [hset]
  by_cases h : mapGet service.Annotations k = some v
  · simp [h, mapGet_mapSet_self]
  · simp [h, mapGet_mapSet_self]

theorem loadBalancerID_annotateService (service : Service) (lbID : String) :
    loadBalancerID (annotateService service ServiceAnnotationLoadBalancerID lbID) = lbID := by
  simp [loadBalancerID, annotateService, mapGet_mapSet_self]

theorem Patch_trace {σ : Type} (l : loadbalancers σ) (service : Service) (lbID : String)
    (w : World σ) :
    ((newServicePatcher service).Patch l
        (annotateService service ServiceAnnotationLoadBalancerID lbID) w).2.trace
      = w.trace ++ patchCalls service lbID := by
  unfold servicePatcher.Patch newServicePatcher patchCalls
  simp only [CreateTwoWayMergePatch_annotateService]
  by_cases h : mapGet service.Annotations ServiceAnnotationLoadBalancerID = some lbID
  · simp [h]
  · simp only [h, if_false]
    rw [if_neg (by simp)]
    rcases hi : invoke (Call.PatchService service.Namespace service.Name
        [(ServiceAnnotationLoadBalancerID, some lbID)])
      (l.client.PatchService service.Namespace service.Name
        [(ServiceAnnotationLoadBalancerID, some lbID)]) w with ⟨r, w1⟩
    have ht : w1.trace = w.trace ++ [Call.PatchService service.Namespace service.Name
        [(ServiceAnnotationLoadBalancerID, some lbID)]] := by
      have := invoke_trace (Call.PatchService service.Namespace service.Name
        [(ServiceAnnotationLoadBalancerID, some lbID)])
        (l.client.PatchService service.Namespace service.Name
          [(ServiceAnnotationLoadBalancerID, some lbID)]) w
      rw [hi] at this
      exact this
    cases r <;> simpa using ht

/-- What `createLoadBalancer` does once the request is built: one `Create`, and when it
succeeds the service is annotated with the returned identifier and patched. -/
theorem createLoadBalancer_spec {σ : Type} (l : loadbalancers σ) (service : Service)
    (nodes : List Node) (w : World σ) (request : LoadBalancerCreateRequest)
    (hreq : makeLoadBalancerCreateRequest l service nodes = .ok request) :
    (∀ err, (l.client.Create request w.st).1 = .error err →
      (createLoadBalancer l service nodes w).1
          = .error (Error.Errorf "API LoadBalancers.Create error: %v" err)
      ∧ (createLoadBalancer l service nodes w).2.1 = service
      ∧ (createLoadBalancer l service nodes w).2.2.trace = w.trace ++ [Call.Create request])
    ∧ (∀ lb, (l.client.Create request w.st).1 = .ok lb →
      (createLoadBalancer l service nodes w).2.1
          = annotateService service ServiceAnnotationLoadBalancerID lb.ID
      ∧ (createLoadBalancer l service nodes w).2.2.trace
          = w.trace ++ [Call.Create request] ++ patchCalls service lb.ID
      ∧ ∀ lb1, (createLoadBalancer l service nodes w).1 = .ok lb1 → lb1 = lb) := by
  constructor
  · intro err hc
    simp [createLoadBalancer, hreq, invoke, hc]
  · intro lb hc
    have hi : invoke (Call.Create request) (l.client.Create request) w
        = (.ok lb, { st := (l.client.Create request w.st).2,
                     trace := w.trace ++ [Call.Create request] }) := by
      simp [invoke, hc]
    have hp := Patch_trace l service lb.ID
      { st := (l.client.Create request w.st).2, trace := w.trace ++ [Call.Create request] }
    unfold createLoadBalancer
    simp only [hreq, hi]
    revert hp
    rcases (newServicePatcher service).Patch l
      (annotateService service ServiceAnnotationLoadBalancerID lb.ID)
      { st := (l.client.Create request w.st).2, trace := w.trace ++ [Call.Create request] }
      with ⟨r, w2⟩
    intro hp
    cases r with
    | some err => exact ⟨rfl, hp, fun lb1 h => by simp at h⟩
    | none => exact ⟨rfl, hp, fun lb1 h => by simpa using h.symm⟩

theorem createLoadBalancer_extends {σ : Type} (l : loadbalancers σ) (service : Service)
    (nodes : List Node) (w : World σ) :
    Extends (fun c => c.isUpdateOrSubresource = false) w
      (createLoadBalancer l service nodes w).2.2 := by
  cases hreq : makeLoadBalancerCreateRequest l service nodes with
  | error err =>
    simp only [createLoadBalancer, hreq]
    exact Extends.refl _ w
  | ok request =>
    have hs := createLoadBalancer_spec l service nodes w request hreq
    cases hc : (l.client.Create request w.st).1 with
    | error err =>
      refine ⟨[Call.Create request], (hs.1 err hc).2.2, ?_⟩
      simp [Call.isUpdateOrSubresource]
    | ok lb =>
      refine ⟨[Call.Create request] ++ patchCalls service lb.ID, ?_, ?_⟩
      · rw [(hs.2 lb hc).2.1, List.append_assoc]
      · intro c hcm
        rcases List.mem_append.1 hcm with h | h
        · rw [List.mem_singleton.1 h]; rfl
        · unfold patchCalls at h
          split at h
          · cases h
          · rw [List.mem_singleton.1 h]; rfl

theorem EnsureLoadBalancer_gate_service {σ : Type} (l : loadbalancers σ) (service : Service)
    (nodes : List Node) (lb : LoadBalancer) (w : World σ) :
    (EnsureLoadBalancer_gate l service nodes lb w).2.1 = service := by
  unfold EnsureLoadBalancer_gate
  split
  · rfl
  · rcases updateLoadBalancer l service nodes lb w with ⟨r, w1⟩
    cases r with
    | some err => rfl
    | none => cases loadBalancerStatus lb <;> rfl

theorem EnsureLoadBalancer_gate_extends {σ : Type} (l : loadbalancers σ) (service : Service)
    (nodes : List Node) (lb : LoadBalancer) (w : World σ) :
    Extends (fun c => c.isReconcile = true) w
      (EnsureLoadBalancer_gate l service nodes lb w).2.2 := by
  unfold EnsureLoadBalancer_gate
  split
  · exact Extends.refl _ w
  · have h := updateLoadBalancer_extends l service nodes lb w
    revert h
    rcases updateLoadBalancer l service nodes lb w with ⟨r, w1⟩
    intro h
    cases r with
    | some err => exact h
    | none => cases loadBalancerStatus lb <;> exact h

theorem EnsureLoadBalancer_gate_not_active {σ : Type} (l : loadbalancers σ)
    (service : Service) (nodes : List Node) (lb : LoadBalancer) (w : World σ)
    (h : lb.State ≠ "active") :
    EnsureLoadBalancer_gate l service nodes lb w
      = (some (none, some (Error.New ("Load balancer is not active yet: " ++ lb.State))),
          service, w) := by
  unfold EnsureLoadBalancer_gate
  rw [if_pos (by simpa [loadBalancerActiveStatus] using h)]

/-! ## `EnsureLoadBalancer`: locate, create, gate -/

theorem loadBalancerByID_extends {σ : Type} {P : Call → Prop} (hP : ∀ id, P (Call.Get id))
    (l : loadbalancers σ) (lbID : String) (w : World σ) :
    Extends P w (loadBalancerByID l lbID w).2 := by
  refine ⟨locateCalls lbID, loadBalancerByID_trace l lbID w, ?_⟩
  intro c hc
  unfold locateCalls at hc
  split at hc
  · cases hc
  · rw [List.mem_singleton.1 hc]; exact hP _

theorem loadBalancerByID_not_found {σ : Type} (l : loadbalancers σ) (lbID : String)
    (w : World σ)
    (h : lbID = "" ∨ (l.client.Get lbID w.st).1 = .error Error.ErrResourceNotFound) :
    (loadBalancerByID l lbID w).1 = .error Error.ErrResourceNotFound := by
  by_cases he : lbID = ""
  · simp [loadBalancerByID, he]
  · rcases h with h | h
    · exact absurd h he
    · simp [loadBalancerByID, he, invoke, h]

theorem EnsureLoadBalancer_of_located {σ : Type} (l : loadbalancers σ) (service : Service)
    (nodes : List Node) (w : World σ) (lb : LoadBalancer)
    (hloc : (loadBalancerByID l (loadBalancerID service) w).1 = .ok lb) :
    EnsureLoadBalancer l service nodes w
      = EnsureLoadBalancer_gate l service nodes lb
          (loadBalancerByID l (loadBalancerID service) w).2 := by
  unfold EnsureLoadBalancer
  rcases hl : loadBalancerByID l (loadBalancerID service) w with ⟨r, w1⟩
  rw [hl] at hloc
  simp only at hloc
  subst hloc
  rfl

theorem EnsureLoadBalancer_of_not_found {σ : Type} (l : loadbalancers σ) (service : Service)
    (nodes : List Node) (w : World σ)
    (hloc : (loadBalancerByID l (loadBalancerID service) w).1
      = .error Error.ErrResourceNotFound) :
    EnsureLoadBalancer l service nodes w
      = match createLoadBalancer l service nodes
            (loadBalancerByID l (loadBalancerID service) w).2 with
        | (.error err1, service1, w2) =>
          (some (none, some (Error.Errorf "Error creating load balancer: %v" err1)),
            service1, w2)
        | (.ok loadBalancer, service1, w2) =>
          EnsureLoadBalancer_gate l service1 nodes loadBalancer w2 := by
  unfold EnsureLoadBalancer
  rcases hl : loadBalancerByID l (loadBalancerID service) w with ⟨r, w1⟩
  rw [hl] at hloc
  simp only at hloc
  subst hloc
  simp

/-- C4: when the load balancer that reaches the gate, located by the stored identifier
or freshly created, is in a state other than "active", `EnsureLoadBalancer` returns no
status and the error "Load balancer is not active yet: <state>", and has issued no
`Update` call and no forwarding-rule, health-check or backend-node call. -/
theorem EnsureLoadBalancer_not_active {σ : Type} (l : loadbalancers σ) (service : Service)
    (nodes : List Node) (w : World σ) (lb : LoadBalancer)
    (hlb : (loadBalancerByID l (loadBalancerID service) w).1 = .ok lb
      ∨ ((loadBalancerByID l (loadBalancerID service) w).1 = .error Error.ErrResourceNotFound
        ∧ (createLoadBalancer l service nodes
            (loadBalancerByID l (loadBalancerID service) w).2).1 = .ok lb))
    (hstate : lb.State ≠ "active") :
    (EnsureLoadBalancer l service nodes w).1
        = some (none, some (Error.New ("Load balancer is not active yet: " ++ lb.State)))
    ∧ ∀ c ∈ issued w (EnsureLoadBalancer l service nodes w).2.2,
        c.isUpdateOrSubresource = false := by
  have hloc := loadBalancerByID_extends (P := fun c => c.isUpdateOrSubresource = false)
    (fun _ => rfl) l (loadBalancerID service) w
  rcases hlb with h | ⟨h, hc⟩
  · rw [EnsureLoadBalancer_of_located l service nodes w lb h,
      EnsureLoadBalancer_gate_not_active l service nodes lb _ hstate]
    exact ⟨rfl, hloc.forall_issued⟩
  · rw [EnsureLoadBalancer_of_not_found l service nodes w h]
    have hcr := createLoadBalancer_extends l service nodes
      (loadBalancerByID l (loadBalancerID service) w).2
    revert hc hcr
    rcases createLoadBalancer l service nodes
      (loadBalancerByID l (loadBalancerID service) w).2 with ⟨r, service1, w2⟩
    intro hc hcr
    simp only at hc
    subst hc
    simp only
    rw [EnsureLoadBalancer_gate_not_active l service1 nodes lb _ hstate]
    exact ⟨rfl, (hloc.trans hcr).forall_issued⟩

/-- Witness of C4: the runs of `TestLoadBalancers_EnsureNotReadyLoadBalancer`, where the
load balancer is located in state "creating". -/
theorem EnsureLoadBalancer_not_active_witness :
    (EnsureLoadBalancer
        (testLoadbalancers (.ok { testLBGetResponse with State := "creating" })
          (.error (Error.New "unused")))
        (testService testAnnotaions testPorts) testNodes testWorld).1
        = some (none, some (Error.New "Load balancer is not active yet: creating"))
    ∧ ∀ c ∈ issued testWorld (EnsureLoadBalancer
        (testLoadbalancers (.ok { testLBGetResponse with State := "creating" })
          (.error (Error.New "unused")))
        (testService testAnnotaions testPorts) testNodes testWorld).2.2,
        c.isUpdateOrSubresource = false :=
  EnsureLoadBalancer_not_active
    (testLoadbalancers (.ok { testLBGetResponse with State := "creating" })
      (.error (Error.New "unused")))
    (testService testAnnotaions testPorts) testNodes testWorld
    { testLBGetResponse with State := "creating" } (Or.inl (by decide)) (by decide)

theorem filter_isCreate_locateCalls (lbID : String) :
    (locateCalls lbID).filter Call.isCreate = [] := by
  unfold locateCalls
  split <;> rfl

theorem filter_isCreate_patchCalls (service : Service) (lbID : String) :
    (patchCalls service lbID).filter Call.isCreate = [] := by
  unfold patchCalls
  split <;> rfl

theorem filter_isCreate_of_isReconcile {evs : List Call}
    (h : ∀ c ∈ evs, c.isReconcile = true) : evs.filter Call.isCreate = [] := by
  rw [List.filter_eq_nil_iff]
  intro c hc
  have := h c hc
  cases c <;> simp_all [Call.isReconcile, Call.isCreate]

/-- C5: when the stored identifier is empty or reported not-found by the remote `Get`,
and the create request builds, `EnsureLoadBalancer` issues exactly one `Create` call,
with that request. When the `Create` succeeds, the service object carries the returned
identifier as its load-balancer-ID annotation, and the calls issued begin with the
locating call, the `Create` and, directly after it, the patch of that annotation (no
patch call is needed when the annotation already held the identifier). When the patch
succeeds too and the created load balancer is not active, the call returns the "not
active yet" error having issued exactly those calls, so the identifier is persisted
before the gate. -/
theorem EnsureLoadBalancer_create_and_persist {σ : Type} (l : loadbalancers σ)
    (service : Service) (nodes : List Node) (w : World σ)
    (request : LoadBalancerCreateRequest)
    (hid : loadBalancerID service = ""
      ∨ (l.client.Get (loadBalancerID service) w.st).1 = .error Error.ErrResourceNotFound)
    (hreq : makeLoadBalancerCreateRequest l service nodes = .ok request) :
    (issued w (EnsureLoadBalancer l service nodes w).2.2).filter Call.isCreate
        = [Call.Create request]
    ∧ ∀ lb, (l.client.Create request
          (loadBalancerByID l (loadBalancerID service) w).2.st).1 = .ok lb →
        loadBalancerID (EnsureLoadBalancer l service nodes w).2.1 = lb.ID
        ∧ (locateCalls (loadBalancerID service) ++ [Call.Create request]
            ++ patchCalls service lb.ID)
          <+: issued w (EnsureLoadBalancer l service nodes w).2.2
        ∧ ((createLoadBalancer l service nodes
              (loadBalancerByID l (loadBalancerID service) w).2).1 = .ok lb →
            lb.State ≠ "active" →
            (EnsureLoadBalancer l service nodes w).1
                = some (none,
                    some (Error.New ("Load balancer is not active yet: " ++ lb.State)))
            ∧ issued w (EnsureLoadBalancer l service nodes w).2.2
                = locateCalls (loadBalancerID service) ++ [Call.Create request]
                  ++ patchCalls service lb.ID) := by
  have hloc := loadBalancerByID_not_found l (loadBalancerID service) w hid
  have htr := loadBalancerByID_trace l (loadBalancerID service) w
  have hE := EnsureLoadBalancer_of_not_found l service nodes w hloc
  have hs := createLoadBalancer_spec l service nodes
    (loadBalancerByID l (loadBalancerID service) w).2 request hreq
  cases hc : (l.client.Create request (loadBalancerByID l (loadBalancerID service) w).2.st).1
    with
  | error err =>
    obtain ⟨h1, h2, h3⟩ := hs.1 err hc
    refine ⟨?_, fun lb hlb => by simp at hlb⟩
    revert h1 h2 h3 hE
    rcases createLoadBalancer l service nodes (loadBalancerByID l (loadBalancerID service) w).2
      with ⟨r, service1, w2⟩
    intro hE h1 h2 h3
    simp only at h1 h2 h3
    subst h1
    simp only at hE
    rw [hE]
    simp only
    rw [issued_eq_of_trace
      (show w2.trace = w.trace ++ (locateCalls (loadBalancerID service)
        ++ [Call.Create request]) by rw [h3, htr, List.append_assoc])]
    rw [List.filter_append, filter_isCreate_locateCalls]
    rfl
  | ok lb =>
    obtain ⟨h1, h2, h3⟩ := hs.2 lb hc
    revert h1 h2 h3 hE
    rcases createLoadBalancer l service nodes (loadBalancerByID l (loadBalancerID service) w).2
      with ⟨r, service1, w2⟩
    intro hE h1 h2 h3
    simp only at h1 h2 h3
    subst h1
    have hw2 : w2.trace = w.trace ++ (locateCalls (loadBalancerID service)
        ++ [Call.Create request] ++ patchCalls service lb.ID) := by
      rw [h2, htr]; simp [List.append_assoc]
    have key : ∃ evs, (EnsureLoadBalancer l service nodes w).2.2.trace = w2.trace ++ evs
        ∧ (∀ c ∈ evs, c.isReconcile = true)
        ∧ loadBalancerID (EnsureLoadBalancer l service nodes w).2.1 = lb.ID := by
      rw [hE]
      cases r with
      | error err1 =>
        exact ⟨[], by simp, by simp, loadBalancerID_annotateService service lb.ID⟩
      | ok lb1 =>
        simp only
        obtain ⟨evs, he1, he2⟩ := EnsureLoadBalancer_gate_extends l
          (annotateService service ServiceAnnotationLoadBalancerID lb.ID) nodes lb1 w2
        refine ⟨evs, he1, he2, ?_⟩
        rw [EnsureLoadBalancer_gate_service]
        exact loadBalancerID_annotateService service lb.ID
    obtain ⟨evs, ke1, ke2, ke3⟩ := key
    have hiss : issued w (EnsureLoadBalancer l service nodes w).2.2
        = (locateCalls (loadBalancerID service) ++ [Call.Create request]
            ++ patchCalls service lb.ID) ++ evs :=
      issued_eq_of_trace (by rw [ke1, hw2, List.append_assoc])
    refine ⟨?_, ?_⟩
    · rw [hiss]
      simp only [List.filter_append, filter_isCreate_locateCalls, filter_isCreate_patchCalls,
        filter_isCreate_of_isReconcile ke2]
      rfl
    · intro lb' hlb'
      have hEq : lb' = lb := by simpa using hlb'.symm
      subst hEq
      refine ⟨ke3, ?_, ?_⟩
      · rw [hiss]; exact List.prefix_append _ _
      · intro hcr hstate
        simp only at hcr
        subst hcr
        simp only at hE
        rw [hE, EnsureLoadBalancer_gate_not_active l _ nodes lb' w2 hstate]
        exact ⟨rfl, issued_eq_of_trace hw2⟩

/-- Witness of C5: the run of `TestLoadBalancers_EnsureLoadBalancerCreateNewLB` for a
service that has no load-balancer-ID annotation yet. -/
theorem EnsureLoadBalancer_create_and_persist_witness :
    (issued testWorld (EnsureLoadBalancer
        (testLoadbalancers (.error Error.ErrResourceNotFound)
          (.ok { testLBGetResponse with State := "creating" }))
        (testService testAnnotaions.tail testPorts) testNodes testWorld).2.2).filter
        Call.isCreate
      = [Call.Create
          { Name := "test-lb-name", DatacenterID := "test-dc-id", CreatePublicIPAddress := true,
            PrivateNetworkIDs := ["test-pn-id"], BalancingAlgorithm := "round_robin",
            ForwardingRules :=
              [{ RequestProtocol := "tcp", RequestPort := 80,
                 CommunicationProtocol := "tcp", CommunicationPort := 30000 }],
            HealthChecks :=
              [{ Type_ := "tcp", URL := "", Interval := 5, Timeout := 2,
                 UnhealthyThreshold := 5, HealthyThreshold := 5, Port := 8080 }],
            BackendNodes :=
              [{ CloudServerID := "test-cloud-server-1" },
               { CloudServerID := "test-cloud-server-2" }] }]
    ∧ issued testWorld (EnsureLoadBalancer
        (testLoadbalancers (.error Error.ErrResourceNotFound)
          (.ok { testLBGetResponse with State := "creating" }))
        (testService testAnnotaions.tail testPorts) testNodes testWorld).2.2
      = [Call.Create
          { Name := "test-lb-name", DatacenterID := "test-dc-id", CreatePublicIPAddress := true,
            PrivateNetworkIDs := ["test-pn-id"], BalancingAlgorithm := "round_robin",
            ForwardingRules :=
              [{ RequestProtocol := "tcp", RequestPort := 80,
                 CommunicationProtocol := "tcp", CommunicationPort := 30000 }],
            HealthChecks :=
              [{ Type_ := "tcp", URL := "", Interval := 5, Timeout := 2,
                 UnhealthyThreshold := 5, HealthyThreshold := 5, Port := 8080 }],
            BackendNodes :=
              [{ CloudServerID := "test-cloud-server-1" },
               { CloudServerID := "test-cloud-server-2" }] },
         Call.PatchService "default" "test-service"
          [(ServiceAnnotationLoadBalancerID, some "test-lb-id")]] :=
  have h := EnsureLoadBalancer_create_and_persist
    (testLoadbalancers (.error Error.ErrResourceNotFound)
      (.ok { testLBGetResponse with State := "creating" }))
    (testService testAnnotaions.tail testPorts) testNodes testWorld _
    (Or.inl (by decide)) (by decide : _ = .ok _)
  ⟨h.1, ((h.2 { testLBGetResponse with State := "creating" } (by decide)).2.2
    (by decide) (by decide)).2⟩

/-! ## Go maps built from a list of remote objects -/

theorem nodupKeys_filter {κ ν : Type} {m : GoMap κ ν} (p : κ × ν → Bool)
    (h : (m.map Prod.fst).Nodup) : ((m.filter p).map Prod.fst).Nodup :=
  h.sublist ((List.filter_sublist m).map Prod.fst)

theorem mapDelete_eq_self {κ ν : Type} [DecidableEq κ] {m : GoMap κ ν} {k : κ}
    (h : ∀ e ∈ m, e.1 ≠ k) : mapDelete m k = m := by
  unfold mapDelete
  rw [List.filter_eq_self]
  intro e he
  simpa using h e he

theorem mem_mapDelete {κ ν : Type} [DecidableEq κ] {m : GoMap κ ν} {k : κ} {e : κ × ν} :
    e ∈ mapDelete m k ↔ e ∈ m ∧ e.1 ≠ k := by
  unfold mapDelete
  rw [List.mem_filter]
  simp

theorem mem_mapSet {κ ν : Type} [DecidableEq κ] {m : GoMap κ ν} {k : κ} {v : ν}
    {e : κ × ν} : e ∈ mapSet m k v ↔ e = (k, v) ∨ (e ∈ m ∧ e.1 ≠ k) := by
  unfold mapSet
  rw [List.mem_cons, List.mem_filter]
  simp

theorem nodupKeys_mapSet {κ ν : Type} [DecidableEq κ] {m : GoMap κ ν} (k : κ) (v : ν)
    (h : (m.map Prod.fst).Nodup) : ((mapSet m k v).map Prod.fst).Nodup := by
  unfold mapSet
  rw [List.map_cons, List.nodup_cons]
  refine ⟨?_, nodupKeys_filter _ h⟩
  intro hk
  obtain ⟨e, he, hek⟩ := List.mem_map.1 hk
  have := (List.mem_filter.1 he).2
  simp at this
  exact this hek

theorem perm_cons_mapDelete {κ ν : Type} [DecidableEq κ] {m : GoMap κ ν} {k : κ} {v : ν}
    (hnd : (m.map Prod.fst).Nodup) (hmem : (k, v) ∈ m) :
    m.Perm ((k, v) :: mapDelete m k) := by
  induction m with
  | nil => cases hmem
  | cons e rest ih =>
    rw [List.map_cons, List.nodup_cons] at hnd
    by_cases hek : e = (k, v)
    · subst hek
      have hrest : ∀ a ∈ rest, a.1 ≠ k := by
        intro a ha hak
        exact hnd.1 (List.mem_map.2 ⟨a, ha, hak⟩)
      have : mapDelete ((k, v) :: rest) k = rest := by
        unfold mapDelete
        rw [List.filter_cons_of_neg (by simp)]
        exact mapDelete_eq_self hrest
      rw [this]
    · have hin : (k, v) ∈ rest := by
        rcases List.mem_cons.1 hmem with h | h
        · exact absurd h.symm hek
        · exact h
      have hne : e.1 ≠ k := by
        intro h
        exact hnd.1 (List.mem_map.2 ⟨(k, v), hin, h.symm⟩)
      have : mapDelete (e :: rest) k = e :: mapDelete rest k := by
        unfold mapDelete
        rw [List.filter_cons_of_pos (by simpa using hne)]
      rw [this]
      exact ((ih hnd.2 hin).cons e).trans (List.Perm.swap _ _ _)

theorem mapGet_of_mem {κ ν : Type} [DecidableEq κ] {m : GoMap κ ν} {k : κ} {v : ν}
    (hnd : (m.map Prod.fst).Nodup) (hmem : (k, v) ∈ m) : mapGet m k = some v := by
  induction m with
  | nil => cases hmem
  | cons e rest ih =>
    rw [List.map_cons, List.nodup_cons] at hnd
    rw [mapGet_cons]
    rcases List.mem_cons.1 hmem with h | h
    · rw [← h]; simp
    · have hne : e.1 ≠ k := by
        intro he
        exact hnd.1 (List.mem_map.2 ⟨(k, v), h, he.symm⟩)
      rw [if_neg hne]
      exact ih hnd.2 h

theorem byKey_snoc {α κ : Type} [DecidableEq κ] (key : α → κ) (l : List α) (a : α) :
    (l ++ [a]).foldl (fun m x => mapSet m (key x) x) []
      = mapSet (l.foldl (fun m x => mapSet m (key x) x) []) (key a) a := by
  rw [List.foldl_append]
  rfl

theorem byKey_mem {α κ : Type} [DecidableEq κ] (key : α → κ) (l : List α) :
    ∀ e ∈ l.foldl (fun m x => mapSet m (key x) x) ([] : GoMap κ α),
      e.2 ∈ l ∧ e.1 = key e.2 := by
  induction l using List.reverseRecOn with
  | nil => intro e he; cases he
  | append_singleton l a ih =>
    intro e he
    rw [byKey_snoc, mem_mapSet] at he
    rcases he with h | ⟨h, _⟩
    · subst h; simp
    · exact ⟨List.mem_append_left _ (ih e h).1, (ih e h).2⟩

theorem byKey_nodupKeys {α κ : Type} [DecidableEq κ] (key : α → κ) (l : List α) :
    ((l.foldl (fun m x => mapSet m (key x) x) ([] : GoMap κ α)).map Prod.fst).Nodup := by
  induction l using List.reverseRecOn with
  | nil => simp
  | append_singleton l a ih =>
    rw [byKey_snoc]
    exact nodupKeys_mapSet _ _ ih

theorem byKey_mapGet_eq_none {α κ : Type} [DecidableEq κ] (key : α → κ) (l : List α)
    (k : κ) :
    mapGet (l.foldl (fun m x => mapSet m (key x) x) ([] : GoMap κ α)) k = none
      ↔ k ∉ l.map key := by
  induction l using List.reverseRecOn with
  | nil => simp [mapGet_nil]
  | append_singleton l a ih =>
    rw [byKey_snoc]
    by_cases h : k = key a
    · subst h
      rw [mapGet_mapSet_self]
      simp
    · rw [mapGet_mapSet_ne _ _ h, ih]
      simp [h]

theorem byKey_perm {α κ : Type} [DecidableEq κ] (key : α → κ) (l : List α)
    (h : (l.map key).Nodup) :
    (l.foldl (fun m x => mapSet m (key x) x) ([] : GoMap κ α)).Perm
      (l.map (fun x => (key x, x))) := by
  induction l using List.reverseRecOn with
  | nil => simp
  | append_singleton l a ih =>
    rw [List.map_append, List.nodup_append] at h
    obtain ⟨h1, _, h3⟩ := h
    rw [byKey_snoc, List.map_append]
    have hfresh : ∀ e ∈ l.foldl (fun m x => mapSet m (key x) x) ([] : GoMap κ α),
        e.1 ≠ key a := by
      intro e he hek
      have hm := byKey_mem key l e he
      exact h3 (List.mem_map.2 ⟨e.2, hm.1, hm.2.symm.trans hek⟩) (by simp)
    have hset : mapSet (l.foldl (fun m x => mapSet m (key x) x) []) (key a) a
        = (key a, a) :: l.foldl (fun m x => mapSet m (key x) x) [] := by
      unfold mapSet
      rw [List.filter_eq_self.2]
      intro e he
      simpa using hfresh e he
    rw [hset]
    exact (List.perm_append_singleton _ _).symm.trans
      (List.Perm.append_right _ (ih h1))

/-! ## The mutating calls of one step -/

theorem Extends.mono {σ : Type} {P Q : Call → Prop} {w w' : World σ}
    (h : Extends P w w') (hPQ : ∀ c, P c → Q c) : Extends Q w w' := by
  obtain ⟨evs, ht, hp⟩ := h
  exact ⟨evs, ht, fun c hc => hPQ c (hp c hc)⟩

theorem issued_trans {σ : Type} {P Q : Call → Prop} {w w1 w2 : World σ}
    (h1 : Extends P w w1) (h2 : Extends Q w1 w2) :
    issued w w2 = issued w w1 ++ issued w1 w2 := by
  obtain ⟨e1, ht1, _⟩ := h1
  obtain ⟨e2, ht2, _⟩ := h2
  rw [issued_eq_of_trace ht1, issued_eq_of_trace ht2,
    issued_eq_of_trace (show w2.trace = w.trace ++ (e1 ++ e2) by
      rw [ht2, ht1, List.append_assoc])]

theorem filter_isMutating_eq_nil {evs : List Call} (h : ∀ c ∈ evs, c.isMutating = false) :
    evs.filter Call.isMutating = [] := by
  rw [List.filter_eq_nil_iff]
  intro c hc
  simp [h c hc]

/-- A step that issues one mutating call and then only polls has that call as its only
mutating call. -/
theorem mutating_then_polls {σ : Type} {w w1 w' : World σ} {c : Call}
    (h1 : w1.trace = w.trace ++ [c]) (hc : c.isMutating = true)
    (h2 : Extends (fun c => c.isMutating = false) w1 w') :
    (issued w w').filter Call.isMutating = [c] := by
  obtain ⟨evs, ht, hp⟩ := h2
  rw [issued_eq_of_trace (show w'.trace = w.trace ++ (c :: evs) by
    rw [ht, h1, List.append_assoc]; rfl)]
  rw [List.filter_cons_of_pos hc, filter_isMutating_eq_nil hp]

theorem addForwardingRule_mutations {σ : Type} (l : loadbalancers σ) (lbID : String)
    (port : ServicePort) (w : World σ) :
    (issued w (addForwardingRule l lbID port w).2).filter Call.isMutating
      = [Call.CreateForwardingRule lbID (lbForwardingRuleCreateRequest l.rt port)] := by
  unfold addForwardingRule
  have h := invoke_trace
    (Call.CreateForwardingRule lbID (lbForwardingRuleCreateRequest l.rt port))
    (l.client.CreateForwardingRule lbID (lbForwardingRuleCreateRequest l.rt port)) w
  revert h
  rcases invoke _ _ w with ⟨r, w1⟩
  intro h
  cases r with
  | error err => exact mutating_then_polls h rfl (Extends.refl _ w1)
  | ok fr =>
    refine mutating_then_polls h rfl (waitForState_extends _ (fun w2 => ?_) _ _ _)
    have h2 := invoke_extends (P := fun c => c.isMutating = false)
      (c := Call.GetForwardingRule lbID fr.ID) rfl (l.client.GetForwardingRule lbID fr.ID) w2
    rcases hi : invoke (Call.GetForwardingRule lbID fr.ID)
      (l.client.GetForwardingRule lbID fr.ID) w2 with ⟨r2, w3⟩
    rw [hi] at h2
    cases r2 <;> simpa using h2

theorem removeForwardingRule_mutations {σ : Type} (l : loadbalancers σ)
    (lbID frID : String) (w : World σ) :
    (issued w (removeForwardingRule l lbID frID w).2).filter Call.isMutating
      = [Call.DeleteForwardingRule lbID frID] := by
  unfold removeForwardingRule
  have h := invoke_trace (Call.DeleteForwardingRule lbID frID)
    (l.client.DeleteForwardingRule lbID frID) w
  revert h
  rcases invoke _ _ w with ⟨r, w1⟩
  intro h
  cases r with
  | some err => exact mutating_then_polls h rfl (Extends.refl _ w1)
  | none =>
    refine mutating_then_polls h rfl (waitForState_extends _ (fun w2 => ?_) _ _ _)
    have h2 := invoke_extends (P := fun c => c.isMutating = false)
      (c := Call.GetForwardingRule lbID frID) rfl (l.client.GetForwardingRule lbID frID) w2
    rcases hi : invoke (Call.GetForwardingRule lbID frID)
      (l.client.GetForwardingRule lbID frID) w2 with ⟨r2, w3⟩
    rw [hi] at h2
    cases r2 with
    | error err => by_cases he : err = Error.ErrResourceNotFound <;> simpa [he] using h2
    | ok fr => simpa using h2

/-- The mutating calls of a successful `updateForwardingRule`: none for a rule that
matches, and for a rule that differs its deletion followed by the creation of the
replacement. -/
theorem updateForwardingRule_mutations {σ : Type} (l : loadbalancers σ) (port : ServicePort)
    (fr : LBForwardingRule) (lbID : String) (w : World σ)
    (hok : (updateForwardingRule l port fr lbID w).1 = none) :
    (issued w (updateForwardingRule l port fr lbID w).2).filter Call.isMutating
      = if forwardingRuleDiffers l.rt port fr then
          [Call.DeleteForwardingRule lbID fr.ID,
           Call.CreateForwardingRule lbID (lbForwardingRuleCreateRequest l.rt port)]
        else [] := by
  unfold updateForwardingRule at hok ⊢
  by_cases hd : forwardingRuleDiffers l.rt port fr = true
  · simp only [hd, if_true] at hok ⊢
    have h1 := removeForwardingRule_mutations l lbID fr.ID w
    have e1 := removeForwardingRule_extends l lbID fr.ID w
    revert h1 e1 hok
    rcases removeForwardingRule l lbID fr.ID w with ⟨r, w1⟩
    intro hok h1 e1
    cases r with
    | some err => simp at hok
    | none =>
      simp only at hok ⊢
      rw [issued_trans e1 (addForwardingRule_extends l lbID port w1), List.filter_append,
        h1, addForwardingRule_mutations]
      rfl
  · simp only [hd]
    simp [issued_self]

/-! ## The forwarding-rule diff -/

theorem staleForwardingRule_cons_of_ne (rt : Runtime) (port : ServicePort)
    (rest : List ServicePort) (fr : LBForwardingRule) (h : fr.RequestPort ≠ port.Port) :
    staleForwardingRule rt (port :: rest) fr = staleForwardingRule rt rest fr := by
  simp [staleForwardingRule, h, Ne.symm h]

theorem staleForwardingRule_cons_self (rt : Runtime) (port : ServicePort)
    (rest : List ServicePort) (fr : LBForwardingRule) (h : fr.RequestPort = port.Port)
    (hnot : port.Port ∉ rest.map ServicePort.Port) :
    staleForwardingRule rt (port :: rest) fr = forwardingRuleDiffers rt port fr := by
  have hany : rest.any (fun q => decide (q.Port = fr.RequestPort)
      && forwardingRuleDiffers rt q fr) = false := by
    rw [List.any_eq_false]
    intro q hq
    have : q.Port ≠ fr.RequestPort := by
      intro hqp
      exact hnot (List.mem_map.2 ⟨q, hq, hqp.trans h⟩)
    simp [this]
  unfold staleForwardingRule
  rw [List.any_cons, hany]
  simp [h]

theorem staleForwardingRule_nil (rt : Runtime) (fr : LBForwardingRule) :
    staleForwardingRule rt [] fr = true := by
  simp [staleForwardingRule]

theorem createsForwardingRule_mapDelete (rt : Runtime) (m : GoMap Int LBForwardingRule)
    (k : Int) (port : ServicePort) (h : port.Port ≠ k) :
    createsForwardingRule rt (mapDelete m k) port = createsForwardingRule rt m port := by
  unfold createsForwardingRule
  rw [mapGet_mapDelete_ne m h]

/-- The loop over the ports, when it succeeds: the map it leaves holds the rules whose
port is not desired; the rules it deletes, together with those it leaves, are the stale
ones; the rules it creates are those of the ports without a matching rule. -/
theorem updateForwardingRules_ports_diff {σ : Type} (l : loadbalancers σ) (lbID : String) :
    ∀ (ps : List ServicePort) (m : GoMap Int LBForwardingRule) (w : World σ),
      (ps.map ServicePort.Port).Nodup → (m.map Prod.fst).Nodup →
      (∀ e ∈ m, e.1 = e.2.RequestPort) →
      (updateForwardingRules_ports l lbID ps m w).1 = none →
      (updateForwardingRules_ports l lbID ps m w).2.1
          = m.filter (fun e => decide (e.1 ∉ ps.map ServicePort.Port))
      ∧ ((((issued w (updateForwardingRules_ports l lbID ps m w).2.2).filter
              Call.isMutating).filter Call.isDeleteForwardingRule)
          ++ (m.filter (fun e => decide (e.1 ∉ ps.map ServicePort.Port))).map
              (fun e => Call.DeleteForwardingRule lbID e.2.ID)).Perm
          ((m.filter (fun e => staleForwardingRule l.rt ps e.2)).map
            (fun e => Call.DeleteForwardingRule lbID e.2.ID))
      ∧ ((issued w (updateForwardingRules_ports l lbID ps m w).2.2).filter
            Call.isMutating).filter Call.isCreateForwardingRule
          = (ps.filter (createsForwardingRule l.rt m)).map
              (fun p => Call.CreateForwardingRule lbID (lbForwardingRuleCreateRequest l.rt p))
    := by
  intro ps
  induction ps with
  | nil =>
    intro m w _ _ _ _
    simp [updateForwardingRules_ports, issued_self, staleForwardingRule_nil]
  | cons p rest ih =>
    intro m w hps hm hkey hok
    rw [List.map_cons, List.nodup_cons] at hps
    have hrest : ∀ q ∈ rest, q.Port ≠ p.Port := by
      intro q hq hqp
      exact hps.1 (List.mem_map.2 ⟨q, hq, hqp⟩)
    unfold updateForwardingRules_ports at hok ⊢
    cases hg : mapGet m p.Port with
    | none =>
      simp only [hg] at hok ⊢
      have hne : ∀ e ∈ m, e.1 ≠ p.Port := (mapGet_eq_none_iff m p.Port).1 hg
      have ha := addForwardingRule_mutations l lbID p w
      have ea := addForwardingRule_extends l lbID p w
      revert ha ea hok
      rcases addForwardingRule l lbID p w with ⟨r, w1⟩
      intro hok ha ea
      cases r with
      | some err => simp at hok
      | none =>
        simp only at hok ha ea ⊢
        obtain ⟨i1, i2, i3⟩ := ih m w1 hps.2 hm hkey hok
        have er := updateForwardingRules_ports_extends l lbID rest m w1
        have hf : m.filter (fun e => decide (e.1 ∉ (p :: rest).map ServicePort.Port))
            = m.filter (fun e => decide (e.1 ∉ rest.map ServicePort.Port)) := by
          apply List.filter_congr
          intro e he
          simp [hne e he]
        have hs : m.filter (fun e => staleForwardingRule l.rt (p :: rest) e.2)
            = m.filter (fun e => staleForwardingRule l.rt rest e.2) := by
          apply List.filter_congr
          intro e he
          rw [staleForwardingRule_cons_of_ne]
          rw [← hkey e he]
          exact hne e he
        rw [issued_trans ea er, List.filter_append, ha, hf, hs]
        refine ⟨i1, ?_, ?_⟩
        · simpa [List.filter_append, Call.isDeleteForwardingRule] using i2
        · have hcp : (p :: rest).filter (createsForwardingRule l.rt m)
              = p :: rest.filter (createsForwardingRule l.rt m) :=
            List.filter_cons_of_pos (by simp [createsForwardingRule, hg])
          rw [List.filter_append, i3, hcp]
          rfl
    | some fr =>
      simp only [hg] at hok ⊢
      have hmem : (p.Port, fr) ∈ m := mapGet_mem hg
      have hfr : fr.RequestPort = p.Port := (hkey _ hmem).symm
      have hu := updateForwardingRule_mutations l p fr lbID w
      have eu := updateForwardingRule_extends l p fr lbID w
      revert hu eu hok
      rcases updateForwardingRule l p fr lbID w with ⟨r, w1⟩
      intro hok hu eu
      cases r with
      | some err => simp at hok
      | none =>
        simp only at hok hu eu ⊢
        have hm1 : ((mapDelete m p.Port).map Prod.fst).Nodup := nodupKeys_filter _ hm
        have hkey1 : ∀ e ∈ mapDelete m p.Port, e.1 = e.2.RequestPort :=
          fun e he => hkey e (mem_mapDelete.1 he).1
        obtain ⟨i1, i2, i3⟩ := ih (mapDelete m p.Port) w1 hps.2 hm1 hkey1 hok
        have er := updateForwardingRules_ports_extends l lbID rest (mapDelete m p.Port) w1
        have hf : m.filter (fun e => decide (e.1 ∉ (p :: rest).map ServicePort.Port))
            = (mapDelete m p.Port).filter
                (fun e => decide (e.1 ∉ rest.map ServicePort.Port)) := by
          unfold mapDelete
          rw [List.filter_filter]
          apply List.filter_congr
          intro e _
          simp [not_or, Bool.and_comm]
        have hperm := perm_cons_mapDelete hm hmem
        have hs1 : ∀ e ∈ mapDelete m p.Port,
            staleForwardingRule l.rt (p :: rest) e.2 = staleForwardingRule l.rt rest e.2 := by
          intro e he
          rw [staleForwardingRule_cons_of_ne]
          rw [← hkey1 e he]
          exact (mem_mapDelete.1 he).2
        have hs : (m.filter (fun e => staleForwardingRule l.rt (p :: rest) e.2)).Perm
            ((if forwardingRuleDiffers l.rt p fr then [(p.Port, fr)] else [])
              ++ (mapDelete m p.Port).filter
                  (fun e => staleForwardingRule l.rt rest e.2)) := by
          refine (hperm.filter _).trans ?_
          rw [List.filter_cons, staleForwardingRule_cons_self l.rt p rest fr hfr hps.1,
            List.filter_congr hs1]
          split <;> simp
        have hc : rest.filter (createsForwardingRule l.rt (mapDelete m p.Port))
            = rest.filter (createsForwardingRule l.rt m) := by
          apply List.filter_congr
          intro q hq
          exact createsForwardingRule_mapDelete l.rt m p.Port q (hrest q hq)
        rw [issued_trans eu er, List.filter_append, hu trivial, hf]
        refine ⟨i1, ?_, ?_⟩
        · refine List.Perm.trans ?_ (hs.map _).symm
          rw [List.filter_append, List.append_assoc, List.map_append]
          refine List.Perm.append ?_ i2
          split <;> simp [Call.isDeleteForwardingRule]
        · rw [List.filter_append, i3, hc, List.filter_cons]
          simp only [createsForwardingRule, hg]
          split <;> simp [Call.isCreateForwardingRule]

theorem updateForwardingRules_stale_mutations {σ : Type} (l : loadbalancers σ)
    (lbID : String) :
    ∀ (es : List (Int × LBForwardingRule)) (w : World σ),
      (updateForwardingRules_stale l lbID es w).1 = none →
      (issued w (updateForwardingRules_stale l lbID es w).2).filter Call.isMutating
        = es.map (fun e => Call.DeleteForwardingRule lbID e.2.ID) := by
  intro es
  induction es with
  | nil => intro w _; simp [updateForwardingRules_stale, issued_self]
  | cons e rest ih =>
    intro w hok
    unfold updateForwardingRules_stale at hok ⊢
    have h1 := removeForwardingRule_mutations l lbID e.2.ID w
    have e1 := removeForwardingRule_extends l lbID e.2.ID w
    revert h1 e1 hok
    rcases removeForwardingRule l lbID e.2.ID w with ⟨r, w1⟩
    intro hok h1 e1
    cases r with
    | some err => simp at hok
    | none =>
      simp only at hok h1 e1 ⊢
      rw [issued_trans e1 (updateForwardingRules_stale_extends l lbID rest w1),
        List.filter_append, h1, ih w1 hok]
      rfl

theorem filter_isDeleteForwardingRule_mutating (evs : List Call) :
    (evs.filter Call.isMutating).filter Call.isDeleteForwardingRule
      = evs.filter Call.isDeleteForwardingRule := by
  rw [List.filter_filter]
  apply List.filter_congr
  intro c _
  cases c <;> rfl

theorem filter_isCreateForwardingRule_mutating (evs : List Call) :
    (evs.filter Call.isMutating).filter Call.isCreateForwardingRule
      = evs.filter Call.isCreateForwardingRule := by
  rw [List.filter_filter]
  apply List.filter_congr
  intro c _
  cases c <;> rfl

/-- With one rule per request port, the loop creates a rule for a port exactly when no
existing rule is at that port or the one there differs. -/
theorem createsForwardingRule_byPort (rt : Runtime) (rules : List LBForwardingRule)
    (hrules : (rules.map LBForwardingRule.RequestPort).Nodup) (port : ServicePort) :
    createsForwardingRule rt (forwardingRulesByPort rules) port
      = needsForwardingRule rt rules port := by
  unfold createsForwardingRule needsForwardingRule
  cases hg : mapGet (forwardingRulesByPort rules) port.Port with
  | none =>
    have := (byKey_mapGet_eq_none LBForwardingRule.RequestPort rules port.Port).1 hg
    simp [this]
  | some fr =>
    have hm := byKey_mem LBForwardingRule.RequestPort rules _ (mapGet_mem hg)
    simp only at hm
    have hin : port.Port ∈ rules.map LBForwardingRule.RequestPort :=
      List.mem_map.2 ⟨fr, hm.1, hm.2.symm⟩
    have hany : rules.any (fun fr' => decide (fr'.RequestPort = port.Port)
        && forwardingRuleDiffers rt port fr') = forwardingRuleDiffers rt port fr := by
      cases hd : forwardingRuleDiffers rt port fr with
      | true =>
        rw [List.any_eq_true]
        exact ⟨fr, hm.1, by simp [hm.2.symm, hd]⟩
      | false =>
        rw [List.any_eq_false]
        intro fr' hfr'
        by_cases hp : fr'.RequestPort = port.Port
        · have : fr' = fr :=
            List.inj_on_of_nodup_map hrules hfr' hm.1 (hp.trans hm.2)
          simp [this, hd]
        · simp [hp]
    simp [hin, hany]

/-- C2: when `updateForwardingRules` succeeds (every remote call and every poll of it
succeeds) on existing rules with pairwise distinct request ports and desired service
ports with pairwise distinct ports, the `DeleteForwardingRule` calls it issued are, up
to order, one for each existing rule whose request port is not a desired port or which
differs from the desired mapping at that port, and the `CreateForwardingRule` calls
are, in the order of the service ports, one for each desired mapping that has no
existing rule at its port or a differing one; so a rule that matches its desired
mapping is neither deleted nor created again. -/
theorem updateForwardingRules_diff {σ : Type} (l : loadbalancers σ) (service : Service)
    (lb : LoadBalancer) (w : World σ)
    (hrules : (lb.ForwardingRules.map LBForwardingRule.RequestPort).Nodup)
    (hports : (service.Ports.map ServicePort.Port).Nodup)
    (hok : (updateForwardingRules l service lb w).1 = none) :
    ((issued w (updateForwardingRules l service lb w).2).filter
        Call.isDeleteForwardingRule).Perm
      ((lb.ForwardingRules.filter (staleForwardingRule l.rt service.Ports)).map
        (fun fr => Call.DeleteForwardingRule lb.ID fr.ID))
    ∧ (issued w (updateForwardingRules l service lb w).2).filter
        Call.isCreateForwardingRule
      = (service.Ports.filter (needsForwardingRule l.rt lb.ForwardingRules)).map
          (fun p => Call.CreateForwardingRule lb.ID (lbForwardingRuleCreateRequest l.rt p))
    := by
  have hm : ((forwardingRulesByPort lb.ForwardingRules).map Prod.fst).Nodup :=
    byKey_nodupKeys LBForwardingRule.RequestPort lb.ForwardingRules
  have hkey : ∀ e ∈ forwardingRulesByPort lb.ForwardingRules, e.1 = e.2.RequestPort :=
    fun e he => (byKey_mem LBForwardingRule.RequestPort lb.ForwardingRules e he).2
  have hperm : (forwardingRulesByPort lb.ForwardingRules).Perm
      (lb.ForwardingRules.map (fun fr => (fr.RequestPort, fr))) :=
    byKey_perm LBForwardingRule.RequestPort lb.ForwardingRules hrules
  unfold updateForwardingRules at hok ⊢
  have hd := updateForwardingRules_ports_diff l lb.ID service.Ports
    (forwardingRulesByPort lb.ForwardingRules) w hports hm hkey
  have ep := updateForwardingRules_ports_extends l lb.ID service.Ports
    (forwardingRulesByPort lb.ForwardingRules) w
  revert hd ep hok
  rcases updateForwardingRules_ports l lb.ID service.Ports
    (forwardingRulesByPort lb.ForwardingRules) w with ⟨r, m1, w1⟩
  intro hok hd ep
  cases r with
  | some err => simp at hok
  | none =>
    simp only at hok hd ep ⊢
    obtain ⟨d1, d2, d3⟩ := hd trivial
    have hst := updateForwardingRules_stale_mutations l lb.ID
      (l.rt.rangeForwardingRules m1) w1 hok
    have es := updateForwardingRules_stale_extends l lb.ID
      (l.rt.rangeForwardingRules m1) w1
    rw [issued_trans ep es]
    constructor
    · rw [← filter_isDeleteForwardingRule_mutating, List.filter_append, List.filter_append,
        hst]
      have hall : ((l.rt.rangeForwardingRules m1).map
          (fun e => Call.DeleteForwardingRule lb.ID e.2.ID)).filter
            Call.isDeleteForwardingRule
          = (l.rt.rangeForwardingRules m1).map
              (fun e => Call.DeleteForwardingRule lb.ID e.2.ID) := by
        rw [List.filter_eq_self]
        intro c hc
        obtain ⟨e, _, rfl⟩ := List.mem_map.1 hc
        rfl
      rw [hall]
      have hrange : ((l.rt.rangeForwardingRules m1).map
          (fun e => Call.DeleteForwardingRule lb.ID e.2.ID)).Perm
          ((((forwardingRulesByPort lb.ForwardingRules).filter
              (fun e => decide (e.1 ∉ service.Ports.map ServicePort.Port)))).map
            (fun e => Call.DeleteForwardingRule lb.ID e.2.ID)) := by
        rw [← d1]
        exact (l.rt.rangeForwardingRules_perm m1).map _
      refine ((List.Perm.append_left _ hrange).trans d2).trans ?_
      refine ((hperm.filter _).map _).trans ?_
      rw [List.filter_map, List.map_map]
      exact List.Perm.refl _
    · rw [← filter_isCreateForwardingRule_mutating, List.filter_append, List.filter_append,
        hst, d3]
      have hnone : ((l.rt.rangeForwardingRules m1).map
          (fun e => Call.DeleteForwardingRule lb.ID e.2.ID)).filter
            Call.isCreateForwardingRule = [] := by
        rw [List.filter_eq_nil_iff]
        intro c hc
        obtain ⟨e, _, rfl⟩ := List.mem_map.1 hc
        simp [Call.isCreateForwardingRule]
      rw [hnone, List.append_nil]
      congr 1
      apply List.filter_congr
      intro p _
      exact createsForwardingRule_byPort l.rt lb.ForwardingRules hrules p

/-- Witness of C2: existing rules at ports 80 (matching) and 443, desired mappings for
ports 80 and 8080: exactly one deletion, of the rule at 443, and one creation, of the
rule for 8080. -/
theorem updateForwardingRules_diff_witness :
    ((issued testWorld (updateForwardingRules
        (testLoadbalancers (.ok testLBGetResponse) (.error (Error.New "unused")))
        (testService testAnnotaions
          [ { Name := "kept", Protocol := "TCP", Port := 80, NodePort := 30000 },
            { Name := "new", Protocol := "TCP", Port := 8080, NodePort := 30080 } ])
        { testLBGetResponse with ForwardingRules :=
          [ { ID := "fr-80", RequestProtocol := "tcp", RequestPort := 80,
              CommunicationProtocol := "tcp", CommunicationPort := 30000, State := "active" },
            { ID := "fr-443", RequestProtocol := "tcp", RequestPort := 443,
              CommunicationProtocol := "tcp", CommunicationPort := 30443,
              State := "active" } ] }
        testWorld).2).filter Call.isDeleteForwardingRule).Perm
      [Call.DeleteForwardingRule "test-lb-id" "fr-443"]
    ∧ (issued testWorld (updateForwardingRules
        (testLoadbalancers (.ok testLBGetResponse) (.error (Error.New "unused")))
        (testService testAnnotaions
          [ { Name := "kept", Protocol := "TCP", Port := 80, NodePort := 30000 },
            { Name := "new", Protocol := "TCP", Port := 8080, NodePort := 30080 } ])
        { testLBGetResponse with ForwardingRules :=
          [ { ID := "fr-80", RequestProtocol := "tcp", RequestPort := 80,
              CommunicationProtocol := "tcp", CommunicationPort := 30000, State := "active" },
            { ID := "fr-443", RequestProtocol := "tcp", RequestPort := 443,
              CommunicationProtocol := "tcp", CommunicationPort := 30443,
              State := "active" } ] }
        testWorld).2).filter Call.isCreateForwardingRule
      = [Call.CreateForwardingRule "test-lb-id"
          { RequestProtocol := "tcp", RequestPort := 8080,
            CommunicationProtocol := "tcp", CommunicationPort := 30080 }] :=
  updateForwardingRules_diff
    (testLoadbalancers (.ok testLBGetResponse) (.error (Error.New "unused")))
    (testService testAnnotaions
      [ { Name := "kept", Protocol := "TCP", Port := 80, NodePort := 30000 },
        { Name := "new", Protocol := "TCP", Port := 8080, NodePort := 30080 } ])
    { testLBGetResponse with ForwardingRules :=
      [ { ID := "fr-80", RequestProtocol := "tcp", RequestPort := 80,
          CommunicationProtocol := "tcp", CommunicationPort := 30000, State := "active" },
        { ID := "fr-443", RequestProtocol := "tcp", RequestPort := 443,
          CommunicationProtocol := "tcp", CommunicationPort := 30443,
          State := "active" } ] }
    testWorld (by decide) (by decide) (by decide)

/-! ## The backend-node diff -/

/-- The loop over the nodes, for provider IDs that parse to pairwise distinct instance
IDs: `bnsToAdd` gains the IDs the map does not hold, in the order of the nodes, and
`bnsToDelete` keeps the entries whose key is not one of the IDs. -/
theorem updateBackendNodes_nodes_eq :
    ∀ (nodes : List Node) (ids : List String) (bnsToAdd : List String)
      (m : GoMap String LBBackendNode),
      nodes.map (fun n => instanceIDByProviderID n.ProviderID) = ids.map Except.ok →
      ids.Nodup →
      updateBackendNodes_nodes nodes bnsToAdd m
        = .ok (bnsToAdd ++ ids.filter (fun id => (mapGet m id).isNone),
            m.filter (fun e => decide (e.1 ∉ ids))) := by
  intro nodes
  induction nodes with
  | nil =>
    intro ids bnsToAdd m hp _
    cases ids with
    | nil => simp [updateBackendNodes_nodes]
    | cons id ids' => simp at hp
  | cons n rest ih =>
    intro ids bnsToAdd m hp hnd
    cases ids with
    | nil => simp at hp
    | cons id ids' =>
      rw [List.map_cons, List.map_cons, List.cons.injEq] at hp
      rw [List.nodup_cons] at hnd
      unfold updateBackendNodes_nodes
      rw [hp.1]
      simp only
      cases hg : mapGet m id with
      | none =>
        simp only
        rw [ih ids' (bnsToAdd ++ [id]) m hp.2 hnd.2]
        have hne : ∀ e ∈ m, e.1 ≠ id := (mapGet_eq_none_iff m id).1 hg
        have hf : m.filter (fun e => decide (e.1 ∉ id :: ids'))
            = m.filter (fun e => decide (e.1 ∉ ids')) := by
          apply List.filter_congr
          intro e he
          simp [hne e he]
        rw [hf, List.filter_cons_of_pos (by simp [hg]), List.append_assoc]
        rfl
      | some bn =>
        simp only
        rw [ih ids' bnsToAdd (mapDelete m id) hp.2 hnd.2]
        have hf : (mapDelete m id).filter (fun e => decide (e.1 ∉ ids'))
            = m.filter (fun e => decide (e.1 ∉ id :: ids')) := by
          unfold mapDelete
          rw [List.filter_filter]
          apply List.filter_congr
          intro e _
          simp [not_or, Bool.and_comm]
        have hc : ids'.filter (fun x => (mapGet (mapDelete m id) x).isNone)
            = ids'.filter (fun x => (mapGet m x).isNone) := by
          apply List.filter_congr
          intro x hx
          have hxid : x ≠ id := fun h => hnd.1 (h ▸ hx)
          rw [mapGet_mapDelete_ne m hxid]
        rw [hf, hc, List.filter_cons_of_neg (by simp [hg])]

theorem addBackendNodes_mutations {σ : Type} (l : loadbalancers σ) (lbID : String)
    (bns : List String) (w : World σ) :
    (issued w (addBackendNodes l lbID bns w).2).filter Call.isMutating
      = [Call.AddBackendNodes lbID bns] := by
  unfold addBackendNodes
  have h := invoke_trace (Call.AddBackendNodes lbID bns)
    (l.client.AddBackendNodes lbID bns) w
  revert h
  rcases invoke _ _ w with ⟨r, w1⟩
  intro h
  cases r with
  | error err => exact mutating_then_polls h rfl (Extends.refl _ w1)
  | ok backendNodes =>
    refine mutating_then_polls h rfl (waitForState_extends _ (fun w2 => ?_) _ _ _)
    have h2 := invoke_extends (P := fun c => c.isMutating = false)
      (c := Call.ListBackendNodes lbID) rfl (l.client.ListBackendNodes lbID) w2
    rcases hi : invoke (Call.ListBackendNodes lbID) (l.client.ListBackendNodes lbID) w2
      with ⟨r2, w3⟩
    rw [hi] at h2
    cases r2 <;> simpa using h2

theorem removeBackendNode_mutations {σ : Type} (l : loadbalancers σ) (lbID bnID : String)
    (w : World σ) :
    (issued w (removeBackendNode l lbID bnID w).2).filter Call.isMutating
      = [Call.DeleteBackendNode lbID bnID] := by
  unfold removeBackendNode
  have h := invoke_trace (Call.DeleteBackendNode lbID bnID)
    (l.client.DeleteBackendNode lbID bnID) w
  revert h
  rcases invoke _ _ w with ⟨r, w1⟩
  intro h
  cases r with
  | some err => exact mutating_then_polls h rfl (Extends.refl _ w1)
  | none =>
    refine mutating_then_polls h rfl (waitForState_extends _ (fun w2 => ?_) _ _ _)
    have h2 := invoke_extends (P := fun c => c.isMutating = false)
      (c := Call.GetBackendNode lbID bnID) rfl (l.client.GetBackendNode lbID bnID) w2
    rcases hi : invoke (Call.GetBackendNode lbID bnID) (l.client.GetBackendNode lbID bnID) w2
      with ⟨r2, w3⟩
    rw [hi] at h2
    cases r2 with
    | error err => by_cases he : err = Error.ErrResourceNotFound <;> simpa [he] using h2
    | ok bn => simpa using h2

theorem updateBackendNodes_stale_mutations {σ : Type} (l : loadbalancers σ)
    (lbID : String) :
    ∀ (es : List (String × LBBackendNode)) (w : World σ),
      (updateBackendNodes_stale l lbID es w).1 = none →
      (issued w (updateBackendNodes_stale l lbID es w).2).filter Call.isMutating
        = es.map (fun e => Call.DeleteBackendNode lbID e.2.ID) := by
  intro es
  induction es with
  | nil => intro w _; simp [updateBackendNodes_stale, issued_self]
  | cons e rest ih =>
    intro w hok
    unfold updateBackendNodes_stale at hok ⊢
    have h1 := removeBackendNode_mutations l lbID e.2.ID w
    have e1 := removeBackendNode_extends l lbID e.2.ID w
    revert h1 e1 hok
    rcases removeBackendNode l lbID e.2.ID w with ⟨r, w1⟩
    intro hok h1 e1
    cases r with
    | some err => simp at hok
    | none =>
      simp only at hok h1 e1 ⊢
      rw [issued_trans e1 (updateBackendNodes_stale_extends l lbID rest w1),
        List.filter_append, h1, ih w1 hok]
      rfl

theorem filter_isAddBackendNodes_mutating (evs : List Call) :
    (evs.filter Call.isMutating).filter Call.isAddBackendNodes
      = evs.filter Call.isAddBackendNodes := by
  rw [List.filter_filter]
  apply List.filter_congr
  intro c _
  cases c <;> rfl

theorem filter_isDeleteBackendNode_mutating (evs : List Call) :
    (evs.filter Call.isMutating).filter Call.isDeleteBackendNode
      = evs.filter Call.isDeleteBackendNode := by
  rw [List.filter_filter]
  apply List.filter_congr
  intro c _
  cases c <;> rfl

/-- C3: when `updateBackendNodes` succeeds (every remote call and every poll of it
succeeds) on existing backend nodes with pairwise distinct CloudServerIDs and nodes
whose provider IDs parse to pairwise distinct instance IDs, there is no
`AddBackendNodes` call when every desired instance ID is an existing CloudServerID, and
otherwise exactly one, whose argument is the desired instance IDs that are not an
existing CloudServerID; and the `DeleteBackendNode` calls are, up to order, one for each
existing node whose CloudServerID is not a desired instance ID, with the
remote-assigned node ID. -/
theorem updateBackendNodes_diff {σ : Type} (l : loadbalancers σ) (nodes : List Node)
    (lb : LoadBalancer) (w : World σ) (ids : List String)
    (hparse : nodes.map (fun n => instanceIDByProviderID n.ProviderID) = ids.map Except.ok)
    (hids : ids.Nodup)
    (hbns : (lb.BackendNodes.map LBBackendNode.CloudServerID).Nodup)
    (hok : (updateBackendNodes l nodes lb w).1 = none) :
    (issued w (updateBackendNodes l nodes lb w).2).filter Call.isAddBackendNodes
      = (if ids.filter (fun id =>
            decide (id ∉ lb.BackendNodes.map LBBackendNode.CloudServerID)) = [] then []
          else [Call.AddBackendNodes lb.ID (ids.filter (fun id =>
            decide (id ∉ lb.BackendNodes.map LBBackendNode.CloudServerID)))])
    ∧ ((issued w (updateBackendNodes l nodes lb w).2).filter Call.isDeleteBackendNode).Perm
        ((lb.BackendNodes.filter (fun bn => decide (bn.CloudServerID ∉ ids))).map
          (fun bn => Call.DeleteBackendNode lb.ID bn.ID)) := by
  have hadd : ids.filter (fun id => (mapGet (backendNodesByServer lb.BackendNodes) id).isNone)
      = ids.filter (fun id =>
          decide (id ∉ lb.BackendNodes.map LBBackendNode.CloudServerID)) := by
    apply List.filter_congr
    intro id _
    have := byKey_mapGet_eq_none LBBackendNode.CloudServerID lb.BackendNodes id
    by_cases h : id ∈ lb.BackendNodes.map LBBackendNode.CloudServerID
    · have hn : mapGet (backendNodesByServer lb.BackendNodes) id ≠ none :=
        fun hg => (this.1 hg) h
      have hs : (mapGet (backendNodesByServer lb.BackendNodes) id).isNone = false := by
        cases hx : mapGet (backendNodesByServer lb.BackendNodes) id with
        | none => exact absurd hx hn
        | some _ => rfl
      rw [hs]
      simp [h]
    · have hx : mapGet (backendNodesByServer lb.BackendNodes) id = none := this.2 h
      rw [hx]
      simp [h]
  have hperm : (backendNodesByServer lb.BackendNodes).Perm
      (lb.BackendNodes.map (fun bn => (bn.CloudServerID, bn))) :=
    byKey_perm LBBackendNode.CloudServerID lb.BackendNodes hbns
  unfold updateBackendNodes at hok ⊢
  rw [updateBackendNodes_nodes_eq nodes ids [] _ hparse hids] at hok ⊢
  simp only [List.nil_append, hadd] at hok ⊢
  generalize htoAdd : ids.filter (fun id =>
    decide (id ∉ lb.BackendNodes.map LBBackendNode.CloudServerID)) = toAdd at hok ⊢
  have hstaleList : ∀ (es : List (String × LBBackendNode)),
      es.Perm ((backendNodesByServer lb.BackendNodes).filter
        (fun e => decide (e.1 ∉ ids))) →
      (es.map (fun e => Call.DeleteBackendNode lb.ID e.2.ID)).Perm
        ((lb.BackendNodes.filter (fun bn => decide (bn.CloudServerID ∉ ids))).map
          (fun bn => Call.DeleteBackendNode lb.ID bn.ID)) := by
    intro es hes
    refine (hes.map _).trans (((hperm.filter _).map _).trans ?_)
    rw [List.filter_map, List.map_map]
    exact List.Perm.refl _
  have hdelAll : ∀ (es : List (String × LBBackendNode)),
      (es.map (fun e => Call.DeleteBackendNode lb.ID e.2.ID)).filter
          Call.isDeleteBackendNode
        = es.map (fun e => Call.DeleteBackendNode lb.ID e.2.ID) := by
    intro es
    rw [List.filter_eq_self]
    intro c hc
    obtain ⟨e, _, rfl⟩ := List.mem_map.1 hc
    rfl
  have haddNone : ∀ (es : List (String × LBBackendNode)),
      (es.map (fun e => Call.DeleteBackendNode lb.ID e.2.ID)).filter
          Call.isAddBackendNodes = [] := by
    intro es
    rw [List.filter_eq_nil_iff]
    intro c hc
    obtain ⟨e, _, rfl⟩ := List.mem_map.1 hc
    simp [Call.isAddBackendNodes]
  cases toAdd with
  | nil =>
    simp only [List.length_nil, lt_irrefl, if_false, if_true] at hok ⊢
    have hst := updateBackendNodes_stale_mutations l lb.ID _ w hok
    rw [← filter_isAddBackendNodes_mutating, ← filter_isDeleteBackendNode_mutating, hst,
      haddNone, hdelAll]
    exact ⟨rfl, hstaleList _ (l.rt.rangeBackendNodes_perm _)⟩
  | cons a rest =>
    simp only [List.length_cons, Nat.zero_lt_succ, if_true] at hok ⊢
    rw [if_neg (by simp)]
    have h1 := addBackendNodes_mutations l lb.ID (a :: rest) w
    have e1 := addBackendNodes_extends l lb.ID (a :: rest) w
    revert h1 e1 hok
    rcases addBackendNodes l lb.ID (a :: rest) w with ⟨r, w1⟩
    intro hok h1 e1
    cases r with
    | some err => simp at hok
    | none =>
      simp only at hok h1 e1 ⊢
      have hst := updateBackendNodes_stale_mutations l lb.ID _ w1 hok
      rw [issued_trans e1 (updateBackendNodes_stale_extends l lb.ID _ w1),
        ← filter_isAddBackendNodes_mutating, ← filter_isDeleteBackendNode_mutating,
        List.filter_append, h1, hst, List.filter_append, List.filter_append,
        haddNone, hdelAll]
      exact ⟨rfl, hstaleList _ (l.rt.rangeBackendNodes_perm _)⟩

/-- Witness of C3: existing backends for the servers A and B, desired nodes A and C:
one `AddBackendNodes` call, for C, and one `DeleteBackendNode` call, for the node of
B. -/
theorem updateBackendNodes_diff_witness :
    (issued testWorld (updateBackendNodes
        (testLoadbalancers (.ok testLBGetResponse) (.error (Error.New "unused")))
        [ { ProviderID := "advancedhosting://A" }, { ProviderID := "advancedhosting://C" } ]
        { testLBGetResponse with BackendNodes :=
          [ { ID := "node-a", CloudServerID := "A", State := "active" },
            { ID := "node-b", CloudServerID := "B", State := "active" } ] }
        testWorld).2).filter Call.isAddBackendNodes
      = [Call.AddBackendNodes "test-lb-id" ["C"]]
    ∧ ((issued testWorld (updateBackendNodes
        (testLoadbalancers (.ok testLBGetResponse) (.error (Error.New "unused")))
        [ { ProviderID := "advancedhosting://A" }, { ProviderID := "advancedhosting://C" } ]
        { testLBGetResponse with BackendNodes :=
          [ { ID := "node-a", CloudServerID := "A", State := "active" },
            { ID := "node-b", CloudServerID := "B", State := "active" } ] }
        testWorld).2).filter Call.isDeleteBackendNode).Perm
      [Call.DeleteBackendNode "test-lb-id" "node-b"] :=
  updateBackendNodes_diff
    (testLoadbalancers (.ok testLBGetResponse) (.error (Error.New "unused")))
    [ { ProviderID := "advancedhosting://A" }, { ProviderID := "advancedhosting://C" } ]
    { testLBGetResponse with BackendNodes :=
      [ { ID := "node-a", CloudServerID := "A", State := "active" },
        { ID := "node-b", CloudServerID := "B", State := "active" } ] }
    testWorld ["A", "C"] (by decide) (by decide) (by decide) (by decide)

/-! ## A converged load balancer -/

theorem updateLoadBalancerInfo_noop {σ : Type} (l : loadbalancers σ) (service : Service)
    (lb : LoadBalancer) (w : World σ) (hname : lb.Name = loadBalancerName l.rt service)
    (halgo : lb.BalancingAlgorithm = loadBalancerBalancingAlgorithm service) :
    updateLoadBalancerInfo l service lb w = (none, w) := by
  unfold updateLoadBalancerInfo
  simp [hname, halgo]

theorem forwardingRuleDiffers_of_mapping (rt : Runtime) (port : ServicePort)
    (fr : LBForwardingRule) (h : fr.mapping = lbForwardingRuleCreateRequest rt port) :
    forwardingRuleDiffers rt port fr = false := by
  unfold LBForwardingRule.mapping lbForwardingRuleCreateRequest at h
  rw [LBForwardingRuleCreateRequest.mk.injEq] at h
  obtain ⟨h1, h2, h3, h4⟩ := h
  simp [forwardingRuleDiffers, h1, h2, h3, h4]

theorem updateForwardingRules_ports_noop {σ : Type} (l : loadbalancers σ) (lbID : String) :
    ∀ (ps : List ServicePort) (m : GoMap Int LBForwardingRule) (w : World σ),
      (ps.map ServicePort.Port).Nodup →
      (∀ p ∈ ps, ∃ fr, mapGet m p.Port = some fr ∧ forwardingRuleDiffers l.rt p fr = false) →
      updateForwardingRules_ports l lbID ps m w
        = (none, m.filter (fun e => decide (e.1 ∉ ps.map ServicePort.Port)), w) := by
  intro ps
  induction ps with
  | nil =>
    intro m w _ _
    simp [updateForwardingRules_ports]
  | cons p rest ih =>
    intro m w hps hall
    rw [List.map_cons, List.nodup_cons] at hps
    obtain ⟨fr, hg, hd⟩ := hall p (List.mem_cons_self _ _)
    have hu : updateForwardingRule l p fr lbID w = (none, w) := by
      simp [updateForwardingRule, hd]
    unfold updateForwardingRules_ports
    simp only [hg, hu]
    have hall' : ∀ q ∈ rest, ∃ fr', mapGet (mapDelete m p.Port) q.Port = some fr'
        ∧ forwardingRuleDiffers l.rt q fr' = false := by
      intro q hq
      obtain ⟨fr', hg', hd'⟩ := hall q (List.mem_cons_of_mem _ hq)
      have hqp : q.Port ≠ p.Port := fun h => hps.1 (List.mem_map.2 ⟨q, hq, h⟩)
      exact ⟨fr', by rw [mapGet_mapDelete_ne m hqp]; exact hg', hd'⟩
    have hf : (mapDelete m p.Port).filter (fun e => decide (e.1 ∉ rest.map ServicePort.Port))
        = m.filter (fun e => decide (e.1 ∉ (p :: rest).map ServicePort.Port)) := by
      unfold mapDelete
      rw [List.filter_filter]
      apply List.filter_congr
      intro e _
      simp [not_or, Bool.and_comm]
    rw [ih (mapDelete m p.Port) w hps.2 hall', hf]

/-- With exactly one remote rule per desired port, each carrying the desired mapping,
`updateForwardingRules` issues no call. -/
theorem updateForwardingRules_noop {σ : Type} (l : loadbalancers σ) (service : Service)
    (lb : LoadBalancer) (w : World σ)
    (hports : (service.Ports.map ServicePort.Port).Nodup)
    (hrules : (lb.ForwardingRules.map LBForwardingRule.mapping).Perm
      (service.Ports.map (lbForwardingRuleCreateRequest l.rt))) :
    updateForwardingRules l service lb w = (none, w) := by
  have hportsPerm : (lb.ForwardingRules.map LBForwardingRule.RequestPort).Perm
      (service.Ports.map ServicePort.Port) := by
    have := hrules.map LBForwardingRuleCreateRequest.RequestPort
    rw [List.map_map, List.map_map] at this
    exact this
  have hnd : (lb.ForwardingRules.map LBForwardingRule.RequestPort).Nodup :=
    hportsPerm.nodup_iff.2 hports
  have hm : ((forwardingRulesByPort lb.ForwardingRules).map Prod.fst).Nodup :=
    byKey_nodupKeys LBForwardingRule.RequestPort lb.ForwardingRules
  have hperm : (forwardingRulesByPort lb.ForwardingRules).Perm
      (lb.ForwardingRules.map (fun fr => (fr.RequestPort, fr))) :=
    byKey_perm LBForwardingRule.RequestPort lb.ForwardingRules hnd
  have hall : ∀ p ∈ service.Ports, ∃ fr,
      mapGet (forwardingRulesByPort lb.ForwardingRules) p.Port = some fr
        ∧ forwardingRuleDiffers l.rt p fr = false := by
    intro p hp
    have h1 : lbForwardingRuleCreateRequest l.rt p
        ∈ lb.ForwardingRules.map LBForwardingRule.mapping :=
      hrules.symm.subset (List.mem_map.2 ⟨p, hp, rfl⟩)
    obtain ⟨fr, hfr, hmap⟩ := List.mem_map.1 h1
    have hport : fr.RequestPort = p.Port := by
      have := congrArg LBForwardingRuleCreateRequest.RequestPort hmap
      exact this
    have hmem : (p.Port, fr) ∈ forwardingRulesByPort lb.ForwardingRules := by
      refine hperm.symm.subset (List.mem_map.2 ⟨fr, hfr, ?_⟩)
      simp [hport]
    exact ⟨fr, mapGet_of_mem hm hmem, forwardingRuleDiffers_of_mapping l.rt p fr hmap⟩
  have hempty : (forwardingRulesByPort lb.ForwardingRules).filter
      (fun e => decide (e.1 ∉ service.Ports.map ServicePort.Port)) = [] := by
    rw [List.filter_eq_nil_iff]
    intro e he
    have hb := byKey_mem LBForwardingRule.RequestPort lb.ForwardingRules e he
    have : e.1 ∈ service.Ports.map ServicePort.Port :=
      hportsPerm.subset (List.mem_map.2 ⟨e.2, hb.1, hb.2.symm⟩)
    simp [this]
  unfold updateForwardingRules
  rw [updateForwardingRules_ports_noop l lb.ID service.Ports _ w hports hall, hempty]
  simp only
  have hr : l.rt.rangeForwardingRules [] = [] :=
    List.perm_nil.1 (l.rt.rangeForwardingRules_perm [])
  rw [hr]
  rfl

theorem updateHealthChecks_noop {σ : Type} (l : loadbalancers σ) (service : Service)
    (lb : LoadBalancer) (w : World σ) (hc : LBHealthCheckCreateRequest)
    (origHC : LBHealthCheck) (tl : List LBHealthCheck)
    (hreq : loadBalancerHealthCheckRequest service = .ok hc)
    (hlb : lb.HealthChecks = origHC :: tl)
    (hsame : healthCheckDiffers origHC hc = false) :
    updateHealthChecks l service lb w = (none, w) := by
  unfold updateHealthChecks
  simp [hreq, hlb, hsame]

theorem deleteHealthChecks_noop {σ : Type} (l : loadbalancers σ) (lb : LoadBalancer)
    (w : World σ) (hlb : lb.HealthChecks = []) :
    deleteHealthChecks l lb w = (none, w) := by
  unfold deleteHealthChecks
  simp [hlb]

/-- When the desired instance IDs are pairwise distinct and are, as a set, the
CloudServerIDs of the remote backend nodes, `updateBackendNodes` issues no call. -/
theorem updateBackendNodes_noop {σ : Type} (l : loadbalancers σ) (nodes : List Node)
    (lb : LoadBalancer) (w : World σ) (ids : List String)
    (hparse : nodes.map (fun n => instanceIDByProviderID n.ProviderID) = ids.map Except.ok)
    (hids : ids.Nodup)
    (hset : ∀ x, x ∈ ids ↔ x ∈ lb.BackendNodes.map LBBackendNode.CloudServerID) :
    updateBackendNodes l nodes lb w = (none, w) := by
  have hadd : ids.filter (fun id =>
      (mapGet (backendNodesByServer lb.BackendNodes) id).isNone) = [] := by
    rw [List.filter_eq_nil_iff]
    intro id hid
    have := byKey_mapGet_eq_none LBBackendNode.CloudServerID lb.BackendNodes id
    cases hx : mapGet (backendNodesByServer lb.BackendNodes) id with
    | none => exact absurd ((hset id).1 hid) (this.1 hx)
    | some _ => simp
  have hdel : (backendNodesByServer lb.BackendNodes).filter
      (fun e => decide (e.1 ∉ ids)) = [] := by
    rw [List.filter_eq_nil_iff]
    intro e he
    have hb := byKey_mem LBBackendNode.CloudServerID lb.BackendNodes e he
    have : e.1 ∈ ids := (hset e.1).2 (List.mem_map.2 ⟨e.2, hb.1, hb.2.symm⟩)
    simp [this]
  unfold updateBackendNodes
  rw [updateBackendNodes_nodes_eq nodes ids [] _ hparse hids, hadd, hdel]
  have hr : l.rt.rangeBackendNodes [] = [] :=
    List.perm_nil.1 (l.rt.rangeBackendNodes_perm [])
  simp [hr, updateBackendNodes_stale]

theorem healthCheckDiffers_eq_false (origHC : LBHealthCheck)
    (hc : LBHealthCheckCreateRequest)
    (h : origHC.Type_ = hc.Type_ ∧ origHC.URL = hc.URL ∧ origHC.Interval = hc.Interval
      ∧ origHC.Timeout = hc.Timeout ∧ origHC.UnhealthyThreshold = hc.UnhealthyThreshold
      ∧ origHC.HealthyThreshold = hc.HealthyThreshold ∧ origHC.Port = hc.Port) :
    healthCheckDiffers origHC hc = false := by
  obtain ⟨h1, h2, h3, h4, h5, h6, h7⟩ := h
  simp [healthCheckDiffers, h1, h2, h3, h4, h5, h6, h7]

/-- C1, the code at the failing input: on the converged load balancer of
`TestLoadBalancers_EnsureActiveLoadBalancer` with its IP address list emptied, every
condition of the claim holds and `EnsureLoadBalancer` issues the locating `Get` only,
but it then indexes the empty address list and panics instead of returning the
status. -/
theorem EnsureLoadBalancer_converged_no_address_panics :
    ({ testLBGetResponse with IPAddresses := [] } : LoadBalancer).State = "active"
    ∧ ({ testLBGetResponse with IPAddresses := [] } : LoadBalancer).Name
        = loadBalancerName testRuntime (testService testAnnotaions testPorts)
    ∧ ({ testLBGetResponse with IPAddresses := [] } : LoadBalancer).BalancingAlgorithm
        = loadBalancerBalancingAlgorithm (testService testAnnotaions testPorts)
    ∧ ({ testLBGetResponse with IPAddresses := [] } : LoadBalancer).ForwardingRules.map
          LBForwardingRule.mapping
        = (testService testAnnotaions testPorts).Ports.map
            (lbForwardingRuleCreateRequest testRuntime)
    ∧ loadBalancerHealthChecksEnabled (testService testAnnotaions testPorts) = true
    ∧ loadBalancerHealthCheckRequest (testService testAnnotaions testPorts)
        = .ok { Type_ := "tcp", URL := "", Interval := 5, Timeout := 2,
                UnhealthyThreshold := 5, HealthyThreshold := 5, Port := 8080 }
    ∧ testNodes.map (fun n => instanceIDByProviderID n.ProviderID)
        = (({ testLBGetResponse with IPAddresses := [] } : LoadBalancer).BackendNodes.map
            LBBackendNode.CloudServerID).map Except.ok
    ∧ issued testWorld (EnsureLoadBalancer
        (testLoadbalancers (.ok { testLBGetResponse with IPAddresses := [] })
          (.error (Error.New "unused")))
        (testService testAnnotaions testPorts) testNodes testWorld).2.2
        = [Call.Get "test-lb-id"]
    ∧ (EnsureLoadBalancer
        (testLoadbalancers (.ok { testLBGetResponse with IPAddresses := [] })
          (.error (Error.New "unused")))
        (testService testAnnotaions testPorts) testNodes testWorld).1 = none := by
  decide

/-- Idempotence of `EnsureLoadBalancer` on a converged resource that has an IP address.
When the stored identifier locates a load balancer that is in state "active", has at least one
IP address, has the desired name and balancing algorithm, has exactly one forwarding
rule per desired port (the desired ports being pairwise distinct) with the desired
mapping, has health checks either enabled with the first remote health check equal to
the desired one in all seven fields or disabled with no remote health check, and has
backend CloudServerIDs that are, as a set, the pairwise distinct instance IDs of the
nodes, then `EnsureLoadBalancer` issues exactly one remote call, the locating `Get`,
issues no mutating call, and returns the status, of the first IP address, without
error. -/
theorem EnsureLoadBalancer_converged {σ : Type} (l : loadbalancers σ) (service : Service)
    (nodes : List Node) (w : World σ) (lb : LoadBalancer) (ip : LBIPAddress)
    (ips : List LBIPAddress) (ids : List String)
    (hid : loadBalancerID service ≠ "")
    (hget : (l.client.Get (loadBalancerID service) w.st).1 = .ok lb)
    (hstate : lb.State = "active")
    (hip : lb.IPAddresses = ip :: ips)
    (hname : lb.Name = loadBalancerName l.rt service)
    (halgo : lb.BalancingAlgorithm = loadBalancerBalancingAlgorithm service)
    (hports : (service.Ports.map ServicePort.Port).Nodup)
    (hrules : (lb.ForwardingRules.map LBForwardingRule.mapping).Perm
      (service.Ports.map (lbForwardingRuleCreateRequest l.rt)))
    (hhc : (loadBalancerHealthChecksEnabled service = true
        ∧ ∃ hc origHC tl, loadBalancerHealthCheckRequest service = .ok hc
          ∧ lb.HealthChecks = origHC :: tl
          ∧ origHC.Type_ = hc.Type_ ∧ origHC.URL = hc.URL ∧ origHC.Interval = hc.Interval
          ∧ origHC.Timeout = hc.Timeout
          ∧ origHC.UnhealthyThreshold = hc.UnhealthyThreshold
          ∧ origHC.HealthyThreshold = hc.HealthyThreshold ∧ origHC.Port = hc.Port)
      ∨ (loadBalancerHealthChecksEnabled service = false ∧ lb.HealthChecks = []))
    (hparse : nodes.map (fun n => instanceIDByProviderID n.ProviderID) = ids.map Except.ok)
    (hids : ids.Nodup)
    (hset : ∀ x, x ∈ ids ↔ x ∈ lb.BackendNodes.map LBBackendNode.CloudServerID) :
    (EnsureLoadBalancer l service nodes w).1
        = some (some { Ingress := [{ IP := ip.Address }] }, none)
    ∧ issued w (EnsureLoadBalancer l service nodes w).2.2
        = [Call.Get (loadBalancerID service)]
    ∧ ∀ c ∈ issued w (EnsureLoadBalancer l service nodes w).2.2, c.isMutating = false := by
  have hloc : loadBalancerByID l (loadBalancerID service) w
      = (.ok lb, (invoke (Call.Get (loadBalancerID service))
          (l.client.Get (loadBalancerID service)) w).2) := by
    rw [loadBalancerByID_nonempty l hid]
    exact Prod.ext hget rfl
  have hhealth : ∀ w1 : World σ,
      (if loadBalancerHealthChecksEnabled service then updateHealthChecks l service lb w1
        else deleteHealthChecks l lb w1) = (none, w1) := by
    intro w1
    rcases hhc with ⟨hen, hc, origHC, tl, hreq, hlb, hsame⟩ | ⟨hen, hlb⟩
    · rw [hen, if_pos rfl]
      exact updateHealthChecks_noop l service lb w1 hc origHC tl hreq hlb
        (healthCheckDiffers_eq_false origHC hc hsame)
    · rw [hen, if_neg (by simp)]
      exact deleteHealthChecks_noop l lb w1 hlb
  have hupd : ∀ w1 : World σ, updateLoadBalancer l service nodes lb w1 = (none, w1) := by
    intro w1
    unfold updateLoadBalancer
    rw [updateLoadBalancerInfo_noop l service lb w1 hname halgo]
    simp only
    rw [updateForwardingRules_noop l service lb w1 hports hrules]
    simp only
    rw [hhealth w1]
    simp only
    exact updateBackendNodes_noop l nodes lb w1 ids hparse hids hset
  have hE : EnsureLoadBalancer l service nodes w
      = (some (some { Ingress := [{ IP := ip.Address }] }, none), service,
          (invoke (Call.Get (loadBalancerID service))
            (l.client.Get (loadBalancerID service)) w).2) := by
    rw [EnsureLoadBalancer_of_located l service nodes w lb (by rw [hloc]), hloc]
    unfold EnsureLoadBalancer_gate
    rw [if_neg (by simp [hstate, loadBalancerActiveStatus]), hupd]
    simp [loadBalancerStatus, hip]
  rw [hE]
  have hiss : issued w (invoke (Call.Get (loadBalancerID service))
      (l.client.Get (loadBalancerID service)) w).2 = [Call.Get (loadBalancerID service)] :=
    issued_eq_of_trace (invoke_trace _ _ _)
  refine ⟨rfl, hiss, ?_⟩
  simp only
  rw [hiss]
  intro c hc
  rw [List.mem_singleton.1 hc]
  rfl

/-- The run of `TestLoadBalancers_EnsureActiveLoadBalancer`. -/
theorem EnsureLoadBalancer_converged_witness :
    (EnsureLoadBalancer (testLoadbalancers (.ok testLBGetResponse) (.error (Error.New "unused")))
        (testService testAnnotaions testPorts) testNodes testWorld).1
        = some (some { Ingress := [{ IP := "1.2.3.4" }] }, none)
    ∧ issued testWorld (EnsureLoadBalancer
        (testLoadbalancers (.ok testLBGetResponse) (.error (Error.New "unused")))
        (testService testAnnotaions testPorts) testNodes testWorld).2.2
        = [Call.Get "test-lb-id"] :=
  have h := EnsureLoadBalancer_converged
    (testLoadbalancers (.ok testLBGetResponse) (.error (Error.New "unused")))
    (testService testAnnotaions testPorts) testNodes testWorld testLBGetResponse
    { ID := "", Address := "1.2.3.4" } [] ["test-cloud-server-1", "test-cloud-server-2"]
    (by decide) (by decide) (by decide) (by decide) (by decide) (by decide) (by decide)
    (List.Perm.refl _)
    (Or.inl ⟨by decide,
      { Type_ := "tcp", URL := "", Interval := 5, Timeout := 2, UnhealthyThreshold := 5,
        HealthyThreshold := 5, Port := 8080 },
      { ID := "", Type_ := "tcp", URL := "", Interval := 5, Timeout := 2,
        UnhealthyThreshold := 5, HealthyThreshold := 5, Port := 8080, State := "" }, [],
      by decide, by decide, by decide, by decide, by decide, by decide, by decide, by decide,
      by decide⟩)
    (by decide) (by decide) (fun _ => Iff.rfl)
  ⟨h.1, h.2.1⟩

/-! ## The returned status -/

theorem loadBalancerStatus_eq_some {lb : LoadBalancer} {status : LoadBalancerStatus}
    (h : loadBalancerStatus lb = some status) :
    ∃ ip rest, lb.IPAddresses = ip :: rest ∧ status = { Ingress := [{ IP := ip.Address }] } := by
  unfold loadBalancerStatus at h
  cases hip : lb.IPAddresses with
  | nil => simp [hip] at h
  | cons ip rest =>
    rw [hip] at h
    exact ⟨ip, rest, rfl, (Option.some.inj h).symm⟩

theorem EnsureLoadBalancer_gate_status {σ : Type} (l : loadbalancers σ) (service : Service)
    (nodes : List Node) (lb : LoadBalancer) (w : World σ) (status : LoadBalancerStatus)
    (h : (EnsureLoadBalancer_gate l service nodes lb w).1 = some (some status, none)) :
    loadBalancerStatus lb = some status := by
  unfold EnsureLoadBalancer_gate at h
  split at h
  · simp at h
  · revert h
    rcases updateLoadBalancer l service nodes lb w with ⟨r, w1⟩
    intro h
    cases r with
    | some err => simp at h
    | none =>
      cases hs : loadBalancerStatus lb with
      | none => simp [hs] at h
      | some s => simpa [hs] using h

/-- C11, as stated, fails: for a load balancer with two IP addresses `GetLoadBalancer`
succeeds and returns a status with one ingress entry, for the first address, not one
entry per address. -/
theorem GetLoadBalancer_status_one_entry_of_two :
    ({ testLBGetResponse with IPAddresses :=
        [{ ID := "", Address := "1.2.3.4" }, { ID := "", Address := "5.6.7.8" }] }
      : LoadBalancer).IPAddresses.length = 2
    ∧ (GetLoadBalancer
        (testLoadbalancers (.ok { testLBGetResponse with IPAddresses :=
          [{ ID := "", Address := "1.2.3.4" }, { ID := "", Address := "5.6.7.8" }] })
          (.error (Error.New "unused")))
        (testService testAnnotaions testPorts) testWorld).1
      = some (some { Ingress := [{ IP := "1.2.3.4" }] }, true, none) := by
  decide

/-- C11 (amended): when `GetLoadBalancer` or `EnsureLoadBalancer` succeeds, that is,
returns a status, the load balancer it was computed from (the one the `Get` returned,
or for `EnsureLoadBalancer` the one located or created) has at least one IP address and
the status contains exactly one ingress entry, carrying the first address of the IP
address list. -/
theorem status_is_first_address {σ : Type} (l : loadbalancers σ) (service : Service)
    (nodes : List Node) (w : World σ) (status : LoadBalancerStatus) :
    ((GetLoadBalancer l service w).1 = some (some status, true, none) →
      ∃ lb ip rest, (l.client.Get (loadBalancerID service) w.st).1 = .ok lb
        ∧ lb.IPAddresses = ip :: rest
        ∧ status = { Ingress := [{ IP := ip.Address }] })
    ∧ ((EnsureLoadBalancer l service nodes w).1 = some (some status, none) →
      ∃ lb ip rest,
        ((loadBalancerByID l (loadBalancerID service) w).1 = .ok lb
          ∨ ((loadBalancerByID l (loadBalancerID service) w).1
                = .error Error.ErrResourceNotFound
            ∧ (createLoadBalancer l service nodes
                (loadBalancerByID l (loadBalancerID service) w).2).1 = .ok lb))
        ∧ lb.IPAddresses = ip :: rest
        ∧ status = { Ingress := [{ IP := ip.Address }] }) := by
  constructor
  · intro h
    unfold GetLoadBalancer at h
    by_cases hid : loadBalancerID service = ""
    · simp [hid] at h
    · simp only [hid, if_false, loadBalancerByID] at h
      have hfst : (invoke (Call.Get (loadBalancerID service))
          (l.client.Get (loadBalancerID service)) w).1
          = (l.client.Get (loadBalancerID service) w.st).1 := rfl
      revert h hfst
      rcases invoke (Call.Get (loadBalancerID service))
        (l.client.Get (loadBalancerID service)) w with ⟨r, w1⟩
      intro h hfst
      cases r with
      | error err =>
        by_cases he : err = Error.ErrResourceNotFound <;> simp [he] at h
      | ok lb =>
        cases hs : loadBalancerStatus lb with
        | none => simp [hs] at h
        | some s =>
          simp only [hs] at h
          have hst : s = status := by simpa using h
          subst hst
          obtain ⟨ip, rest, hip, hstat⟩ := loadBalancerStatus_eq_some hs
          exact ⟨lb, ip, rest, hfst.symm, hip, hstat⟩
  · intro h
    cases hloc : (loadBalancerByID l (loadBalancerID service) w).1 with
    | ok lb =>
      rw [EnsureLoadBalancer_of_located l service nodes w lb hloc] at h
      obtain ⟨ip, rest, hip, hstat⟩ :=
        loadBalancerStatus_eq_some (EnsureLoadBalancer_gate_status l service nodes lb _ _ h)
      exact ⟨lb, ip, rest, Or.inl rfl, hip, hstat⟩
    | error err =>
      by_cases he : err = Error.ErrResourceNotFound
      · subst he
        rw [EnsureLoadBalancer_of_not_found l service nodes w hloc] at h
        revert h
        rcases hc : createLoadBalancer l service nodes
          (loadBalancerByID l (loadBalancerID service) w).2 with ⟨r, service1, w2⟩
        intro h
        cases r with
        | error err1 => simp at h
        | ok lb =>
          simp only at h
          obtain ⟨ip, rest, hip, hstat⟩ :=
            loadBalancerStatus_eq_some (EnsureLoadBalancer_gate_status l service1 nodes lb _ _ h)
          exact ⟨lb, ip, rest, Or.inr ⟨rfl, rfl⟩, hip, hstat⟩
      · exfalso
        unfold EnsureLoadBalancer at h
        revert h hloc
        rcases loadBalancerByID l (loadBalancerID service) w with ⟨r, w1⟩
        intro h hloc
        simp only at hloc
        subst hloc
        simp [he] at h

/-- Witness of C11 (amended): the run of `TestLoadBalancers_GetLoadBalancer`. -/
theorem status_is_first_address_witness :
    ∃ lb ip rest,
      ((testLoadbalancers (.ok testLBGetResponse) (.error (Error.New "unused"))).client.Get
          (loadBalancerID (testService testAnnotaions testPorts)) testWorld.st).1 = .ok lb
      ∧ lb.IPAddresses = ip :: rest
      ∧ ({ Ingress := [{ IP := "1.2.3.4" }] } : LoadBalancerStatus)
          = { Ingress := [{ IP := ip.Address }] } :=
  (status_is_first_address
    (testLoadbalancers (.ok testLBGetResponse) (.error (Error.New "unused")))
    (testService testAnnotaions testPorts) testNodes testWorld
    { Ingress := [{ IP := "1.2.3.4" }] }).1 (by decide)

/-! ## The calls of one step, in order -/

/-- A step that issues one call and then only polls: the calls it issued are that call
followed by the polls. -/
theorem call_then_polls {σ : Type} {P : Call → Prop} {w w1 w' : World σ} {c : Call}
    (h1 : w1.trace = w.trace ++ [c]) (h2 : Extends P w1 w') :
    ∃ polls, w'.trace = w.trace ++ c :: polls ∧ ∀ x ∈ polls, P x := by
  obtain ⟨evs, ht, hp⟩ := h2
  exact ⟨evs, by rw [ht, h1, List.append_assoc]; rfl, hp⟩

theorem updateLoadBalancerInfo_calls {σ : Type} (l : loadbalancers σ) (service : Service)
    (lb : LoadBalancer) (w : World σ) :
    (loadBalancerName l.rt service = lb.Name
        ∧ loadBalancerBalancingAlgorithm service = lb.BalancingAlgorithm →
      updateLoadBalancerInfo l service lb w = (none, w))
    ∧ (loadBalancerName l.rt service ≠ lb.Name
        ∨ loadBalancerBalancingAlgorithm service ≠ lb.BalancingAlgorithm →
      ∃ polls, (updateLoadBalancerInfo l service lb w).2.trace
          = w.trace ++ Call.Update lb.ID (loadBalancerUpdateRequest l.rt service lb) :: polls
        ∧ ∀ c ∈ polls, c = Call.Get lb.ID) := by
  constructor
  · intro h
    exact updateLoadBalancerInfo_noop l service lb w h.1.symm h.2.symm
  · intro h
    have hupd : (decide (loadBalancerName l.rt service ≠ lb.Name)
        || decide (loadBalancerBalancingAlgorithm service ≠ lb.BalancingAlgorithm)) = true := by
      rcases h with h | h <;> simp [h]
    unfold updateLoadBalancerInfo
    simp only [hupd]
    rw [if_neg (by simp)]
    have hi := invoke_trace (Call.Update lb.ID (loadBalancerUpdateRequest l.rt service lb))
      (l.client.Update lb.ID (loadBalancerUpdateRequest l.rt service lb)) w
    unfold loadBalancerUpdateRequest at hi ⊢
    revert hi
    rcases invoke _ _ w with ⟨r, w1⟩
    intro hi
    cases r with
    | some err => exact call_then_polls hi (Extends.refl _ w1)
    | none =>
      refine call_then_polls hi (waitForState_extends _ (fun w2 => ?_) _ _ _)
      have h2 := invoke_extends (P := fun c => c = Call.Get lb.ID) (c := Call.Get lb.ID)
        rfl (l.client.Get lb.ID) w2
      rcases hi2 : invoke (Call.Get lb.ID) (l.client.Get lb.ID) w2 with ⟨r2, w3⟩
      rw [hi2] at h2
      cases r2 <;> simpa using h2

/-- C12: `updateLoadBalancerInfo` issues an `Update` call if and only if the desired
name differs from the remote name or the desired balancing algorithm differs from the
remote one; it issues at most one, for the load balancer's ID; and its request carries
the desired name when the name differs and an empty name otherwise, and the desired
algorithm when the algorithm differs and an empty algorithm otherwise. -/
theorem updateLoadBalancerInfo_update {σ : Type} (l : loadbalancers σ) (service : Service)
    (lb : LoadBalancer) (w : World σ) :
    (issued w (updateLoadBalancerInfo l service lb w).2).filter Call.isUpdate
      = if loadBalancerName l.rt service ≠ lb.Name
            ∨ loadBalancerBalancingAlgorithm service ≠ lb.BalancingAlgorithm then
          [Call.Update lb.ID
            { Name := if loadBalancerName l.rt service ≠ lb.Name then
                loadBalancerName l.rt service else ""
              BalancingAlgorithm :=
                if loadBalancerBalancingAlgorithm service ≠ lb.BalancingAlgorithm then
                  loadBalancerBalancingAlgorithm service
                else "" }]
        else [] := by
  have hc := updateLoadBalancerInfo_calls l service lb w
  by_cases h : loadBalancerName l.rt service ≠ lb.Name
      ∨ loadBalancerBalancingAlgorithm service ≠ lb.BalancingAlgorithm
  · rw [if_pos h]
    obtain ⟨polls, ht, hp⟩ := hc.2 h
    rw [issued_eq_of_trace ht, List.filter_cons_of_pos rfl]
    have : polls.filter Call.isUpdate = [] := by
      rw [List.filter_eq_nil_iff]
      intro c hcm
      rw [hp c hcm]
      simp [Call.isUpdate]
    rw [this]
    rfl
  · rw [if_neg h]
    have h' : loadBalancerName l.rt service = lb.Name
        ∧ loadBalancerBalancingAlgorithm service = lb.BalancingAlgorithm := by
      constructor
      · by_contra hn; exact h (Or.inl hn)
      · by_contra hn; exact h (Or.inr hn)
    rw [hc.1 h', issued_self]
    rfl

theorem extends_of_calls {σ : Type} {P Q : Call → Prop} {w w' : World σ} {c : Call}
    (h : ∃ polls, w'.trace = w.trace ++ c :: polls ∧ ∀ x ∈ polls, P x)
    (hc : Q c) (hPQ : ∀ x, P x → Q x) : Extends Q w w' := by
  obtain ⟨polls, ht, hp⟩ := h
  refine ⟨c :: polls, ht, ?_⟩
  intro x hx
  rcases List.mem_cons.1 hx with h1 | h1
  · rw [h1]; exact hc
  · exact hPQ x (hp x h1)

/-- The calls of `addForwardingRule`: one `CreateForwardingRule` with the request of the
port, then only polls of a forwarding rule. -/
theorem addForwardingRule_calls {σ : Type} (l : loadbalancers σ) (lbID : String)
    (port : ServicePort) (w : World σ) :
    ∃ polls, (addForwardingRule l lbID port w).2.trace
        = w.trace
          ++ Call.CreateForwardingRule lbID (lbForwardingRuleCreateRequest l.rt port) :: polls
      ∧ ∀ c ∈ polls, ∃ frID, c = Call.GetForwardingRule lbID frID := by
  unfold addForwardingRule
  have h := invoke_trace
    (Call.CreateForwardingRule lbID (lbForwardingRuleCreateRequest l.rt port))
    (l.client.CreateForwardingRule lbID (lbForwardingRuleCreateRequest l.rt port)) w
  revert h
  rcases invoke _ _ w with ⟨r, w1⟩
  intro h
  cases r with
  | error err => exact call_then_polls h (Extends.refl _ w1)
  | ok fr =>
    refine call_then_polls h (waitForState_extends _ (fun w2 => ?_) _ _ _)
    have h2 := invoke_extends (P := fun c => ∃ frID, c = Call.GetForwardingRule lbID frID)
      (c := Call.GetForwardingRule lbID fr.ID) ⟨fr.ID, rfl⟩
      (l.client.GetForwardingRule lbID fr.ID) w2
    rcases hi : invoke (Call.GetForwardingRule lbID fr.ID)
      (l.client.GetForwardingRule lbID fr.ID) w2 with ⟨r2, w3⟩
    rw [hi] at h2
    cases r2 <;> simpa using h2

/-- The calls of `removeForwardingRule`: one `DeleteForwardingRule` for the rule, then
only polls of that rule. -/
theorem removeForwardingRule_calls {σ : Type} (l : loadbalancers σ) (lbID frID : String)
    (w : World σ) :
    ∃ polls, (removeForwardingRule l lbID frID w).2.trace
        = w.trace ++ Call.DeleteForwardingRule lbID frID :: polls
      ∧ ∀ c ∈ polls, c = Call.GetForwardingRule lbID frID := by
  unfold removeForwardingRule
  have h := invoke_trace (Call.DeleteForwardingRule lbID frID)
    (l.client.DeleteForwardingRule lbID frID) w
  revert h
  rcases invoke _ _ w with ⟨r, w1⟩
  intro h
  cases r with
  | some err => exact call_then_polls h (Extends.refl _ w1)
  | none =>
    refine call_then_polls h (waitForState_extends _ (fun w2 => ?_) _ _ _)
    have h2 := invoke_extends (P := fun c => c = Call.GetForwardingRule lbID frID)
      (c := Call.GetForwardingRule lbID frID) rfl (l.client.GetForwardingRule lbID frID) w2
    rcases hi : invoke (Call.GetForwardingRule lbID frID)
      (l.client.GetForwardingRule lbID frID) w2 with ⟨r2, w3⟩
    rw [hi] at h2
    cases r2 with
    | error err => by_cases he : err = Error.ErrResourceNotFound <;> simpa [he] using h2
    | ok fr => simpa using h2

/-- The calls of `deleteHealthChecks` on a load balancer with a health check: one
`DeleteHealthCheck` for the first health check, then only polls of it. -/
theorem deleteHealthChecks_calls {σ : Type} (l : loadbalancers σ) (lb : LoadBalancer)
    (w : World σ) (origHC : LBHealthCheck) (tl : List LBHealthCheck)
    (hlb : lb.HealthChecks = origHC :: tl) :
    ∃ polls, (deleteHealthChecks l lb w).2.trace
        = w.trace ++ Call.DeleteHealthCheck lb.ID origHC.ID :: polls
      ∧ ∀ c ∈ polls, c = Call.GetHealthCheck lb.ID origHC.ID := by
  unfold deleteHealthChecks
  rw [hlb]
  simp only
  have h := invoke_trace (Call.DeleteHealthCheck lb.ID origHC.ID)
    (l.client.DeleteHealthCheck lb.ID origHC.ID) w
  revert h
  rcases invoke _ _ w with ⟨r, w1⟩
  intro h
  cases r with
  | some err => exact call_then_polls h (Extends.refl _ w1)
  | none =>
    refine call_then_polls h (waitForState_extends _ (fun w2 => ?_) _ _ _)
    have h2 := invoke_extends (P := fun c => c = Call.GetHealthCheck lb.ID origHC.ID)
      (c := Call.GetHealthCheck lb.ID origHC.ID) rfl
      (l.client.GetHealthCheck lb.ID origHC.ID) w2
    rcases hi : invoke (Call.GetHealthCheck lb.ID origHC.ID)
      (l.client.GetHealthCheck lb.ID origHC.ID) w2 with ⟨r2, w3⟩
    rw [hi] at h2
    cases r2 with
    | error err => by_cases he : err = Error.ErrResourceNotFound <;> simpa [he] using h2
    | ok hc => simpa using h2

theorem healthCheckState_polls {σ : Type} (l : loadbalancers σ) (lbID hcID : String)
    (w : World σ) :
    Extends (fun c => c = Call.GetHealthCheck lbID hcID) w (healthCheckState l lbID hcID w).2
    := by
  unfold healthCheckState
  have h2 := invoke_extends (P := fun c => c = Call.GetHealthCheck lbID hcID)
    (c := Call.GetHealthCheck lbID hcID) rfl (l.client.GetHealthCheck lbID hcID) w
  rcases hi : invoke (Call.GetHealthCheck lbID hcID) (l.client.GetHealthCheck lbID hcID) w
    with ⟨r2, w3⟩
  rw [hi] at h2
  cases r2 <;> simpa using h2

/-- The calls of `addBackendNodes`: one `AddBackendNodes` with the given IDs, then only
listings of the backend nodes. -/
theorem addBackendNodes_calls {σ : Type} (l : loadbalancers σ) (lbID : String)
    (bns : List String) (w : World σ) :
    ∃ polls, (addBackendNodes l lbID bns w).2.trace
        = w.trace ++ Call.AddBackendNodes lbID bns :: polls
      ∧ ∀ c ∈ polls, c = Call.ListBackendNodes lbID := by
  unfold addBackendNodes
  have h := invoke_trace (Call.AddBackendNodes lbID bns)
    (l.client.AddBackendNodes lbID bns) w
  revert h
  rcases invoke _ _ w with ⟨r, w1⟩
  intro h
  cases r with
  | error err => exact call_then_polls h (Extends.refl _ w1)
  | ok backendNodes =>
    refine call_then_polls h (waitForState_extends _ (fun w2 => ?_) _ _ _)
    have h2 := invoke_extends (P := fun c => c = Call.ListBackendNodes lbID)
      (c := Call.ListBackendNodes lbID) rfl (l.client.ListBackendNodes lbID) w2
    rcases hi : invoke (Call.ListBackendNodes lbID) (l.client.ListBackendNodes lbID) w2
      with ⟨r2, w3⟩
    rw [hi] at h2
    cases r2 <;> simpa using h2

/-- The calls of `removeBackendNode`: one `DeleteBackendNode` for the node, then only
polls of that node. -/
theorem removeBackendNode_calls {σ : Type} (l : loadbalancers σ) (lbID bnID : String)
    (w : World σ) :
    ∃ polls, (removeBackendNode l lbID bnID w).2.trace
        = w.trace ++ Call.DeleteBackendNode lbID bnID :: polls
      ∧ ∀ c ∈ polls, c = Call.GetBackendNode lbID bnID := by
  unfold removeBackendNode
  have h := invoke_trace (Call.DeleteBackendNode lbID bnID)
    (l.client.DeleteBackendNode lbID bnID) w
  revert h
  rcases invoke _ _ w with ⟨r, w1⟩
  intro h
  cases r with
  | some err => exact call_then_polls h (Extends.refl _ w1)
  | none =>
    refine call_then_polls h (waitForState_extends _ (fun w2 => ?_) _ _ _)
    have h2 := invoke_extends (P := fun c => c = Call.GetBackendNode lbID bnID)
      (c := Call.GetBackendNode lbID bnID) rfl (l.client.GetBackendNode lbID bnID) w2
    rcases hi : invoke (Call.GetBackendNode lbID bnID) (l.client.GetBackendNode lbID bnID) w2
      with ⟨r2, w3⟩
    rw [hi] at h2
    cases r2 with
    | error err => by_cases he : err = Error.ErrResourceNotFound <;> simpa [he] using h2
    | ok bn => simpa using h2

/-! ## The four blocks of `updateLoadBalancer` -/

theorem updateLoadBalancerInfo_block {σ : Type} (l : loadbalancers σ) (service : Service)
    (lb : LoadBalancer) (w : World σ) :
    Extends (fun c => c.isInfoCall = true) w (updateLoadBalancerInfo l service lb w).2 := by
  have hc := updateLoadBalancerInfo_calls l service lb w
  by_cases h : loadBalancerName l.rt service ≠ lb.Name
      ∨ loadBalancerBalancingAlgorithm service ≠ lb.BalancingAlgorithm
  · exact extends_of_calls (hc.2 h) rfl (fun x hx => by rw [hx]; rfl)
  · have h' : loadBalancerName l.rt service = lb.Name
        ∧ loadBalancerBalancingAlgorithm service = lb.BalancingAlgorithm := by
      constructor
      · by_contra hn; exact h (Or.inl hn)
      · by_contra hn; exact h (Or.inr hn)
    rw [hc.1 h']
    exact Extends.refl _ w

theorem addForwardingRule_block {σ : Type} (l : loadbalancers σ) (lbID : String)
    (port : ServicePort) (w : World σ) :
    Extends (fun c => c.isForwardingRuleCall = true) w (addForwardingRule l lbID port w).2 :=
  extends_of_calls (addForwardingRule_calls l lbID port w) rfl
    (fun x hx => by obtain ⟨frID, h⟩ := hx; rw [h]; rfl)

theorem removeForwardingRule_block {σ : Type} (l : loadbalancers σ) (lbID frID : String)
    (w : World σ) :
    Extends (fun c => c.isForwardingRuleCall = true) w
      (removeForwardingRule l lbID frID w).2 :=
  extends_of_calls (removeForwardingRule_calls l lbID frID w) rfl
    (fun x hx => by rw [hx]; rfl)

theorem updateForwardingRule_block {σ : Type} (l : loadbalancers σ) (port : ServicePort)
    (fr : LBForwardingRule) (lbID : String) (w : World σ) :
    Extends (fun c => c.isForwardingRuleCall = true) w
      (updateForwardingRule l port fr lbID w).2 := by
  unfold updateForwardingRule
  split
  · have h := removeForwardingRule_block l lbID fr.ID w
    revert h
    rcases removeForwardingRule l lbID fr.ID w with ⟨r, w1⟩
    intro h
    cases r with
    | some err => exact h
    | none => exact h.trans (addForwardingRule_block l lbID port w1)
  · exact Extends.refl _ w

theorem updateForwardingRules_ports_block {σ : Type} (l : loadbalancers σ)
    (lbID : String) :
    ∀ (ports : List ServicePort) (m : GoMap Int LBForwardingRule) (w : World σ),
      Extends (fun c => c.isForwardingRuleCall = true) w
        (updateForwardingRules_ports l lbID ports m w).2.2 := by
  intro ports
  induction ports with
  | nil => intro m w; exact Extends.refl _ w
  | cons port rest ih =>
    intro m w
    unfold updateForwardingRules_ports
    cases hg : mapGet m port.Port with
    | none =>
      simp only
      have h := addForwardingRule_block l lbID port w
      revert h
      rcases addForwardingRule l lbID port w with ⟨r, w1⟩
      intro h
      cases r with
      | some err => exact h
      | none => exact h.trans (ih m w1)
    | some fr =>
      simp only
      have h := updateForwardingRule_block l port fr lbID w
      revert h
      rcases updateForwardingRule l port fr lbID w with ⟨r, w1⟩
      intro h
      cases r with
      | some err => exact h
      | none => exact h.trans (ih _ w1)

theorem updateForwardingRules_stale_block {σ : Type} (l : loadbalancers σ)
    (lbID : String) :
    ∀ (es : List (Int × LBForwardingRule)) (w : World σ),
      Extends (fun c => c.isForwardingRuleCall = true) w
        (updateForwardingRules_stale l lbID es w).2 := by
  intro es
  induction es with
  | nil => intro w; exact Extends.refl _ w
  | cons e rest ih =>
    intro w
    unfold updateForwardingRules_stale
    have h := removeForwardingRule_block l lbID e.2.ID w
    revert h
    rcases removeForwardingRule l lbID e.2.ID w with ⟨r, w1⟩
    intro h
    cases r with
    | some err => exact h
    | none => exact h.trans (ih w1)

theorem updateForwardingRules_block {σ : Type} (l : loadbalancers σ) (service : Service)
    (lb : LoadBalancer) (w : World σ) :
    Extends (fun c => c.isForwardingRuleCall = true) w
      (updateForwardingRules l service lb w).2 := by
  unfold updateForwardingRules
  have h := updateForwardingRules_ports_block l lb.ID service.Ports
    (forwardingRulesByPort lb.ForwardingRules) w
  revert h
  rcases updateForwardingRules_ports l lb.ID service.Ports
    (forwardingRulesByPort lb.ForwardingRules) w with ⟨r, m, w1⟩
  intro h
  cases r with
  | some err => exact h
  | none => exact h.trans (updateForwardingRules_stale_block l lb.ID _ w1)

theorem updateHealthChecks_block {σ : Type} (l : loadbalancers σ) (service : Service)
    (lb : LoadBalancer) (w : World σ) :
    Extends (fun c => c.isHealthCheckCall = true) w (updateHealthChecks l service lb w).2 := by
  have hpoll : ∀ hcID (w1 : World σ), Extends (fun c => c.isHealthCheckCall = true) w1
      (healthCheckState l lb.ID hcID w1).2 :=
    fun hcID w1 => (healthCheckState_polls l lb.ID hcID w1).mono
      (fun c hc => by rw [hc]; rfl)
  unfold updateHealthChecks
  cases loadBalancerHealthCheckRequest service with
  | error err => exact Extends.refl _ w
  | ok hc =>
    cases lb.HealthChecks with
    | nil =>
      simp only
      have h := invoke_extends (P := fun c => c.isHealthCheckCall = true)
        (c := Call.CreateHealthCheck lb.ID hc) rfl (l.client.CreateHealthCheck lb.ID hc) w
      revert h
      rcases invoke _ _ w with ⟨r, w1⟩
      intro h
      cases r with
      | error err => exact h
      | ok healthCheck =>
        exact h.trans (waitForState_extends _ (hpoll _) _ _ _)
    | cons origHC _ =>
      simp only
      split
      · have h := invoke_extends (P := fun c => c.isHealthCheckCall = true)
          (c := Call.UpdateHealthCheck lb.ID origHC.ID
            { Type_ := hc.Type_, URL := hc.URL, Interval := hc.Interval,
              Timeout := hc.Timeout, UnhealthyThreshold := hc.UnhealthyThreshold,
              HealthyThreshold := hc.HealthyThreshold, Port := hc.Port }) rfl
          (l.client.UpdateHealthCheck lb.ID origHC.ID
            { Type_ := hc.Type_, URL := hc.URL, Interval := hc.Interval,
              Timeout := hc.Timeout, UnhealthyThreshold := hc.UnhealthyThreshold,
              HealthyThreshold := hc.HealthyThreshold, Port := hc.Port }) w
        revert h
        rcases invoke _ _ w with ⟨r, w1⟩
        intro h
        cases r with
        | some err => exact h
        | none =>
          exact h.trans (waitForState_extends _ (hpoll _) _ _ _)
      · exact Extends.refl _ w

theorem deleteHealthChecks_block {σ : Type} (l : loadbalancers σ) (lb : LoadBalancer)
    (w : World σ) :
    Extends (fun c => c.isHealthCheckCall = true) w (deleteHealthChecks l lb w).2 := by
  cases hlb : lb.HealthChecks with
  | nil =>
    rw [deleteHealthChecks_noop l lb w hlb]
    exact Extends.refl _ w
  | cons origHC tl =>
    exact extends_of_calls (deleteHealthChecks_calls l lb w origHC tl hlb) rfl
      (fun x hx => by rw [hx]; rfl)

theorem healthCheckStep_block {σ : Type} (l : loadbalancers σ) (service : Service)
    (lb : LoadBalancer) (w : World σ) :
    Extends (fun c => c.isHealthCheckCall = true) w (healthCheckStep l service lb w).2 := by
  unfold healthCheckStep
  split
  · exact updateHealthChecks_block l service lb w
  · exact deleteHealthChecks_block l lb w

theorem addBackendNodes_block {σ : Type} (l : loadbalancers σ) (lbID : String)
    (bns : List String) (w : World σ) :
    Extends (fun c => c.isBackendNodeCall = true) w (addBackendNodes l lbID bns w).2 :=
  extends_of_calls (addBackendNodes_calls l lbID bns w) rfl (fun x hx => by rw [hx]; rfl)

theorem removeBackendNode_block {σ : Type} (l : loadbalancers σ) (lbID bnID : String)
    (w : World σ) :
    Extends (fun c => c.isBackendNodeCall = true) w (removeBackendNode l lbID bnID w).2 :=
  extends_of_calls (removeBackendNode_calls l lbID bnID w) rfl (fun x hx => by rw [hx]; rfl)

theorem updateBackendNodes_stale_block {σ : Type} (l : loadbalancers σ) (lbID : String) :
    ∀ (es : List (String × LBBackendNode)) (w : World σ),
      Extends (fun c => c.isBackendNodeCall = true) w
        (updateBackendNodes_stale l lbID es w).2 := by
  intro es
  induction es with
  | nil => intro w; exact Extends.refl _ w
  | cons e rest ih =>
    intro w
    unfold updateBackendNodes_stale
    have h := removeBackendNode_block l lbID e.2.ID w
    revert h
    rcases removeBackendNode l lbID e.2.ID w with ⟨r, w1⟩
    intro h
    cases r with
    | some err => exact h
    | none => exact h.trans (ih w1)

theorem updateBackendNodes_block {σ : Type} (l : loadbalancers σ) (nodes : List Node)
    (lb : LoadBalancer) (w : World σ) :
    Extends (fun c => c.isBackendNodeCall = true) w (updateBackendNodes l nodes lb w).2 := by
  unfold updateBackendNodes
  cases updateBackendNodes_nodes nodes [] (backendNodesByServer lb.BackendNodes) with
  | error err => exact Extends.refl _ w
  | ok p =>
    obtain ⟨bnsToAdd, bnsToDelete⟩ := p
    simp only
    have h : Extends (fun c => c.isBackendNodeCall = true) w
        (if 0 < bnsToAdd.length then addBackendNodes l lb.ID bnsToAdd w else (none, w)).2 := by
      split
      · exact addBackendNodes_block l lb.ID bnsToAdd w
      · exact Extends.refl _ w
    revert h
    rcases (if 0 < bnsToAdd.length then addBackendNodes l lb.ID bnsToAdd w else (none, w))
      with ⟨r, w1⟩
    intro h
    cases r with
    | some err => exact h
    | none => exact h.trans (updateBackendNodes_stale_block l lb.ID _ w1)

/-- C13: `updateLoadBalancer` runs four blocks in the fixed order info sync (`r1`),
forwarding-rule sync (`r2`), health-check sync or, with health checks disabled,
health-check deletion (`r3`), backend-node sync (`r4`), each starting in the world the
block before it left. The calls of a block are calls of its own kind only; the calls
issued are those of the blocks run, block after block; and when a block returns an
error, `updateLoadBalancer` returns that error in the world that block left, so no call
of a later block is issued. -/
theorem updateLoadBalancer_blocks {σ : Type} (l : loadbalancers σ) (service : Service)
    (nodes : List Node) (lb : LoadBalancer) (w : World σ)
    (r1 r2 r3 r4 : Option Error × World σ)
    (h1 : updateLoadBalancerInfo l service lb w = r1)
    (h2 : updateForwardingRules l service lb r1.2 = r2)
    (h3 : healthCheckStep l service lb r2.2 = r3)
    (h4 : updateBackendNodes l nodes lb r3.2 = r4) :
    (∀ c ∈ issued w r1.2, c.isInfoCall = true)
    ∧ (∀ c ∈ issued r1.2 r2.2, c.isForwardingRuleCall = true)
    ∧ (∀ c ∈ issued r2.2 r3.2, c.isHealthCheckCall = true)
    ∧ (∀ c ∈ issued r3.2 r4.2, c.isBackendNodeCall = true)
    ∧ (∀ err, r1.1 = some err →
        updateLoadBalancer l service nodes lb w = (some err, r1.2))
    ∧ (r1.1 = none → ∀ err, r2.1 = some err →
        updateLoadBalancer l service nodes lb w = (some err, r2.2)
        ∧ issued w r2.2 = issued w r1.2 ++ issued r1.2 r2.2)
    ∧ (r1.1 = none → r2.1 = none → ∀ err, r3.1 = some err →
        updateLoadBalancer l service nodes lb w = (some err, r3.2)
        ∧ issued w r3.2 = issued w r1.2 ++ issued r1.2 r2.2 ++ issued r2.2 r3.2)
    ∧ (r1.1 = none → r2.1 = none → r3.1 = none →
        updateLoadBalancer l service nodes lb w = r4
        ∧ issued w r4.2
          = issued w r1.2 ++ issued r1.2 r2.2 ++ issued r2.2 r3.2 ++ issued r3.2 r4.2) := by
  have e1 : Extends (fun c => c.isInfoCall = true) w r1.2 := by
    rw [← h1]; exact updateLoadBalancerInfo_block l service lb w
  have e2 : Extends (fun c => c.isForwardingRuleCall = true) r1.2 r2.2 := by
    rw [← h2]; exact updateForwardingRules_block l service lb r1.2
  have e3 : Extends (fun c => c.isHealthCheckCall = true) r2.2 r3.2 := by
    rw [← h3]; exact healthCheckStep_block l service lb r2.2
  have e4 : Extends (fun c => c.isBackendNodeCall = true) r3.2 r4.2 := by
    rw [← h4]; exact updateBackendNodes_block l nodes lb r3.2
  have t12 : Extends (fun _ => True) w r2.2 :=
    (e1.mono (fun _ _ => trivial)).trans (e2.mono (fun _ _ => trivial))
  have t13 : Extends (fun _ => True) w r3.2 := t12.trans (e3.mono (fun _ _ => trivial))
  have i2 : issued w r2.2 = issued w r1.2 ++ issued r1.2 r2.2 := issued_trans e1 e2
  have i3 : issued w r3.2 = issued w r1.2 ++ issued r1.2 r2.2 ++ issued r2.2 r3.2 := by
    rw [issued_trans t12 e3, i2]
  have i4 : issued w r4.2
      = issued w r1.2 ++ issued r1.2 r2.2 ++ issued r2.2 r3.2 ++ issued r3.2 r4.2 := by
    rw [issued_trans t13 e4, i3]
  refine ⟨e1.forall_issued, e2.forall_issued, e3.forall_issued, e4.forall_issued,
    ?_, ?_, ?_, ?_⟩
  · intro err hr1
    unfold updateLoadBalancer
    rw [h1]
    rcases r1 with ⟨a, w1⟩
    simp only at hr1
    subst hr1
    rfl
  · intro hr1 err hr2
    refine ⟨?_, i2⟩
    unfold updateLoadBalancer
    rw [h1]
    rcases r1 with ⟨a, w1⟩
    simp only at hr1 h2
    subst hr1
    simp only
    rw [h2]
    rcases r2 with ⟨b, w2⟩
    simp only at hr2
    subst hr2
    rfl
  · intro hr1 hr2 err hr3
    refine ⟨?_, i3⟩
    unfold updateLoadBalancer
    rw [h1]
    rcases r1 with ⟨a, w1⟩
    simp only at hr1 h2
    subst hr1
    simp only
    rw [h2]
    rcases r2 with ⟨b, w2⟩
    simp only at hr2 h3
    subst hr2
    simp only
    unfold healthCheckStep at h3
    rw [h3]
    rcases r3 with ⟨c, w3⟩
    simp only at hr3
    subst hr3
    rfl
  · intro hr1 hr2 hr3
    refine ⟨?_, i4⟩
    unfold updateLoadBalancer
    rw [h1]
    rcases r1 with ⟨a, w1⟩
    simp only at hr1 h2
    subst hr1
    simp only
    rw [h2]
    rcases r2 with ⟨b, w2⟩
    simp only at hr2 h3
    subst hr2
    simp only
    unfold healthCheckStep at h3
    rw [h3]
    rcases r3 with ⟨c, w3⟩
    simp only at hr3 h4
    subst hr3
    simp only
    exact h4

/-- Witness of C13: the run of `TestLoadBalancers_UpdateBalancingAlgorithm`, where the
info sync issues the `Update` and one poll and the three later blocks issue nothing. -/
theorem updateLoadBalancer_blocks_witness :
    updateLoadBalancer (testLoadbalancers (.ok testLBGetResponse) (.error (Error.New "unused")))
        (testService (mapSet testAnnotaions ServiceAnnotationLoadBalancerBalancingAlgorithm
          "least_requests") testPorts) testNodes testLBGetResponse testWorld
      = (none, { st := [], trace :=
          [Call.Update "test-lb-id" { BalancingAlgorithm := "least_requests" },
           Call.Get "test-lb-id"] })
    ∧ issued testWorld
        ({ st := [], trace :=
          [Call.Update "test-lb-id" { BalancingAlgorithm := "least_requests" },
           Call.Get "test-lb-id"] } : World (List LBBackendNode))
      = [Call.Update "test-lb-id" { BalancingAlgorithm := "least_requests" },
         Call.Get "test-lb-id"] ++ [] ++ [] ++ [] :=
  (updateLoadBalancer_blocks
    (testLoadbalancers (.ok testLBGetResponse) (.error (Error.New "unused")))
    (testService (mapSet testAnnotaions ServiceAnnotationLoadBalancerBalancingAlgorithm
      "least_requests") testPorts) testNodes testLBGetResponse testWorld
    (none, { st := [], trace :=
      [Call.Update "test-lb-id" { BalancingAlgorithm := "least_requests" },
       Call.Get "test-lb-id"] })
    (none, { st := [], trace :=
      [Call.Update "test-lb-id" { BalancingAlgorithm := "least_requests" },
       Call.Get "test-lb-id"] })
    (none, { st := [], trace :=
      [Call.Update "test-lb-id" { BalancingAlgorithm := "least_requests" },
       Call.Get "test-lb-id"] })
    (none, { st := [], trace :=
      [Call.Update "test-lb-id" { BalancingAlgorithm := "least_requests" },
       Call.Get "test-lb-id"] })
    (by decide) (by decide) (by decide) (by decide)).2.2.2.2.2.2.2
    (by decide) (by decide) (by decide)

/-! ## Forwarding-rule replacement -/

/-- C14: when the existing rule at a desired port differs from the desired mapping in
its request protocol, request port, communication protocol or communication port,
`updateForwardingRule` first issues `DeleteForwardingRule` for that rule's ID and polls
the rule; if the delete or its poll fails it returns that error and has issued no
`CreateForwardingRule`; if they succeed it goes on as `addForwardingRule`, so that the
calls issued are the delete, its polls, then one `CreateForwardingRule` whose request
has both protocols equal to the lower-cased service protocol, the request port equal to
the service port and the communication port equal to the node port, then the polls of
the created rule. -/
theorem updateForwardingRule_replaces {σ : Type} (l : loadbalancers σ) (port : ServicePort)
    (fr : LBForwardingRule) (lbID : String) (w : World σ)
    (hd : fr.RequestProtocol ≠ l.rt.ToLower port.Protocol ∨ fr.RequestPort ≠ port.Port
      ∨ fr.CommunicationProtocol ≠ l.rt.ToLower port.Protocol
      ∨ fr.CommunicationPort ≠ port.NodePort) :
    (∃ polls, issued w (removeForwardingRule l lbID fr.ID w).2
        = Call.DeleteForwardingRule lbID fr.ID :: polls
      ∧ ∀ c ∈ polls, c = Call.GetForwardingRule lbID fr.ID)
    ∧ (∀ err, (removeForwardingRule l lbID fr.ID w).1 = some err →
        updateForwardingRule l port fr lbID w
          = (some err, (removeForwardingRule l lbID fr.ID w).2)
        ∧ ∀ c ∈ issued w (updateForwardingRule l port fr lbID w).2,
            c.isCreateForwardingRule = false)
    ∧ ((removeForwardingRule l lbID fr.ID w).1 = none →
        updateForwardingRule l port fr lbID w
          = addForwardingRule l lbID port (removeForwardingRule l lbID fr.ID w).2
        ∧ ∃ polls1 polls2, issued w (updateForwardingRule l port fr lbID w).2
            = Call.DeleteForwardingRule lbID fr.ID :: polls1
              ++ Call.CreateForwardingRule lbID
                  { RequestProtocol := l.rt.ToLower port.Protocol
                    RequestPort := port.Port
                    CommunicationProtocol := l.rt.ToLower port.Protocol
                    CommunicationPort := port.NodePort } :: polls2
          ∧ (∀ c ∈ polls1, c = Call.GetForwardingRule lbID fr.ID)
          ∧ (∀ c ∈ polls2, ∃ frID, c = Call.GetForwardingRule lbID frID)) := by
  have hdiff : forwardingRuleDiffers l.rt port fr = true := by
    unfold forwardingRuleDiffers
    rcases hd with h | h | h | h <;> simp [h]
  obtain ⟨polls1, ht1, hp1⟩ := removeForwardingRule_calls l lbID fr.ID w
  have hi1 : issued w (removeForwardingRule l lbID fr.ID w).2
      = Call.DeleteForwardingRule lbID fr.ID :: polls1 := issued_eq_of_trace ht1
  refine ⟨⟨polls1, hi1, hp1⟩, ?_, ?_⟩
  · intro err herr
    have hu : updateForwardingRule l port fr lbID w
        = (some err, (removeForwardingRule l lbID fr.ID w).2) := by
      unfold updateForwardingRule
      rw [if_pos hdiff]
      revert herr
      rcases removeForwardingRule l lbID fr.ID w with ⟨r, w1⟩
      intro herr
      simp only at herr
      subst herr
      rfl
    refine ⟨hu, ?_⟩
    rw [hu]
    simp only
    rw [hi1]
    intro c hc
    rcases List.mem_cons.1 hc with h | h
    · rw [h]; rfl
    · rw [hp1 c h]; rfl
  · intro hok
    have hu : updateForwardingRule l port fr lbID w
        = addForwardingRule l lbID port (removeForwardingRule l lbID fr.ID w).2 := by
      unfold updateForwardingRule
      rw [if_pos hdiff]
      revert hok
      rcases removeForwardingRule l lbID fr.ID w with ⟨r, w1⟩
      intro hok
      simp only at hok
      subst hok
      rfl
    refine ⟨hu, ?_⟩
    obtain ⟨polls2, ht2, hp2⟩ :=
      addForwardingRule_calls l lbID port (removeForwardingRule l lbID fr.ID w).2
    refine ⟨polls1, polls2, ?_, hp1, hp2⟩
    rw [hu]
    apply issued_eq_of_trace
    rw [ht2, ht1, List.append_assoc]
    rfl

/-- Witness of C14: the rule "fr-to-update-id" of
`TestLoadBalancers_UpdateForwardingRules`, whose request protocol "http" differs from
the desired "tcp". -/
theorem updateForwardingRule_replaces_witness :
    updateForwardingRule
        (testLoadbalancers (.ok testLBGetResponse) (.error (Error.New "unused")))
        { Name := "updated-port", Protocol := "tcp", Port := 80, NodePort := 30002 }
        { ID := "fr-to-update-id", RequestProtocol := "http", RequestPort := 80,
          CommunicationProtocol := "tcp", CommunicationPort := 30000, State := "active" }
        "test-lb-id" testWorld
      = addForwardingRule
          (testLoadbalancers (.ok testLBGetResponse) (.error (Error.New "unused")))
          "test-lb-id"
          { Name := "updated-port", Protocol := "tcp", Port := 80, NodePort := 30002 }
          (removeForwardingRule
            (testLoadbalancers (.ok testLBGetResponse) (.error (Error.New "unused")))
            "test-lb-id" "fr-to-update-id" testWorld).2 :=
  ((updateForwardingRule_replaces
    (testLoadbalancers (.ok testLBGetResponse) (.error (Error.New "unused")))
    { Name := "updated-port", Protocol := "tcp", Port := 80, NodePort := 30002 }
    { ID := "fr-to-update-id", RequestProtocol := "http", RequestPort := 80,
      CommunicationProtocol := "tcp", CommunicationPort := 30000, State := "active" }
    "test-lb-id" testWorld (Or.inl (by decide))).2.2 (by decide)).1

/-! ## Health checks: enable, update, disable -/

theorem intAnnotation_ok {service : Service} {key format : String} {n : Int}
    (h : intAnnotation service key format = .ok n) :
    intAnnotationHolds service key n = true := by
  unfold intAnnotation at h
  unfold intAnnotationHolds
  cases hg : mapGet service.Annotations key with
  | none =>
    rw [hg] at h
    simp only at h
    have : (0 : Int) = n := by injection h
    simp [this.symm]
  | some v =>
    rw [hg] at h
    simp only at h ⊢
    cases ha : Atoi v with
    | error err => rw [ha] at h; simp at h
    | ok m =>
      rw [ha] at h
      simp only at h
      have : m = n := by injection h
      simp [this]

/-- What a desired health check that builds holds: the type and URL annotations (empty
when absent) and the integer values of the five numeric annotations (zero when
absent). -/
theorem loadBalancerHealthCheckRequest_ok {service : Service}
    {hc : LBHealthCheckCreateRequest}
    (h : loadBalancerHealthCheckRequest service = .ok hc) :
    hc.Type_ = (mapGet service.Annotations ServiceAnnotationLoadBalancerHealthCheckType).getD ""
    ∧ hc.URL = (mapGet service.Annotations ServiceAnnotationLoadBalancerHealthCheckURL).getD ""
    ∧ intAnnotationHolds service ServiceAnnotationLoadBalancerHealthCheckInterval
        hc.Interval = true
    ∧ intAnnotationHolds service ServiceAnnotationLoadBalancerHealthCheckTimeout
        hc.Timeout = true
    ∧ intAnnotationHolds service ServiceAnnotationLoadBalancerHealthCheckUnhealthyThreshold
        hc.UnhealthyThreshold = true
    ∧ intAnnotationHolds service ServiceAnnotationLoadBalancerHealthCheckHealthyThreshold
        hc.HealthyThreshold = true
    ∧ intAnnotationHolds service ServiceAnnotationLoadBalancerHealthCheckPort hc.Port = true
    := by
  unfold loadBalancerHealthCheckRequest at h
  simp only at h
  cases h1 : intAnnotation service ServiceAnnotationLoadBalancerHealthCheckInterval
      "Invalid health check interval: %v" with
  | error e => rw [h1] at h; simp at h
  | ok n1 =>
    rw [h1] at h
    simp only at h
    cases h2 : intAnnotation service ServiceAnnotationLoadBalancerHealthCheckTimeout
        "Invalid health check timeout: %v" with
    | error e => rw [h2] at h; simp at h
    | ok n2 =>
      rw [h2] at h
      simp only at h
      cases h3 : intAnnotation service
          ServiceAnnotationLoadBalancerHealthCheckUnhealthyThreshold
          "Invalid health check unhealthy threshold: %v" with
      | error e => rw [h3] at h; simp at h
      | ok n3 =>
        rw [h3] at h
        simp only at h
        cases h4 : intAnnotation service
            ServiceAnnotationLoadBalancerHealthCheckHealthyThreshold
            "Invalid health check healthy threshold: %v" with
        | error e => rw [h4] at h; simp at h
        | ok n4 =>
          rw [h4] at h
          simp only at h
          cases h5 : intAnnotation service ServiceAnnotationLoadBalancerHealthCheckPort
              "Invalid health check port: %v" with
          | error e => rw [h5] at h; simp at h
          | ok n5 =>
            rw [h5] at h
            simp only at h
            injection h with h'
            subst h'
            exact ⟨rfl, rfl, intAnnotation_ok h1, intAnnotation_ok h2, intAnnotation_ok h3,
              intAnnotation_ok h4, intAnnotation_ok h5⟩

/-- A poll that succeeds ended on a fetch that reported the required state. -/
theorem waitForState_none {σ : Type}
    (stateFunc : World σ → Except Error String × World σ) (requiredState : String) :
    ∀ (polls : Nat) (w : World σ),
      (waitForState polls stateFunc requiredState w).1 = none →
      ∃ w0, stateFunc w0
        = (.ok requiredState, (waitForState polls stateFunc requiredState w).2) := by
  intro polls
  induction polls with
  | zero => intro w h; simp [waitForState] at h
  | succ n ih =>
    intro w h
    unfold waitForState at h ⊢
    rcases hsf : stateFunc w with ⟨r, w1⟩
    rw [hsf] at h
    cases r with
    | error err => simp at h
    | ok state =>
      simp only at h ⊢
      by_cases hs : state = requiredState
      · rw [if_pos hs]
        exact ⟨w, by rw [hsf, hs]⟩
      · rw [if_neg hs] at h ⊢
        exact ih w1 h

/-- C15: for a service whose health-check annotations are well formed and a load
balancer with no health check, `updateHealthChecks` issues exactly one
`CreateHealthCheck` call, whose request holds the type and URL annotations and the
integer values of the interval, timeout, unhealthy-threshold, healthy-threshold and port
annotations (empty or zero for an absent annotation); it issues no `UpdateHealthCheck`
or `DeleteHealthCheck` call; when the create fails it returns that error, and when it
succeeds it polls the created health check's ID for "active": every later call is a
`GetHealthCheck` of that ID, and when `updateHealthChecks` returns nil its last fetch
reported "active". -/
theorem updateHealthChecks_enable {σ : Type} (l : loadbalancers σ) (service : Service)
    (lb : LoadBalancer) (w : World σ) (hc : LBHealthCheckCreateRequest)
    (hreq : loadBalancerHealthCheckRequest service = .ok hc)
    (hlb : lb.HealthChecks = []) :
    (hc.Type_
        = (mapGet service.Annotations ServiceAnnotationLoadBalancerHealthCheckType).getD ""
      ∧ hc.URL
        = (mapGet service.Annotations ServiceAnnotationLoadBalancerHealthCheckURL).getD ""
      ∧ intAnnotationHolds service ServiceAnnotationLoadBalancerHealthCheckInterval
          hc.Interval = true
      ∧ intAnnotationHolds service ServiceAnnotationLoadBalancerHealthCheckTimeout
          hc.Timeout = true
      ∧ intAnnotationHolds service ServiceAnnotationLoadBalancerHealthCheckUnhealthyThreshold
          hc.UnhealthyThreshold = true
      ∧ intAnnotationHolds service ServiceAnnotationLoadBalancerHealthCheckHealthyThreshold
          hc.HealthyThreshold = true
      ∧ intAnnotationHolds service ServiceAnnotationLoadBalancerHealthCheckPort
          hc.Port = true)
    ∧ (issued w (updateHealthChecks l service lb w).2).filter Call.isCreateHealthCheck
        = [Call.CreateHealthCheck lb.ID hc]
    ∧ (∀ c ∈ issued w (updateHealthChecks l service lb w).2,
        c.isUpdateHealthCheck = false ∧ c.isDeleteHealthCheck = false)
    ∧ (∀ err, (l.client.CreateHealthCheck lb.ID hc w.st).1 = .error err →
        (updateHealthChecks l service lb w).1 = some err
        ∧ issued w (updateHealthChecks l service lb w).2 = [Call.CreateHealthCheck lb.ID hc])
    ∧ (∀ healthCheck, (l.client.CreateHealthCheck lb.ID hc w.st).1 = .ok healthCheck →
        (∃ polls, issued w (updateHealthChecks l service lb w).2
            = Call.CreateHealthCheck lb.ID hc :: polls
          ∧ ∀ c ∈ polls, c = Call.GetHealthCheck lb.ID healthCheck.ID)
        ∧ ((updateHealthChecks l service lb w).1 = none →
            ∃ w0, healthCheckState l lb.ID healthCheck.ID w0
              = (.ok "active", (updateHealthChecks l service lb w).2))) := by
  have hi := invoke_trace (Call.CreateHealthCheck lb.ID hc)
    (l.client.CreateHealthCheck lb.ID hc) w
  have hfst : (invoke (Call.CreateHealthCheck lb.ID hc)
      (l.client.CreateHealthCheck lb.ID hc) w).1
      = (l.client.CreateHealthCheck lb.ID hc w.st).1 := rfl
  have hu : updateHealthChecks l service lb w
      = match invoke (Call.CreateHealthCheck lb.ID hc)
          (l.client.CreateHealthCheck lb.ID hc) w with
        | (.error err, w1) => (some err, w1)
        | (.ok healthCheck, w1) =>
          waitForState l.rt.polls (healthCheckState l lb.ID healthCheck.ID) "active" w1 := by
    unfold updateHealthChecks
    rw [hreq, hlb]
  rw [hu]
  revert hi hfst
  rcases invoke (Call.CreateHealthCheck lb.ID hc) (l.client.CreateHealthCheck lb.ID hc) w
    with ⟨r, w1⟩
  intro hi hfst
  simp only at hi hfst
  refine ⟨loadBalancerHealthCheckRequest_ok hreq, ?_⟩
  cases r with
  | error err =>
    simp only
    have hiss : issued w w1 = [Call.CreateHealthCheck lb.ID hc] := issued_eq_of_trace hi
    rw [hiss]
    refine ⟨rfl, ?_, ?_, ?_⟩
    · intro c hc'
      rw [List.mem_singleton.1 hc']
      exact ⟨rfl, rfl⟩
    · intro err' herr'
      rw [← hfst] at herr'
      injection herr' with h'
      rw [h']
      exact ⟨rfl, rfl⟩
    · intro healthCheck hok
      rw [← hfst] at hok
      simp at hok
  | ok healthCheck =>
    simp only
    obtain ⟨polls, ht, hp⟩ := call_then_polls hi
      (waitForState_extends (healthCheckState l lb.ID healthCheck.ID)
        (healthCheckState_polls l lb.ID healthCheck.ID) "active" l.rt.polls w1)
    have hiss := issued_eq_of_trace ht
    rw [hiss]
    have hnone : ∀ (f : Call → Bool),
        f (Call.GetHealthCheck lb.ID healthCheck.ID) = false → polls.filter f = [] := by
      intro f hf
      rw [List.filter_eq_nil_iff]
      intro c hc'
      rw [hp c hc', hf]
      simp
    refine ⟨?_, ?_, ?_, ?_⟩
    · rw [List.filter_cons_of_pos rfl, hnone _ rfl]
    · intro c hc'
      rcases List.mem_cons.1 hc' with h | h
      · rw [h]; exact ⟨rfl, rfl⟩
      · rw [hp c h]; exact ⟨rfl, rfl⟩
    · intro err herr
      rw [← hfst] at herr
      simp at herr
    · intro healthCheck' hok
      rw [← hfst] at hok
      injection hok with h'
      subst h'
      exact ⟨⟨polls, rfl, hp⟩, fun hnil => waitForState_none _ _ _ _ hnil⟩

/-- Witness of C15: the run of `TestLoadBalancers_EnableHC`. -/
theorem updateHealthChecks_enable_witness :
    (issued testWorld (updateHealthChecks
        (testLoadbalancers (.ok testLBGetResponse) (.error (Error.New "unused")))
        (testService testAnnotaions testPorts)
        { testLBGetResponse with HealthChecks := [] } testWorld).2).filter
        Call.isCreateHealthCheck
      = [Call.CreateHealthCheck "test-lb-id"
          { Type_ := "tcp", URL := "", Interval := 5, Timeout := 2, UnhealthyThreshold := 5,
            HealthyThreshold := 5, Port := 8080 }] :=
  (updateHealthChecks_enable
    (testLoadbalancers (.ok testLBGetResponse) (.error (Error.New "unused")))
    (testService testAnnotaions testPorts)
    { testLBGetResponse with HealthChecks := [] } testWorld
    { Type_ := "tcp", URL := "", Interval := 5, Timeout := 2, UnhealthyThreshold := 5,
      HealthyThreshold := 5, Port := 8080 } (by decide) (by decide)).2.1

theorem healthCheckDiffers_eq_true (origHC : LBHealthCheck)
    (hc : LBHealthCheckCreateRequest)
    (h : origHC.Type_ ≠ hc.Type_ ∨ origHC.URL ≠ hc.URL ∨ origHC.Interval ≠ hc.Interval
      ∨ origHC.Timeout ≠ hc.Timeout ∨ origHC.UnhealthyThreshold ≠ hc.UnhealthyThreshold
      ∨ origHC.HealthyThreshold ≠ hc.HealthyThreshold ∨ origHC.Port ≠ hc.Port) :
    healthCheckDiffers origHC hc = true := by
  unfold healthCheckDiffers
  rcases h with h | h | h | h | h | h | h <;> simp [h]

/-- C16: for a service whose health-check annotations are well formed and a load
balancer with an existing health check, `updateHealthChecks` makes no remote call when
type, URL, interval, timeout, unhealthy threshold, healthy threshold and port of the
first existing health check all equal the desired ones; when at least one of the seven
differs it issues exactly one `UpdateHealthCheck`, for that health check's ID, whose
request carries the seven desired values, and then only polls that health check; so an
`UpdateHealthCheck` call is issued if and only if one of the seven differs. -/
theorem updateHealthChecks_update {σ : Type} (l : loadbalancers σ) (service : Service)
    (lb : LoadBalancer) (w : World σ) (hc : LBHealthCheckCreateRequest)
    (origHC : LBHealthCheck) (tl : List LBHealthCheck)
    (hreq : loadBalancerHealthCheckRequest service = .ok hc)
    (hlb : lb.HealthChecks = origHC :: tl) :
    ((origHC.Type_ = hc.Type_ ∧ origHC.URL = hc.URL ∧ origHC.Interval = hc.Interval
        ∧ origHC.Timeout = hc.Timeout ∧ origHC.UnhealthyThreshold = hc.UnhealthyThreshold
        ∧ origHC.HealthyThreshold = hc.HealthyThreshold ∧ origHC.Port = hc.Port) →
      updateHealthChecks l service lb w = (none, w)
      ∧ issued w (updateHealthChecks l service lb w).2 = [])
    ∧ ((origHC.Type_ ≠ hc.Type_ ∨ origHC.URL ≠ hc.URL ∨ origHC.Interval ≠ hc.Interval
        ∨ origHC.Timeout ≠ hc.Timeout ∨ origHC.UnhealthyThreshold ≠ hc.UnhealthyThreshold
        ∨ origHC.HealthyThreshold ≠ hc.HealthyThreshold ∨ origHC.Port ≠ hc.Port) →
      (∃ polls, issued w (updateHealthChecks l service lb w).2
          = Call.UpdateHealthCheck lb.ID origHC.ID
              { Type_ := hc.Type_, URL := hc.URL, Interval := hc.Interval,
                Timeout := hc.Timeout, UnhealthyThreshold := hc.UnhealthyThreshold,
                HealthyThreshold := hc.HealthyThreshold, Port := hc.Port } :: polls
        ∧ ∀ c ∈ polls, c = Call.GetHealthCheck lb.ID origHC.ID)
      ∧ (issued w (updateHealthChecks l service lb w).2).filter Call.isUpdateHealthCheck
          = [Call.UpdateHealthCheck lb.ID origHC.ID
              { Type_ := hc.Type_, URL := hc.URL, Interval := hc.Interval,
                Timeout := hc.Timeout, UnhealthyThreshold := hc.UnhealthyThreshold,
                HealthyThreshold := hc.HealthyThreshold, Port := hc.Port }]) := by
  constructor
  · intro hsame
    have h := updateHealthChecks_noop l service lb w hc origHC tl hreq hlb
      (healthCheckDiffers_eq_false origHC hc hsame)
    rw [h]
    exact ⟨rfl, issued_self w⟩
  · intro hdiff
    have hd := healthCheckDiffers_eq_true origHC hc hdiff
    have hi := invoke_trace (Call.UpdateHealthCheck lb.ID origHC.ID
        (healthCheckUpdateRequest hc))
      (l.client.UpdateHealthCheck lb.ID origHC.ID (healthCheckUpdateRequest hc)) w
    have hu : updateHealthChecks l service lb w
        = match invoke (Call.UpdateHealthCheck lb.ID origHC.ID (healthCheckUpdateRequest hc))
            (l.client.UpdateHealthCheck lb.ID origHC.ID (healthCheckUpdateRequest hc)) w with
          | (some err, w1) => (some err, w1)
          | (none, w1) =>
            waitForState l.rt.polls (healthCheckState l lb.ID origHC.ID) "active" w1 := by
      unfold updateHealthChecks
      rw [hreq, hlb]
      simp only [hd, if_true]
      rfl
    have hcalls : ∃ polls, (updateHealthChecks l service lb w).2.trace
        = w.trace ++ Call.UpdateHealthCheck lb.ID origHC.ID (healthCheckUpdateRequest hc)
            :: polls
        ∧ ∀ c ∈ polls, c = Call.GetHealthCheck lb.ID origHC.ID := by
      rw [hu]
      revert hi
      rcases invoke (Call.UpdateHealthCheck lb.ID origHC.ID (healthCheckUpdateRequest hc))
        (l.client.UpdateHealthCheck lb.ID origHC.ID (healthCheckUpdateRequest hc)) w
        with ⟨r, w1⟩
      intro hi
      cases r with
      | some err => exact call_then_polls hi (Extends.refl _ w1)
      | none =>
        exact call_then_polls hi
          (waitForState_extends (healthCheckState l lb.ID origHC.ID)
            (healthCheckState_polls l lb.ID origHC.ID) "active" l.rt.polls w1)
    obtain ⟨polls, ht, hp⟩ := hcalls
    have hiss := issued_eq_of_trace ht
    refine ⟨⟨polls, hiss, hp⟩, ?_⟩
    rw [hiss, List.filter_cons_of_pos rfl]
    have : polls.filter Call.isUpdateHealthCheck = [] := by
      rw [List.filter_eq_nil_iff]
      intro c hc'
      rw [hp c hc']
      simp [Call.isUpdateHealthCheck]
    rw [this]
    rfl

/-- Witness of C16: the run of `TestLoadBalancers_UpdateHC`, where all seven annotations
differ from the existing health check. -/
theorem updateHealthChecks_update_witness :
    (issued testWorld (updateHealthChecks
        (testLoadbalancers (.ok testLBGetResponse) (.error (Error.New "unused")))
        (testService
          [ (ServiceAnnotationLoadBalancerHealthCheckType, "http"),
            (ServiceAnnotationLoadBalancerHealthCheckURL, "/"),
            (ServiceAnnotationLoadBalancerHealthCheckInterval, "6"),
            (ServiceAnnotationLoadBalancerHealthCheckTimeout, "3"),
            (ServiceAnnotationLoadBalancerHealthCheckUnhealthyThreshold, "4"),
            (ServiceAnnotationLoadBalancerHealthCheckHealthyThreshold, "3"),
            (ServiceAnnotationLoadBalancerHealthCheckPort, "9090") ] testPorts)
        testLBGetResponse testWorld).2).filter Call.isUpdateHealthCheck
      = [Call.UpdateHealthCheck "test-lb-id" ""
          { Type_ := "http", URL := "/", Interval := 6, Timeout := 3, UnhealthyThreshold := 4,
            HealthyThreshold := 3, Port := 9090 }] :=
  ((updateHealthChecks_update
    (testLoadbalancers (.ok testLBGetResponse) (.error (Error.New "unused")))
    (testService
      [ (ServiceAnnotationLoadBalancerHealthCheckType, "http"),
        (ServiceAnnotationLoadBalancerHealthCheckURL, "/"),
        (ServiceAnnotationLoadBalancerHealthCheckInterval, "6"),
        (ServiceAnnotationLoadBalancerHealthCheckTimeout, "3"),
        (ServiceAnnotationLoadBalancerHealthCheckUnhealthyThreshold, "4"),
        (ServiceAnnotationLoadBalancerHealthCheckHealthyThreshold, "3"),
        (ServiceAnnotationLoadBalancerHealthCheckPort, "9090") ] testPorts)
    testLBGetResponse testWorld
    { Type_ := "http", URL := "/", Interval := 6, Timeout := 3, UnhealthyThreshold := 4,
      HealthyThreshold := 3, Port := 9090 }
    { ID := "", Type_ := "tcp", URL := "", Interval := 5, Timeout := 2,
      UnhealthyThreshold := 5, HealthyThreshold := 5, Port := 8080, State := "" } []
    (by decide) (by decide)).2 (Or.inl (by decide))).2

theorem filter_eq_nil_of_kind {evs : List Call} {P Q : Call → Bool}
    (h : ∀ c ∈ evs, P c = true) (hPQ : ∀ c, P c = true → Q c = false) :
    evs.filter Q = [] := by
  rw [List.filter_eq_nil_iff]
  intro c hc
  rw [hPQ c (h c hc)]
  simp

theorem filter_eq_self_of_kind {evs : List Call} {P : Call → Bool}
    (h : ∀ c ∈ evs, P c = true) : evs.filter P = evs := by
  rw [List.filter_eq_self]
  exact h

/-- The health-check calls of `updateLoadBalancer` are those of its health-check step,
which runs when the info sync and the forwarding-rule sync have succeeded. -/
theorem updateLoadBalancer_healthCheckCalls {σ : Type} (l : loadbalancers σ)
    (service : Service) (nodes : List Node) (lb : LoadBalancer) (w : World σ) :
    (issued w (updateLoadBalancer l service nodes lb w).2).filter Call.isHealthCheckCall
      = if (updateLoadBalancerInfo l service lb w).1 = none
            ∧ (updateForwardingRules l service lb
                (updateLoadBalancerInfo l service lb w).2).1 = none then
          issued (updateForwardingRules l service lb (updateLoadBalancerInfo l service lb w).2).2
            (healthCheckStep l service lb
              (updateForwardingRules l service lb
                (updateLoadBalancerInfo l service lb w).2).2).2
        else [] := by
  have e1 := updateLoadBalancerInfo_block l service lb w
  have f1 : (issued w (updateLoadBalancerInfo l service lb w).2).filter
      Call.isHealthCheckCall = [] :=
    filter_eq_nil_of_kind e1.forall_issued (fun c h => by cases c <;> simp_all [Call.isInfoCall, Call.isHealthCheckCall])
  unfold updateLoadBalancer
  revert e1 f1
  rcases updateLoadBalancerInfo l service lb w with ⟨r1, w1⟩
  intro e1 f1
  cases r1 with
  | some err => simpa using f1
  | none =>
    simp only [true_and] at e1 f1 ⊢
    have e2 := updateForwardingRules_block l service lb w1
    have f2 : (issued w1 (updateForwardingRules l service lb w1).2).filter
        Call.isHealthCheckCall = [] :=
      filter_eq_nil_of_kind e2.forall_issued (fun c h => by cases c <;> simp_all [Call.isForwardingRuleCall, Call.isHealthCheckCall])
    revert e2 f2
    rcases updateForwardingRules l service lb w1 with ⟨r2, w2⟩
    intro e2 f2
    cases r2 with
    | some err =>
      simp only at e2 f2 ⊢
      rw [issued_trans e1 e2, List.filter_append, f1, f2]
      simp
    | none =>
      simp only at e2 f2 ⊢
      rw [if_pos trivial]
      have e3 := healthCheckStep_block l service lb w2
      have f3 := filter_eq_self_of_kind e3.forall_issued
      have t12 : Extends (fun _ => True) w w2 :=
        (e1.mono (fun _ _ => trivial)).trans (e2.mono (fun _ _ => trivial))
      have i2 : issued w w2 = issued w w1 ++ issued w1 w2 := issued_trans e1 e2
      unfold healthCheckStep at e3 f3 ⊢
      revert e3 f3
      rcases (if loadBalancerHealthChecksEnabled service then
        updateHealthChecks l service lb w2 else deleteHealthChecks l lb w2) with ⟨r3, w3⟩
      intro e3 f3
      cases r3 with
      | some err =>
        simp only at e3 f3 ⊢
        rw [issued_trans t12 e3, i2, List.filter_append, List.filter_append, f1, f2, f3]
        rfl
      | none =>
        simp only at e3 f3 ⊢
        have e4 := updateBackendNodes_block l nodes lb w3
        have f4 : (issued w3 (updateBackendNodes l nodes lb w3).2).filter
            Call.isHealthCheckCall = [] :=
          filter_eq_nil_of_kind e4.forall_issued (fun c h => by cases c <;> simp_all [Call.isBackendNodeCall, Call.isHealthCheckCall])
        have t13 : Extends (fun _ => True) w w3 := t12.trans (e3.mono (fun _ _ => trivial))
        rw [issued_trans t13 e4, issued_trans t12 e3, i2, List.filter_append,
          List.filter_append, List.filter_append, f1, f2, f3, f4]
        simp

/-- C17, as stated, fails: with health checks not enabled and a load balancer that has
a health check, `updateLoadBalancer` issues no `DeleteHealthCheck` call when an earlier
block fails; here the desired name differs, the `Update` of the info sync fails, and
`updateLoadBalancer` returns that error having issued the `Update` only. -/
theorem updateLoadBalancer_disable_not_reached :
    loadBalancerHealthChecksEnabled
        (testService
          [ (ServiceAnnotationLoadBalancerName, "test2"),
            (ServiceAnnotationLoadBalancerEnableHealthCheck, "false") ] testPorts) = false
    ∧ testLBGetResponse.HealthChecks.length = 1
    ∧ updateLoadBalancer (testLoadbalancersUpdateFails (.ok testLBGetResponse))
        (testService
          [ (ServiceAnnotationLoadBalancerName, "test2"),
            (ServiceAnnotationLoadBalancerEnableHealthCheck, "false") ] testPorts)
        testNodes testLBGetResponse testWorld
      = (some (Error.New "update failed"),
          { st := [], trace := [Call.Update "test-lb-id" { Name := "test2" }] })
    ∧ (issued testWorld (updateLoadBalancer
        (testLoadbalancersUpdateFails (.ok testLBGetResponse))
        (testService
          [ (ServiceAnnotationLoadBalancerName, "test2"),
            (ServiceAnnotationLoadBalancerEnableHealthCheck, "false") ] testPorts)
        testNodes testLBGetResponse testWorld).2).filter Call.isDeleteHealthCheck = [] := by
  decide

/-- C17 (amended): for a service with health checks not enabled, `updateLoadBalancer`
issues no `CreateHealthCheck` and no `UpdateHealthCheck` call; it issues no health-check
call at all when the load balancer has no health check; and when the load balancer has
one and the info sync and the forwarding-rule sync before it succeed, its health-check
calls are exactly one `DeleteHealthCheck` for the first existing health check's ID
followed by polls of that health check. That poll accepts a not-found `Get` as terminal:
when the delete succeeds and the first `Get` reports not-found, `deleteHealthChecks`
returns nil after exactly these two calls. -/
theorem updateLoadBalancer_disable_health_checks {σ : Type} (l : loadbalancers σ)
    (service : Service) (nodes : List Node) (lb : LoadBalancer) (w : World σ)
    (hen : loadBalancerHealthChecksEnabled service = false) :
    (∀ c ∈ issued w (updateLoadBalancer l service nodes lb w).2,
        c.isCreateHealthCheck = false ∧ c.isUpdateHealthCheck = false)
    ∧ (lb.HealthChecks = [] →
        ∀ c ∈ issued w (updateLoadBalancer l service nodes lb w).2,
          c.isHealthCheckCall = false)
    ∧ (∀ origHC tl, lb.HealthChecks = origHC :: tl →
        (updateLoadBalancerInfo l service lb w).1 = none →
        (updateForwardingRules l service lb (updateLoadBalancerInfo l service lb w).2).1
          = none →
        ∃ polls,
          (issued w (updateLoadBalancer l service nodes lb w).2).filter
              Call.isHealthCheckCall
            = Call.DeleteHealthCheck lb.ID origHC.ID :: polls
          ∧ ∀ c ∈ polls, c = Call.GetHealthCheck lb.ID origHC.ID)
    ∧ (∀ origHC tl (w2 : World σ), lb.HealthChecks = origHC :: tl →
        (l.client.DeleteHealthCheck lb.ID origHC.ID w2.st).1 = none →
        (l.client.GetHealthCheck lb.ID origHC.ID
          (l.client.DeleteHealthCheck lb.ID origHC.ID w2.st).2).1
          = .error Error.ErrResourceNotFound →
        0 < l.rt.polls →
        (deleteHealthChecks l lb w2).1 = none
        ∧ issued w2 (deleteHealthChecks l lb w2).2
          = [Call.DeleteHealthCheck lb.ID origHC.ID, Call.GetHealthCheck lb.ID origHC.ID]) := by
  have hstep : ∀ w2 : World σ, healthCheckStep l service lb w2 = deleteHealthChecks l lb w2 := by
    intro w2
    unfold healthCheckStep
    rw [hen]
    rfl
  have hcalls := updateLoadBalancer_healthCheckCalls l service nodes lb w
  -- every health-check call issued is one of the deletion step
  have hmem : ∀ c ∈ issued w (updateLoadBalancer l service nodes lb w).2,
      c.isHealthCheckCall = true →
      ∃ w2 : World σ, c ∈ issued w2 (deleteHealthChecks l lb w2).2 := by
    intro c hc hk
    have hin : c ∈ (issued w (updateLoadBalancer l service nodes lb w).2).filter
        Call.isHealthCheckCall := List.mem_filter.2 ⟨hc, hk⟩
    rw [hcalls] at hin
    split at hin
    · rw [hstep] at hin
      exact ⟨_, hin⟩
    · cases hin
  have hdel : ∀ (w2 : World σ), ∀ c ∈ issued w2 (deleteHealthChecks l lb w2).2,
      (∃ origHC tl, lb.HealthChecks = origHC :: tl
        ∧ (c = Call.DeleteHealthCheck lb.ID origHC.ID
          ∨ c = Call.GetHealthCheck lb.ID origHC.ID)) := by
    intro w2 c hc
    cases hlb : lb.HealthChecks with
    | nil =>
      rw [deleteHealthChecks_noop l lb w2 hlb, issued_self] at hc
      cases hc
    | cons origHC tl =>
      obtain ⟨polls, ht, hp⟩ := deleteHealthChecks_calls l lb w2 origHC tl hlb
      rw [issued_eq_of_trace ht] at hc
      refine ⟨origHC, tl, rfl, ?_⟩
      rcases List.mem_cons.1 hc with h | h
      · exact Or.inl h
      · exact Or.inr (hp c h)
  refine ⟨?_, ?_, ?_, ?_⟩
  · intro c hc
    cases hk : c.isHealthCheckCall with
    | false => cases c <;> simp_all [Call.isHealthCheckCall, Call.isCreateHealthCheck,
        Call.isUpdateHealthCheck]
    | true =>
      obtain ⟨w2, hin⟩ := hmem c hc hk
      obtain ⟨origHC, tl, _, h | h⟩ := hdel w2 c hin <;> rw [h] <;> exact ⟨rfl, rfl⟩
  · intro hlb c hc
    cases hk : c.isHealthCheckCall with
    | false => rfl
    | true =>
      obtain ⟨w2, hin⟩ := hmem c hc hk
      obtain ⟨origHC, tl, hlb', _⟩ := hdel w2 c hin
      rw [hlb] at hlb'
      cases hlb'
  · intro origHC tl hlb h1 h2
    rw [hcalls, if_pos ⟨h1, h2⟩, hstep]
    obtain ⟨polls, ht, hp⟩ := deleteHealthChecks_calls l lb
      (updateForwardingRules l service lb (updateLoadBalancerInfo l service lb w).2).2
      origHC tl hlb
    exact ⟨polls, issued_eq_of_trace ht, hp⟩
  · intro origHC tl w2 hlb hdelok hget hpolls
    obtain ⟨n, hn⟩ : ∃ n, l.rt.polls = n + 1 := ⟨l.rt.polls - 1, by omega⟩
    have hd : deleteHealthChecks l lb w2
        = (none, { st := (l.client.GetHealthCheck lb.ID origHC.ID
                    (l.client.DeleteHealthCheck lb.ID origHC.ID w2.st).2).2,
                   trace := w2.trace ++ [Call.DeleteHealthCheck lb.ID origHC.ID,
                     Call.GetHealthCheck lb.ID origHC.ID] }) := by
      unfold deleteHealthChecks
      rw [hlb]
      simp only [invoke, hdelok, hn, waitForState, hget]
      simp
    rw [hd]
    exact ⟨rfl, issued_eq_of_trace rfl⟩

/-- Witness of C17 (amended): the run of `TestLoadBalancers_DisableHC`. -/
theorem updateLoadBalancer_disable_health_checks_witness :
    ∃ polls,
      (issued testWorld (updateLoadBalancer
          (testLoadbalancers (.ok testLBGetResponse) (.error (Error.New "unused")))
          (testService (mapSet testAnnotaions ServiceAnnotationLoadBalancerEnableHealthCheck
            "false") testPorts)
          testNodes testLBGetResponse testWorld).2).filter Call.isHealthCheckCall
        = Call.DeleteHealthCheck "test-lb-id" "" :: polls
      ∧ ∀ c ∈ polls, c = Call.GetHealthCheck "test-lb-id" "" :=
  (updateLoadBalancer_disable_health_checks
    (testLoadbalancers (.ok testLBGetResponse) (.error (Error.New "unused")))
    (testService (mapSet testAnnotaions ServiceAnnotationLoadBalancerEnableHealthCheck
      "false") testPorts)
    testNodes testLBGetResponse testWorld (by decide)).2.2.1
    { ID := "", Type_ := "tcp", URL := "", Interval := 5, Timeout := 2,
      UnhealthyThreshold := 5, HealthyThreshold := 5, Port := 8080, State := "" } []
    (by decide) (by decide) (by decide)

/-! ## Validation of the health-check annotations -/

theorem loadBalancerHealthCheckRequest_error_of_malformed (service : Service)
    (h : malformedHealthCheckAnnotation service = true) :
    ∃ err, loadBalancerHealthCheckRequest service = .error err := by
  cases hr : loadBalancerHealthCheckRequest service with
  | error err => exact ⟨err, rfl⟩
  | ok hc =>
    exfalso
    obtain ⟨_, _, h1, h2, h3, h4, h5⟩ := loadBalancerHealthCheckRequest_ok hr
    have hkey : ∀ key n, intAnnotationHolds service key n = true →
        (match mapGet service.Annotations key with
          | none => false
          | some v =>
            match Atoi v with
            | .error _ => true
            | .ok _ => false) = false := by
      intro key n hn
      unfold intAnnotationHolds at hn
      cases hg : mapGet service.Annotations key with
      | none => rfl
      | some v =>
        rw [hg] at hn
        simp only [decide_eq_true_eq] at hn
        simp only [hn]
    unfold malformedHealthCheckAnnotation at h
    simp only [List.any_cons, List.any_nil, hkey _ _ h1, hkey _ _ h2, hkey _ _ h3,
      hkey _ _ h4, hkey _ _ h5] at h
    simp at h

/-- On the create path the validation does precede the mutation: with health checks
enabled and a malformed numeric health-check annotation the create request does not
build, so `EnsureLoadBalancer` returns an error and has issued the locating call
only. -/
theorem EnsureLoadBalancer_malformed_create_path {σ : Type} (l : loadbalancers σ)
    (service : Service) (nodes : List Node) (w : World σ)
    (hen : loadBalancerHealthChecksEnabled service = true)
    (hbad : malformedHealthCheckAnnotation service = true)
    (hloc : (loadBalancerByID l (loadBalancerID service) w).1
      = .error Error.ErrResourceNotFound) :
    (∃ err, (EnsureLoadBalancer l service nodes w).1 = some (none, some err))
    ∧ issued w (EnsureLoadBalancer l service nodes w).2.2 = locateCalls (loadBalancerID service)
    ∧ ∀ c ∈ issued w (EnsureLoadBalancer l service nodes w).2.2, c.isMutating = false := by
  obtain ⟨err, herr⟩ := loadBalancerHealthCheckRequest_error_of_malformed service hbad
  have hreq : makeLoadBalancerCreateRequest l service nodes = .error err := by
    unfold makeLoadBalancerCreateRequest
    simp [hen, herr]
  have hcr : createLoadBalancer l service nodes (loadBalancerByID l (loadBalancerID service) w).2
      = (.error (Error.Errorf "Error makeLoadBalancerCreateRequest: %v" err), service,
          (loadBalancerByID l (loadBalancerID service) w).2) := by
    unfold createLoadBalancer
    rw [hreq]
  have hE := EnsureLoadBalancer_of_not_found l service nodes w hloc
  rw [hcr] at hE
  simp only at hE
  rw [hE]
  have hiss : issued w (loadBalancerByID l (loadBalancerID service) w).2
      = locateCalls (loadBalancerID service) :=
    issued_eq_of_trace (loadBalancerByID_trace l _ w)
  refine ⟨⟨_, rfl⟩, hiss, ?_⟩
  simp only
  rw [hiss]
  intro c hc
  unfold locateCalls at hc
  split at hc
  · cases hc
  · rw [List.mem_singleton.1 hc]; rfl

/-- C18, the code at the failing input: with health checks enabled, the interval
annotation "abc" and a desired name that differs from the remote one, on an active
located load balancer `EnsureLoadBalancer` returns the error of the malformed interval,
but only after the info sync has issued the mutating `Update` call. -/
theorem EnsureLoadBalancer_malformed_after_Update :
    loadBalancerHealthChecksEnabled
        (testService (mapSet (mapSet testAnnotaions ServiceAnnotationLoadBalancerName "test2")
          ServiceAnnotationLoadBalancerHealthCheckInterval "abc") testPorts) = true
    ∧ malformedHealthCheckAnnotation
        (testService (mapSet (mapSet testAnnotaions ServiceAnnotationLoadBalancerName "test2")
          ServiceAnnotationLoadBalancerHealthCheckInterval "abc") testPorts) = true
    ∧ (EnsureLoadBalancer
        (testLoadbalancers (.ok testLBGetResponse) (.error (Error.New "unused")))
        (testService (mapSet (mapSet testAnnotaions ServiceAnnotationLoadBalancerName "test2")
          ServiceAnnotationLoadBalancerHealthCheckInterval "abc") testPorts)
        testNodes testWorld).1
      = some (none, some (Error.Errorf "Error updating load balancer: %v"
          (Error.Errorf "Invalid health check interval: %v"
            (Error.NumError "Atoi" "abc" false))))
    ∧ issued testWorld (EnsureLoadBalancer
        (testLoadbalancers (.ok testLBGetResponse) (.error (Error.New "unused")))
        (testService (mapSet (mapSet testAnnotaions ServiceAnnotationLoadBalancerName "test2")
          ServiceAnnotationLoadBalancerHealthCheckInterval "abc") testPorts)
        testNodes testWorld).2.2
      = [Call.Get "test-lb-id", Call.Update "test-lb-id" { Name := "test2" },
         Call.Get "test-lb-id"]
    ∧ (Call.Update "test-lb-id" { Name := "test2" }).isMutating = true := by
  decide

/-! ## The batch of backend-node additions comes first -/

theorem removeBackendNode_removal {σ : Type} (l : loadbalancers σ) (lbID bnID : String)
    (w : World σ) :
    Extends (fun c => c.isRemoveBackendNodeCall = true) w (removeBackendNode l lbID bnID w).2 :=
  extends_of_calls (removeBackendNode_calls l lbID bnID w) rfl (fun x hx => by rw [hx]; rfl)

theorem updateBackendNodes_stale_removal {σ : Type} (l : loadbalancers σ) (lbID : String) :
    ∀ (es : List (String × LBBackendNode)) (w : World σ),
      Extends (fun c => c.isRemoveBackendNodeCall = true) w
        (updateBackendNodes_stale l lbID es w).2 := by
  intro es
  induction es with
  | nil => intro w; exact Extends.refl _ w
  | cons e rest ih =>
    intro w
    unfold updateBackendNodes_stale
    have h := removeBackendNode_removal l lbID e.2.ID w
    revert h
    rcases removeBackendNode l lbID e.2.ID w with ⟨r, w1⟩
    intro h
    cases r with
    | some err => exact h
    | none => exact h.trans (ih w1)

/-- The list `bnsToAdd` of `updateBackendNodes`, for provider IDs that parse to pairwise
distinct instance IDs: the missing instance IDs. -/
theorem updateBackendNodes_nodes_missing (nodes : List Node) (lb : LoadBalancer)
    (ids : List String)
    (hparse : nodes.map (fun n => instanceIDByProviderID n.ProviderID) = ids.map Except.ok)
    (hids : ids.Nodup) :
    updateBackendNodes_nodes nodes [] (backendNodesByServer lb.BackendNodes)
      = .ok (missingInstanceIDs ids lb.BackendNodes,
          (backendNodesByServer lb.BackendNodes).filter (fun e => decide (e.1 ∉ ids))) := by
  rw [updateBackendNodes_nodes_eq nodes ids [] _ hparse hids, List.nil_append]
  have hadd : ids.filter (fun id => (mapGet (backendNodesByServer lb.BackendNodes) id).isNone)
      = missingInstanceIDs ids lb.BackendNodes := by
    unfold missingInstanceIDs
    apply List.filter_congr
    intro id _
    have := byKey_mapGet_eq_none LBBackendNode.CloudServerID lb.BackendNodes id
    by_cases h : id ∈ lb.BackendNodes.map LBBackendNode.CloudServerID
    · have hn : mapGet (backendNodesByServer lb.BackendNodes) id ≠ none :=
        fun hg => (this.1 hg) h
      have hs : (mapGet (backendNodesByServer lb.BackendNodes) id).isNone = false := by
        cases hx : mapGet (backendNodesByServer lb.BackendNodes) id with
        | none => exact absurd hx hn
        | some _ => rfl
      rw [hs]
      simp [h]
    · have hx : mapGet (backendNodesByServer lb.BackendNodes) id = none := this.2 h
      rw [hx]
      simp [h]
  rw [hadd]

/-- C26, the code at the failing input: the node list names the instance A twice and
the load balancer has a backend node for A, so no desired instance ID is missing from
the existing backends; yet `updateBackendNodes` issues an `AddBackendNodes` call for A,
the CloudServerID of an existing backend node. -/
theorem updateBackendNodes_repeated_node_added :
    missingInstanceIDs ["A", "A"]
        [ { ID := "node-a", CloudServerID := "A", State := "active" } ] = []
    ∧ "A" ∈ ([ { ID := "node-a", CloudServerID := "A", State := "active" } ] :
        List LBBackendNode).map LBBackendNode.CloudServerID
    ∧ (issued testWorld (updateBackendNodes
        (testLoadbalancers (.ok testLBGetResponse) (.error (Error.New "unused")))
        [ { ProviderID := "advancedhosting://A" }, { ProviderID := "advancedhosting://A" } ]
        { testLBGetResponse with BackendNodes :=
          [ { ID := "node-a", CloudServerID := "A", State := "active" } ] }
        testWorld).2).filter Call.isAddBackendNodes
      = [Call.AddBackendNodes "test-lb-id" ["A"]] := by
  decide

/-- C19, the counterexample: the first node names the instance C, which no existing
backend node carries, so a desired instance ID is missing; the provider ID of the second
node is empty and does not parse, and `updateBackendNodes` returns the error of the parse
before it issues any call: there is no `AddBackendNodes` call. -/
theorem updateBackendNodes_unparsed_node_no_add :
    instanceIDByProviderID "advancedhosting://C" = .ok "C"
    ∧ missingInstanceIDs ["C"]
        [ { ID := "node-a", CloudServerID := "A", State := "active" } ] = ["C"]
    ∧ updateBackendNodes
        (testLoadbalancers (.ok testLBGetResponse) (.error (Error.New "unused")))
        [ { ProviderID := "advancedhosting://C" }, { ProviderID := "" } ]
        { testLBGetResponse with BackendNodes :=
          [ { ID := "node-a", CloudServerID := "A", State := "active" } ] }
        testWorld
      = (some (Error.New "Empty ProviderID"), testWorld) := by
  decide

/-- C19, amended: for nodes whose provider IDs parse to pairwise distinct instance IDs
and every existing backend list, `updateBackendNodes` issues no `AddBackendNodes` call
when no desired instance ID is missing from the existing backends; otherwise its first
call is the one `AddBackendNodes` call, whose argument lists the missing instance IDs in
the order of the node list, then come the listings of its poll, then calls of the
removals only (`DeleteBackendNode` and the `GetBackendNode` of its poll), and none of
these unless the addition, poll included, succeeded. -/
theorem updateBackendNodes_add_first {σ : Type} (l : loadbalancers σ) (nodes : List Node)
    (lb : LoadBalancer) (w : World σ) (ids : List String)
    (hparse : nodes.map (fun n => instanceIDByProviderID n.ProviderID) = ids.map Except.ok)
    (hids : ids.Nodup) :
    (missingInstanceIDs ids lb.BackendNodes = [] →
      ∀ c ∈ issued w (updateBackendNodes l nodes lb w).2, c.isAddBackendNodes = false)
    ∧ (missingInstanceIDs ids lb.BackendNodes ≠ [] →
      ∃ polls rest,
        issued w (addBackendNodes l lb.ID (missingInstanceIDs ids lb.BackendNodes) w).2
          = Call.AddBackendNodes lb.ID (missingInstanceIDs ids lb.BackendNodes) :: polls
        ∧ issued w (updateBackendNodes l nodes lb w).2
          = Call.AddBackendNodes lb.ID (missingInstanceIDs ids lb.BackendNodes)
              :: (polls ++ rest)
        ∧ (∀ c ∈ polls, c = Call.ListBackendNodes lb.ID)
        ∧ (∀ c ∈ rest, c.isRemoveBackendNodeCall = true)
        ∧ ((addBackendNodes l lb.ID (missingInstanceIDs ids lb.BackendNodes) w).1 ≠ none →
            rest = [])) := by
  unfold updateBackendNodes
  rw [updateBackendNodes_nodes_missing nodes lb ids hparse hids]
  simp only
  constructor
  · intro hnil
    rw [hnil]
    simp only [List.length_nil, lt_irrefl, if_false]
    intro c hc
    have := (updateBackendNodes_stale_removal l lb.ID
      (l.rt.rangeBackendNodes ((backendNodesByServer lb.BackendNodes).filter
        (fun e => decide (e.1 ∉ ids)))) w).forall_issued c hc
    cases c <;> simp_all [Call.isRemoveBackendNodeCall, Call.isAddBackendNodes]
  · intro hne
    have hlen : 0 < (missingInstanceIDs ids lb.BackendNodes).length :=
      List.length_pos.2 hne
    rw [if_pos hlen]
    obtain ⟨polls, ht, hp⟩ :=
      addBackendNodes_calls l lb.ID (missingInstanceIDs ids lb.BackendNodes) w
    have he : Extends (fun _ => True) w
        (addBackendNodes l lb.ID (missingInstanceIDs ids lb.BackendNodes) w).2 :=
      ⟨_, ht, fun _ _ => trivial⟩
    have hi := issued_eq_of_trace ht
    revert ht he hi
    rcases addBackendNodes l lb.ID (missingInstanceIDs ids lb.BackendNodes) w with ⟨r, w1⟩
    intro ht he hi
    cases r with
    | some err =>
      refine ⟨polls, [], hi, ?_, hp, ?_, fun _ => rfl⟩
      · simp only [List.append_nil]; exact hi
      · intro c hc; cases hc
    | none =>
      simp only at ht he hi ⊢
      have hs := updateBackendNodes_stale_removal l lb.ID
        (l.rt.rangeBackendNodes ((backendNodesByServer lb.BackendNodes).filter
          (fun e => decide (e.1 ∉ ids)))) w1
      refine ⟨polls, issued w1 (updateBackendNodes_stale l lb.ID
        (l.rt.rangeBackendNodes ((backendNodesByServer lb.BackendNodes).filter
          (fun e => decide (e.1 ∉ ids)))) w1).2, hi, ?_, hp, hs.forall_issued,
        fun h => absurd rfl h⟩
      rw [issued_trans he hs, hi]
      rfl

/-- Witness of C19: existing backends for the servers A and B, desired nodes A and C:
the first call adds C, and after the listings of its poll only removal calls follow. -/
theorem updateBackendNodes_add_first_witness :
    missingInstanceIDs ["A", "C"]
        [ { ID := "node-a", CloudServerID := "A", State := "active" },
          { ID := "node-b", CloudServerID := "B", State := "active" } ] = ["C"]
    ∧ ∃ polls rest,
        issued testWorld (updateBackendNodes
          (testLoadbalancers (.ok testLBGetResponse) (.error (Error.New "unused")))
          [ { ProviderID := "advancedhosting://A" }, { ProviderID := "advancedhosting://C" } ]
          { testLBGetResponse with BackendNodes :=
            [ { ID := "node-a", CloudServerID := "A", State := "active" },
              { ID := "node-b", CloudServerID := "B", State := "active" } ] }
          testWorld).2
          = Call.AddBackendNodes "test-lb-id" ["C"] :: (polls ++ rest)
        ∧ (∀ c ∈ polls, c = Call.ListBackendNodes "test-lb-id")
        ∧ (∀ c ∈ rest, c.isRemoveBackendNodeCall = true) := by
  refine ⟨by decide, ?_⟩
  obtain ⟨polls, rest, _, h2, h3, h4, _⟩ :=
    (updateBackendNodes_add_first
      (testLoadbalancers (.ok testLBGetResponse) (.error (Error.New "unused")))
      [ { ProviderID := "advancedhosting://A" }, { ProviderID := "advancedhosting://C" } ]
      { testLBGetResponse with BackendNodes :=
        [ { ID := "node-a", CloudServerID := "A", State := "active" },
          { ID := "node-b", CloudServerID := "B", State := "active" } ] }
      testWorld ["A", "C"] (by decide) (by decide)).2 (by decide)
  exact ⟨polls, rest, h2, h3, h4⟩

/-! ## The poll predicate of `addBackendNodes` -/

/-- The map `backendMap` of the state-fetch function, read at a node ID. -/
theorem backendMap_getD (bns : List LBBackendNode) (id : String) :
    (mapGet (bns.foldl (fun m bn => mapSet m bn.ID bn.State) []) id).getD ""
      = currentState bns id := by
  have h : mapGet (bns.foldl (fun m bn => mapSet m bn.ID bn.State) []) id
      = (bns.reverse.find? (fun bn => decide (bn.ID = id))).map LBBackendNode.State := by
    induction bns using List.reverseRecOn with
    | nil => rfl
    | append_singleton bns a ih =>
      rw [List.foldl_append, List.reverse_append]
      simp only [List.foldl_cons, List.foldl_nil, List.reverse_cons, List.reverse_nil,
        List.nil_append, List.singleton_append]
      by_cases ha : a.ID = id
      · rw [List.find?_cons_of_pos _ (by simp [ha]), ← ha, mapGet_mapSet_self]
        rfl
      · rw [List.find?_cons_of_neg _ (by simp [ha]), mapGet_mapSet_ne _ _ (Ne.symm ha), ih]
  unfold currentState
  rw [h]

theorem currentState_missing (bns : List LBBackendNode) (id : String)
    (h : id ∉ bns.map LBBackendNode.ID) : currentState bns id = "" := by
  unfold currentState
  have hn : bns.reverse.find? (fun bn => decide (bn.ID = id)) = none := by
    rw [List.find?_eq_none]
    intro x hx
    have hx' : x ∈ bns := List.mem_reverse.1 hx
    simp only [decide_eq_true_eq]
    intro hid
    exact h (List.mem_map.2 ⟨x, hx', hid⟩)
  rw [hn]
  rfl

theorem currentState_listed (bns : List LBBackendNode)
    (hnd : (bns.map LBBackendNode.ID).Nodup) (b : LBBackendNode) (hb : b ∈ bns) :
    currentState bns b.ID = b.State := by
  unfold currentState
  cases hf : bns.reverse.find? (fun bn => decide (bn.ID = b.ID)) with
  | none =>
    rw [List.find?_eq_none] at hf
    have := hf b (List.mem_reverse.2 hb)
    simp at this
  | some x =>
    have hx : x ∈ bns := List.mem_reverse.1 (List.mem_of_find?_eq_some hf)
    have hid : x.ID = b.ID := by
      have := List.find?_some hf
      simpa using this
    have hxb : x = b := List.inj_on_of_nodup_map hnd hx hb hid
    rw [hxb]
    rfl

/-- The scan of the state-fetch function over the response of `AddBackendNodes`. -/
theorem addedNodesState_spec (m : GoMap String String) (f : String → String)
    (hf : ∀ id, (mapGet m id).getD "" = f id) :
    ∀ (backendNodes : List LBBackendNode),
      (addedNodesState m backendNodes = "active"
        ↔ ∀ bn ∈ backendNodes, f bn.ID = "active")
      ∧ (addedNodesState m backendNodes ≠ "active" →
        ∃ pre bn post, backendNodes = pre ++ bn :: post
          ∧ (∀ b ∈ pre, f b.ID = "active")
          ∧ f bn.ID ≠ "active"
          ∧ addedNodesState m backendNodes = f bn.ID) := by
  intro backendNodes
  induction backendNodes with
  | nil =>
    refine ⟨by simp [addedNodesState], ?_⟩
    intro h
    exact absurd rfl h
  | cons bn rest ih =>
    unfold addedNodesState
    rw [hf bn.ID]
    by_cases h : f bn.ID = "active"
    · rw [if_neg (by simp [h])]
      refine ⟨?_, ?_⟩
      · rw [ih.1]
        simp [h]
      · intro hne
        obtain ⟨pre, b, post, hsplit, hpre, hb, hs⟩ := ih.2 hne
        refine ⟨bn :: pre, b, post, by rw [hsplit]; rfl, ?_, hb, hs⟩
        intro x hx
        rcases List.mem_cons.1 hx with hx | hx
        · rw [hx]; exact h
        · exact hpre x hx
    · rw [if_pos h]
      refine ⟨?_, ?_⟩
      · constructor
        · intro hh; exact absurd hh h
        · intro hh; exact absurd (hh bn (List.mem_cons_self _ _)) h
      · intro _
        exact ⟨[], bn, rest, rfl, by simp, h, rfl⟩

/-- C20: `addBackendNodes` polls with the state-fetch function
`addBackendNodes_stateFunc` of the `AddBackendNodes` response. That function returns a
`ListBackendNodes` error unchanged. On a listing it returns "active" exactly when every
node of the response has the state "active" in the listing, matched by remote-assigned
node ID; otherwise it returns the state the listing has for the first node of the
response, in response order, that is not active there. The state of an ID the listing
lacks is the empty string, and in a listing of pairwise distinct IDs the state of a
listed node's ID is that node's state. -/
theorem addBackendNodes_stateFunc_spec {σ : Type} (l : loadbalancers σ) (lbID : String)
    (backendNodes : List LBBackendNode) (w : World σ) :
    (∀ ids, addBackendNodes l lbID ids w
      = match invoke (Call.AddBackendNodes lbID ids) (l.client.AddBackendNodes lbID ids)
          w with
        | (.error err, w1) => (some err, w1)
        | (.ok response, w1) =>
          waitForState l.rt.polls (addBackendNodes_stateFunc l lbID response) "active" w1)
    ∧ (∀ err, (l.client.ListBackendNodes lbID w.st).1 = .error err →
        (addBackendNodes_stateFunc l lbID backendNodes w).1 = .error err)
    ∧ (∀ bns, (l.client.ListBackendNodes lbID w.st).1 = .ok bns →
        ∃ s, (addBackendNodes_stateFunc l lbID backendNodes w).1 = .ok s
          ∧ (s = "active" ↔ ∀ bn ∈ backendNodes, currentState bns bn.ID = "active")
          ∧ (s ≠ "active" →
            ∃ pre bn post, backendNodes = pre ++ bn :: post
              ∧ (∀ b ∈ pre, currentState bns b.ID = "active")
              ∧ currentState bns bn.ID ≠ "active"
              ∧ s = currentState bns bn.ID)
          ∧ (∀ id, id ∉ bns.map LBBackendNode.ID → currentState bns id = "")
          ∧ ((bns.map LBBackendNode.ID).Nodup →
              ∀ b ∈ bns, currentState bns b.ID = b.State)) := by
  refine ⟨fun ids => rfl, ?_, ?_⟩
  · intro err h
    unfold addBackendNodes_stateFunc invoke
    simp only [h]
  · intro bns h
    have hs := addedNodesState_spec (bns.foldl (fun m bn => mapSet m bn.ID bn.State) [])
      (currentState bns) (backendMap_getD bns) backendNodes
    refine ⟨addedNodesState (bns.foldl (fun m bn => mapSet m bn.ID bn.State) [])
      backendNodes, ?_, hs.1, hs.2, currentState_missing bns, currentState_listed bns⟩
    unfold addBackendNodes_stateFunc invoke
    simp only [h]

/-- Witness of C20: the response names the nodes n1 and n2; in the listing n1 is active
and n2 is still creating, so the state-fetch function returns "creating". -/
theorem addBackendNodes_stateFunc_spec_witness :
    (addBackendNodes_stateFunc
        (testLoadbalancers (.ok testLBGetResponse) (.error (Error.New "unused")))
        "test-lb-id"
        [ { ID := "n1", CloudServerID := "A", State := "creating" },
          { ID := "n2", CloudServerID := "B", State := "creating" } ]
        { st := [ { ID := "n1", CloudServerID := "A", State := "active" },
                  { ID := "n2", CloudServerID := "B", State := "creating" } ],
          trace := [] }).1 = .ok "creating"
    ∧ ∃ s, (addBackendNodes_stateFunc
        (testLoadbalancers (.ok testLBGetResponse) (.error (Error.New "unused")))
        "test-lb-id"
        [ { ID := "n1", CloudServerID := "A", State := "creating" },
          { ID := "n2", CloudServerID := "B", State := "creating" } ]
        { st := [ { ID := "n1", CloudServerID := "A", State := "active" },
                  { ID := "n2", CloudServerID := "B", State := "creating" } ],
          trace := [] }).1 = .ok s
      ∧ (s = "active" ↔
          ∀ bn ∈ ([ { ID := "n1", CloudServerID := "A", State := "creating" },
                    { ID := "n2", CloudServerID := "B", State := "creating" } ] :
                  List LBBackendNode),
            currentState [ { ID := "n1", CloudServerID := "A", State := "active" },
                           { ID := "n2", CloudServerID := "B", State := "creating" } ]
              bn.ID = "active") := by
  refine ⟨by decide, ?_⟩
  obtain ⟨s, h1, h2, _⟩ :=
    (addBackendNodes_stateFunc_spec
      (testLoadbalancers (.ok testLBGetResponse) (.error (Error.New "unused")))
      "test-lb-id"
      [ { ID := "n1", CloudServerID := "A", State := "creating" },
        { ID := "n2", CloudServerID := "B", State := "creating" } ]
      { st := [ { ID := "n1", CloudServerID := "A", State := "active" },
                { ID := "n2", CloudServerID := "B", State := "creating" } ],
        trace := [] }).2.2 _ rfl
  exact ⟨s, h1, h2⟩

/-! ## Provider IDs -/

theorem afterFirst_append (pre rest : List Char) (hpre : pre ≠ []) :
    afterFirst pre (pre ++ rest) = some rest := by
  cases hl : pre ++ rest with
  | nil =>
    have := List.append_eq_nil.1 hl
    exact absurd this.1 hpre
  | cons c cs =>
    unfold afterFirst
    rw [← hl, if_pos (by simp), List.drop_left]

theorem takeWhile_no_line_break (cs : List Char) (h : '\n' ∉ cs) :
    cs.takeWhile (fun c => decide (c ≠ '\n')) = cs := by
  rw [List.takeWhile_eq_self_iff]
  intro c hc
  simp only [decide_eq_true_eq]
  intro hcn
  exact h (hcn ▸ hc)

/-- C24: for every instance ID without a line break, `instanceIDByProviderID` returns the
ID, and no error, for the provider ID made of the prefix `advancedhosting://` and the ID
(the ID may be empty or contain the prefix itself: it is not restricted otherwise); and
for the empty provider ID it returns the error "Empty ProviderID". -/
theorem instanceIDByProviderID_round_trip (id : String) (h : '\n' ∉ id.data) :
    instanceIDByProviderID ("advancedhosting://" ++ id) = .ok id
    ∧ instanceIDByProviderID "" = .error (Error.New "Empty ProviderID") := by
  refine ⟨?_, rfl⟩
  have hne : "advancedhosting://" ++ id ≠ "" := by
    intro he
    have hd := congrArg String.data he
    rw [String.data_append] at hd
    simp at hd
  unfold instanceIDByProviderID providerIDRegexp_FindStringSubmatch
  rw [if_neg hne, String.data_append]
  have ha : afterFirst ahProviderPrefix.data ("advancedhosting://".data ++ id.data)
      = some id.data := afterFirst_append ahProviderPrefix.data id.data (by decide)
  rw [ha]
  simp only [Option.map_some']
  rw [takeWhile_no_line_break id.data h]

/-- Witness of C24: the IDs of `TestLoadBalancers_UpdateBackendNodes`' kind, the empty ID
and an ID that contains the prefix. -/
theorem instanceIDByProviderID_round_trip_witness :
    instanceIDByProviderID ("advancedhosting://" ++ "advancedhosting://test-cloud-server-1")
        = .ok "advancedhosting://test-cloud-server-1"
    ∧ instanceIDByProviderID "" = .error (Error.New "Empty ProviderID") :=
  instanceIDByProviderID_round_trip "advancedhosting://test-cloud-server-1" (by decide)

theorem afterFirst_eq_none (pre : List Char) :
    ∀ (cs : List Char), ¬ pre <:+: cs → afterFirst pre cs = none := by
  intro cs
  induction cs with
  | nil => intro _; rfl
  | cons c cs ih =>
    intro h
    unfold afterFirst
    by_cases hp : pre.isPrefixOf (c :: cs) = true
    · exact absurd (List.isPrefixOf_iff_prefix.1 hp).isInfix h
    · rw [if_neg hp]
      exact ih (fun hi => h (List.infix_cons hi))

/-- What `instanceIDByProviderID` does reject: a non-empty provider ID in which the
prefix `advancedhosting://` occurs nowhere. -/
theorem instanceIDByProviderID_invalid (providerID : String) (hne : providerID ≠ "")
    (h : ¬ ahProviderPrefix.data <:+: providerID.data) :
    instanceIDByProviderID providerID = .error (Error.New "Invalid ProviderID") := by
  unfold instanceIDByProviderID providerIDRegexp_FindStringSubmatch
  rw [if_neg hne, afterFirst_eq_none _ _ h]
  rfl

theorem instanceIDByProviderID_invalid_witness :
    instanceIDByProviderID "aws:///eu-west-1a/i-0123456789"
      = .error (Error.New "Invalid ProviderID") :=
  instanceIDByProviderID_invalid "aws:///eu-west-1a/i-0123456789" (by decide) (by decide)

/-- C30, the code at the failing input: the provider ID is not empty and does not begin
with `advancedhosting://`, the prefix occurs after its first character; the expression
`providerIDRegexp` is not anchored, so `instanceIDByProviderID` returns the instance ID
that follows the prefix, and no error. -/
theorem instanceIDByProviderID_prefix_not_anchored :
    "xadvancedhosting://test-cloud-server-1" ≠ ""
    ∧ ahProviderPrefix.data.isPrefixOf "xadvancedhosting://test-cloud-server-1".data = false
    ∧ instanceIDByProviderID "xadvancedhosting://test-cloud-server-1"
        = .ok "test-cloud-server-1" := by
  decide

/-! ## The status of a load balancer without an address -/

/-- C29, the code at the failing input: `loadBalancerStatus` is not defined on a load
balancer whose IP address list is empty, it indexes the first address; so
`EnsureLoadBalancer` panics on the create path as well, when `Create` returns an active
load balancer that has no IP address yet, after it has issued `Create` and patched the
service. -/
theorem loadBalancerStatus_empty_address_list_panics :
    loadBalancerStatus { testLBGetResponse with IPAddresses := [] } = none
    ∧ (EnsureLoadBalancer
        (testLoadbalancers (.error Error.ErrResourceNotFound)
          (.ok { testLBGetResponse with IPAddresses := [] }))
        (testService (mapDelete testAnnotaions ServiceAnnotationLoadBalancerID) testPorts)
        testNodes testWorld).1 = none
    ∧ ((issued testWorld (EnsureLoadBalancer
        (testLoadbalancers (.error Error.ErrResourceNotFound)
          (.ok { testLBGetResponse with IPAddresses := [] }))
        (testService (mapDelete testAnnotaions ServiceAnnotationLoadBalancerID) testPorts)
        testNodes testWorld).2.2).filter Call.isCreate).length = 1 := by
  decide

/-! ## The enable flag of the health checks -/

/-- C28: `loadBalancerHealthChecksEnabled` returns true exactly when the enable
annotation is present with one of the values "1", "t", "T", "TRUE", "true", "True"; it
is a total function to `Bool`, so for an absent annotation and for every other value,
a value that is no boolean included, it returns false and no error; and whenever it
returns false, `updateLoadBalancer` takes the disable path: its health-check step is
`deleteHealthChecks`. -/
theorem loadBalancerHealthChecksEnabled_iff {σ : Type} (l : loadbalancers σ)
    (service : Service) (nodes : List Node) (lb : LoadBalancer) (w : World σ) :
    (loadBalancerHealthChecksEnabled service = true
      ↔ ∃ v, mapGet service.Annotations ServiceAnnotationLoadBalancerEnableHealthCheck
            = some v
          ∧ (v = "1" ∨ v = "t" ∨ v = "T" ∨ v = "TRUE" ∨ v = "true" ∨ v = "True"))
    ∧ (loadBalancerHealthChecksEnabled service = false
      ↔ ∀ v, mapGet service.Annotations ServiceAnnotationLoadBalancerEnableHealthCheck
            = some v →
          ¬ (v = "1" ∨ v = "t" ∨ v = "T" ∨ v = "TRUE" ∨ v = "true" ∨ v = "True"))
    ∧ (loadBalancerHealthChecksEnabled service = false →
        healthCheckStep l service lb w = deleteHealthChecks l lb w
        ∧ updateLoadBalancer l service nodes lb w
          = match updateLoadBalancerInfo l service lb w with
            | (some err, w1) => (some err, w1)
            | (none, w1) =>
              match updateForwardingRules l service lb w1 with
              | (some err, w2) => (some err, w2)
              | (none, w2) =>
                match deleteHealthChecks l lb w2 with
                | (some err, w3) => (some err, w3)
                | (none, w3) => updateBackendNodes l nodes lb w3) := by
  have h1 : loadBalancerHealthChecksEnabled service = true
      ↔ ∃ v, mapGet service.Annotations ServiceAnnotationLoadBalancerEnableHealthCheck
            = some v
          ∧ (v = "1" ∨ v = "t" ∨ v = "T" ∨ v = "TRUE" ∨ v = "true" ∨ v = "True") := by
    unfold loadBalancerHealthChecksEnabled
    cases hg : mapGet service.Annotations ServiceAnnotationLoadBalancerEnableHealthCheck with
    | none => simp
    | some v =>
      simp only [Option.some.injEq, exists_eq_left']
      unfold ParseBool
      by_cases ht : v = "1" ∨ v = "t" ∨ v = "T" ∨ v = "TRUE" ∨ v = "true" ∨ v = "True"
      · rw [if_pos ht]
        simp [ht]
      · rw [if_neg ht]
        by_cases hf : v = "0" ∨ v = "f" ∨ v = "F" ∨ v = "FALSE" ∨ v = "false" ∨ v = "False"
        · rw [if_pos hf]
          simp [ht]
        · rw [if_neg hf]
          simp [ht]
  refine ⟨h1, ?_, ?_⟩
  · rw [← Bool.not_eq_true, h1]
    constructor
    · intro h v hv hval
      exact h ⟨v, hv, hval⟩
    · rintro h ⟨v, hv, hval⟩
      exact h v hv hval
  · intro hf
    refine ⟨by unfold healthCheckStep; rw [hf]; rfl, ?_⟩
    unfold updateLoadBalancer
    rw [hf]
    rfl

/-- Witness of C28: the value "yes" is no boolean for `strconv.ParseBool`; the flag
reads false and the health-check step is the deletion. -/
theorem loadBalancerHealthChecksEnabled_iff_witness :
    loadBalancerHealthChecksEnabled
        (testService [(ServiceAnnotationLoadBalancerEnableHealthCheck, "yes")] testPorts)
      = false
    ∧ healthCheckStep
        (testLoadbalancers (.ok testLBGetResponse) (.error (Error.New "unused")))
        (testService [(ServiceAnnotationLoadBalancerEnableHealthCheck, "yes")] testPorts)
        testLBGetResponse testWorld
      = deleteHealthChecks
        (testLoadbalancers (.ok testLBGetResponse) (.error (Error.New "unused")))
        testLBGetResponse testWorld :=
  ⟨by decide,
    ((loadBalancerHealthChecksEnabled_iff
      (testLoadbalancers (.ok testLBGetResponse) (.error (Error.New "unused")))
      (testService [(ServiceAnnotationLoadBalancerEnableHealthCheck, "yes")] testPorts)
      testNodes testLBGetResponse testWorld).2.2 (by decide)).1⟩

/-! ## `InstanceExistsByProviderID` -/

theorem instanceIDByProviderID_error_ne_not_found (providerID : String) (err : Error)
    (h : instanceIDByProviderID providerID = .error err) :
    err ≠ Error.ErrResourceNotFound := by
  unfold instanceIDByProviderID at h
  split at h
  · injection h with h; rw [← h]; intro hc; cases hc
  · split at h
    · injection h with h; rw [← h]; intro hc; cases hc
    · cases h

/-- C25: `InstanceExistsByProviderID` returns `(true, nil)` exactly when the provider ID
parses and the `Get` of the instance succeeds, whatever the instance returned; it
returns `(false, nil)` exactly when the provider ID parses and the `Get` reports the
not-found error; its result is always one of `(true, nil)`, `(false, nil)` and
`(false, err)` with an error `err`, so in every other case it is the last; when the
provider ID does not parse it returns `(false, err)` with the error of the parse and
issues no `Get`; and when it parses, the one `Get` issued is for the parsed ID. -/
theorem InstanceExistsByProviderID_spec {σ : Type} (i : instances σ) (providerID : String)
    (w : InstancesWorld σ) :
    ((InstanceExistsByProviderID i providerID w).1 = (true, none)
      ↔ ∃ instanceID inst, instanceIDByProviderID providerID = .ok instanceID
          ∧ (i.Get instanceID w.st).1 = .ok inst)
    ∧ ((InstanceExistsByProviderID i providerID w).1 = (false, none)
      ↔ ∃ instanceID, instanceIDByProviderID providerID = .ok instanceID
          ∧ (i.Get instanceID w.st).1 = .error Error.ErrResourceNotFound)
    ∧ ((InstanceExistsByProviderID i providerID w).1 = (true, none)
      ∨ (InstanceExistsByProviderID i providerID w).1 = (false, none)
      ∨ ∃ err, (InstanceExistsByProviderID i providerID w).1 = (false, some err))
    ∧ (∀ err, instanceIDByProviderID providerID = .error err →
        InstanceExistsByProviderID i providerID w = ((false, some err), w))
    ∧ (∀ instanceID, instanceIDByProviderID providerID = .ok instanceID →
        (InstanceExistsByProviderID i providerID w).2.gets = w.gets ++ [instanceID]) := by
  unfold InstanceExistsByProviderID instanceByProviderID
  cases hp : instanceIDByProviderID providerID with
  | error err =>
    have hne := instanceIDByProviderID_error_ne_not_found providerID err hp
    simp [hne]
  | ok instanceID =>
    simp only [Except.ok.injEq, exists_eq_left', false_implies, implies_true, true_and,
      forall_eq']
    rcases hg : i.Get instanceID w.st with ⟨r, st1⟩
    cases r with
    | error err =>
      by_cases he : err = Error.ErrResourceNotFound
      · simp [he, hg]
      · simp [he, hg]
    | ok inst => simp [hg]

/-- Witness of C25: the runs of `TestInstances_InstanceExistsByProviderID_InstanceExists`
and `TestInstances_InstanceExistsByProviderID_InstanceNotExists`, and an empty provider
ID, for which no `Get` is issued. -/
theorem InstanceExistsByProviderID_spec_witness :
    (InstanceExistsByProviderID (mockInstancesAPI (.ok { ID := "", Name := "", State := "" }))
        "advancedhosting://test-worker-id" { st := (), gets := [] }).1 = (true, none)
    ∧ (InstanceExistsByProviderID (mockInstancesAPI (.error Error.ErrResourceNotFound))
        "advancedhosting://test-worker-id" { st := (), gets := [] }).1 = (false, none)
    ∧ InstanceExistsByProviderID (mockInstancesAPI (.ok { ID := "", Name := "", State := "" }))
        "" { st := (), gets := [] }
      = ((false, some (Error.New "Empty ProviderID")), { st := (), gets := [] }) :=
  ⟨by decide, by decide,
    (InstanceExistsByProviderID_spec
      (mockInstancesAPI (.ok { ID := "", Name := "", State := "" })) ""
      { st := (), gets := [] }).2.2.2.1 _ rfl⟩

/-! ## Not-found in the polls -/

theorem waitForState_error_first {σ : Type} (n : Nat)
    (stateFunc : World σ → Except Error String × World σ) (requiredState : String)
    (w w1 : World σ) (err : Error) (h : stateFunc w = (.error err, w1)) :
    waitForState (n + 1) stateFunc requiredState w = (some err, w1) := by
  unfold waitForState
  rw [h]

theorem waitForState_match_first {σ : Type} (n : Nat)
    (stateFunc : World σ → Except Error String × World σ) (requiredState : String)
    (w w1 : World σ) (h : stateFunc w = (.ok requiredState, w1)) :
    waitForState (n + 1) stateFunc requiredState w = (none, w1) := by
  unfold waitForState
  rw [h]
  simp

theorem waitForState_step {σ : Type} (n : Nat)
    (stateFunc : World σ → Except Error String × World σ) (requiredState state : String)
    (w w1 : World σ) (h : stateFunc w = (.ok state, w1)) (hs : state ≠ requiredState) :
    waitForState (n + 1) stateFunc requiredState w
      = waitForState n stateFunc requiredState w1 := by
  conv => lhs; unfold waitForState
  rw [h]
  simp [hs]

/-- A poll to "deleted" whose first fetch reports "deleting" and whose second fetch
reports "deleted" succeeds in the world the second fetch left. -/
theorem waitForState_deleting_then_deleted {σ : Type} (polls : Nat)
    (stateFunc : World σ → Except Error String × World σ) (w w1 w2 : World σ)
    (hp : 2 ≤ polls) (h1 : stateFunc w = (.ok "deleting", w1))
    (h2 : stateFunc w1 = (.ok "deleted", w2)) :
    waitForState polls stateFunc "deleted" w = (none, w2) := by
  obtain ⟨n, rfl⟩ : ∃ n, polls = n + 1 + 1 := ⟨polls - 2, by omega⟩
  rw [waitForState_step (n + 1) stateFunc "deleted" "deleting" w w1 h1 (by decide),
    waitForState_match_first n stateFunc "deleted" w1 w2 h2]

theorem removeForwardingRule_stateFunc_spec {σ : Type} (l : loadbalancers σ)
    (lbID frID : String) (w : World σ) :
    ((l.client.GetForwardingRule lbID frID w.st).1 = .error Error.ErrResourceNotFound →
      removeForwardingRule_stateFunc l lbID frID w
        = (.ok "deleted",
            (invoke (Call.GetForwardingRule lbID frID)
              (l.client.GetForwardingRule lbID frID) w).2))
    ∧ (∀ err, (l.client.GetForwardingRule lbID frID w.st).1 = .error err →
        err ≠ Error.ErrResourceNotFound →
        removeForwardingRule_stateFunc l lbID frID w
          = (.error err,
              (invoke (Call.GetForwardingRule lbID frID)
                (l.client.GetForwardingRule lbID frID) w).2))
    ∧ (∀ fr, (l.client.GetForwardingRule lbID frID w.st).1 = .ok fr →
        removeForwardingRule_stateFunc l lbID frID w
          = (.ok fr.State,
              (invoke (Call.GetForwardingRule lbID frID)
                (l.client.GetForwardingRule lbID frID) w).2)) := by
  unfold removeForwardingRule_stateFunc invoke
  refine ⟨fun h => ?_, fun err h hne => ?_, fun fr h => ?_⟩
  · simp [h]
  · simp [h, hne]
  · simp [h]

theorem deleteHealthChecks_stateFunc_spec {σ : Type} (l : loadbalancers σ)
    (lbID hcID : String) (w : World σ) :
    ((l.client.GetHealthCheck lbID hcID w.st).1 = .error Error.ErrResourceNotFound →
      deleteHealthChecks_stateFunc l lbID hcID w
        = (.ok "deleted",
            (invoke (Call.GetHealthCheck lbID hcID) (l.client.GetHealthCheck lbID hcID) w).2))
    ∧ (∀ err, (l.client.GetHealthCheck lbID hcID w.st).1 = .error err →
        err ≠ Error.ErrResourceNotFound →
        deleteHealthChecks_stateFunc l lbID hcID w
          = (.error err,
              (invoke (Call.GetHealthCheck lbID hcID)
                (l.client.GetHealthCheck lbID hcID) w).2))
    ∧ (∀ hc, (l.client.GetHealthCheck lbID hcID w.st).1 = .ok hc →
        deleteHealthChecks_stateFunc l lbID hcID w
          = (.ok hc.State,
              (invoke (Call.GetHealthCheck lbID hcID)
                (l.client.GetHealthCheck lbID hcID) w).2)) := by
  unfold deleteHealthChecks_stateFunc invoke
  refine ⟨fun h => ?_, fun err h hne => ?_, fun hc h => ?_⟩
  · simp [h]
  · simp [h, hne]
  · simp [h]

theorem removeBackendNode_stateFunc_spec {σ : Type} (l : loadbalancers σ)
    (lbID bnID : String) (w : World σ) :
    ((l.client.GetBackendNode lbID bnID w.st).1 = .error Error.ErrResourceNotFound →
      removeBackendNode_stateFunc l lbID bnID w
        = (.ok "deleted",
            (invoke (Call.GetBackendNode lbID bnID) (l.client.GetBackendNode lbID bnID) w).2))
    ∧ (∀ err, (l.client.GetBackendNode lbID bnID w.st).1 = .error err →
        err ≠ Error.ErrResourceNotFound →
        removeBackendNode_stateFunc l lbID bnID w
          = (.error err,
              (invoke (Call.GetBackendNode lbID bnID)
                (l.client.GetBackendNode lbID bnID) w).2))
    ∧ (∀ bn, (l.client.GetBackendNode lbID bnID w.st).1 = .ok bn →
        removeBackendNode_stateFunc l lbID bnID w
          = (.ok bn.State,
              (invoke (Call.GetBackendNode lbID bnID)
                (l.client.GetBackendNode lbID bnID) w).2)) := by
  unfold removeBackendNode_stateFunc invoke
  refine ⟨fun h => ?_, fun err h hne => ?_, fun bn h => ?_⟩
  · simp [h]
  · simp [h, hne]
  · simp [h]

/-- A deletion followed by its poll: when the delete call succeeds, the first fetch
reports "deleting" and the second fetch reports the not-found condition, which the
state-fetch function turns into "deleted", the operation succeeds after the delete call
and exactly two fetches. -/
theorem delete_then_two_fetches {σ α : Type} (polls : Nat)
    (stateFunc : World σ → Except Error String × World σ)
    (cd cg : Call) (fd : σ → Option Error × σ) (fg : σ → Except Error α × σ)
    (state : α → String) (w : World σ) (x : α)
    (hok : ∀ w1 y, (fg w1.st).1 = .ok y → stateFunc w1 = (.ok (state y), (invoke cg fg w1).2))
    (hnf : ∀ w1, (fg w1.st).1 = .error Error.ErrResourceNotFound →
      stateFunc w1 = (.ok "deleted", (invoke cg fg w1).2))
    (hp : 2 ≤ polls)
    (hd : (fd w.st).1 = none)
    (h1 : (fg (fd w.st).2).1 = .ok x) (hx : state x = "deleting")
    (h2 : (fg (fg (fd w.st).2).2).1 = .error Error.ErrResourceNotFound) :
    (match invoke cd fd w with
      | (some err, w1) => (some err, w1)
      | (none, w1) => waitForState polls stateFunc "deleted" w1).1 = none
    ∧ issued w (match invoke cd fd w with
      | (some err, w1) => (some err, w1)
      | (none, w1) => waitForState polls stateFunc "deleted" w1).2 = [cd, cg, cg] := by
  have hi : invoke cd fd w = (none, (invoke cd fd w).2) := by
    unfold invoke
    simp only [hd]
  rw [hi]
  simp only
  have hs1 : stateFunc (invoke cd fd w).2 = (.ok "deleting", (invoke cg fg (invoke cd fd w).2).2) := by
    rw [hok (invoke cd fd w).2 x h1, hx]
  have hs2 : stateFunc (invoke cg fg (invoke cd fd w).2).2
      = (.ok "deleted", (invoke cg fg (invoke cg fg (invoke cd fd w).2).2).2) :=
    hnf _ h2
  rw [waitForState_deleting_then_deleted polls stateFunc _ _ _ hp hs1 hs2]
  refine ⟨rfl, issued_eq_of_trace ?_⟩
  simp [invoke]

theorem waitForState_error_of_fetch {σ : Type} (polls : Nat)
    (stateFunc : World σ → Except Error String × World σ) (requiredState : String)
    (w : World σ) (err : Error) (hp : 0 < polls) (h : (stateFunc w).1 = .error err) :
    (waitForState polls stateFunc requiredState w).1 = some err := by
  obtain ⟨n, rfl⟩ : ∃ n, polls = n + 1 := ⟨polls - 1, by omega⟩
  rw [waitForState_error_first n stateFunc requiredState w (stateFunc w).2 err
    (Prod.ext h rfl)]

theorem invoke_ok_eq {σ α : Type} (c : Call) (f : σ → Except Error α × σ) (w : World σ)
    (x : α) (h : (f w.st).1 = .ok x) : invoke c f w = (.ok x, (invoke c f w).2) := by
  unfold invoke
  simp only [h]

/-- An update followed by its poll: when the update call succeeds and the first fetch of
the poll fails, the operation returns the error of the fetch. -/
theorem update_then_fetch_error {σ : Type} (polls : Nat)
    (stateFunc : World σ → Except Error String × World σ) (requiredState : String)
    (cu : Call) (fu : σ → Option Error × σ) (w : World σ) (e : Error)
    (hp : 0 < polls) (hu : (fu w.st).1 = none)
    (hs : (stateFunc (invoke cu fu w).2).1 = .error e) :
    (match invoke cu fu w with
      | (some err, w1) => (some err, w1)
      | (none, w1) => waitForState polls stateFunc requiredState w1).1 = some e := by
  have hi : invoke cu fu w = (none, (invoke cu fu w).2) := by
    unfold invoke
    simp only [hu]
  rw [hi]
  exact waitForState_error_of_fetch polls _ _ _ e hp hs

theorem addForwardingRule_stateFunc_error {σ : Type} (l : loadbalancers σ)
    (lbID frID : String) (w : World σ) (err : Error)
    (h : (l.client.GetForwardingRule lbID frID w.st).1 = .error err) :
    (addForwardingRule_stateFunc l lbID frID w).1 = .error err := by
  unfold addForwardingRule_stateFunc invoke
  simp [h]

theorem healthCheckState_error {σ : Type} (l : loadbalancers σ)
    (lbID hcID : String) (w : World σ) (err : Error)
    (h : (l.client.GetHealthCheck lbID hcID w.st).1 = .error err) :
    (healthCheckState l lbID hcID w).1 = .error err := by
  unfold healthCheckState invoke
  simp [h]

theorem updateLoadBalancerInfo_stateFunc_error {σ : Type} (l : loadbalancers σ)
    (lbID : String) (w : World σ) (err : Error)
    (h : (l.client.Get lbID w.st).1 = .error err) :
    (updateLoadBalancerInfo_stateFunc l lbID w).1 = .error err := by
  unfold updateLoadBalancerInfo_stateFunc invoke
  simp [h]

/-- The polls of the create and update paths: a not-found `Get` in the first fetch is
returned as the error of the operation. -/
theorem create_update_not_found {σ : Type} (l : loadbalancers σ) (lbID : String)
    (lb : LoadBalancer) (port : ServicePort) (service : Service) (w : World σ)
    (hp : 0 < l.rt.polls) :
    (∀ fr, (l.client.CreateForwardingRule lbID (lbForwardingRuleCreateRequest l.rt port)
          w.st).1 = .ok fr →
        (l.client.GetForwardingRule lbID fr.ID
          (l.client.CreateForwardingRule lbID (lbForwardingRuleCreateRequest l.rt port)
            w.st).2).1 = .error Error.ErrResourceNotFound →
        (addForwardingRule l lbID port w).1 = some Error.ErrResourceNotFound)
    ∧ (∀ hc healthCheck, loadBalancerHealthCheckRequest service = .ok hc →
        lb.HealthChecks = [] →
        (l.client.CreateHealthCheck lb.ID hc w.st).1 = .ok healthCheck →
        (l.client.GetHealthCheck lb.ID healthCheck.ID
          (l.client.CreateHealthCheck lb.ID hc w.st).2).1
          = .error Error.ErrResourceNotFound →
        (updateHealthChecks l service lb w).1 = some Error.ErrResourceNotFound)
    ∧ (∀ hc origHC tl, loadBalancerHealthCheckRequest service = .ok hc →
        lb.HealthChecks = origHC :: tl → healthCheckDiffers origHC hc = true →
        (l.client.UpdateHealthCheck lb.ID origHC.ID (healthCheckUpdateRequest hc) w.st).1
          = none →
        (l.client.GetHealthCheck lb.ID origHC.ID
          (l.client.UpdateHealthCheck lb.ID origHC.ID (healthCheckUpdateRequest hc)
            w.st).2).1 = .error Error.ErrResourceNotFound →
        (updateHealthChecks l service lb w).1 = some Error.ErrResourceNotFound)
    ∧ ((loadBalancerName l.rt service ≠ lb.Name
          ∨ loadBalancerBalancingAlgorithm service ≠ lb.BalancingAlgorithm) →
        (l.client.Update lb.ID (loadBalancerUpdateRequest l.rt service lb) w.st).1 = none →
        (l.client.Get lb.ID
          (l.client.Update lb.ID (loadBalancerUpdateRequest l.rt service lb) w.st).2).1
          = .error Error.ErrResourceNotFound →
        (updateLoadBalancerInfo l service lb w).1 = some Error.ErrResourceNotFound) := by
  refine ⟨?_, ?_, ?_, ?_⟩
  · intro fr hc hg
    unfold addForwardingRule
    rw [invoke_ok_eq _ _ w fr hc]
    exact waitForState_error_of_fetch l.rt.polls _ _ _ _ hp
      (addForwardingRule_stateFunc_error l lbID fr.ID _ _ hg)
  · intro hc healthCheck hreq hlb hcr hg
    unfold updateHealthChecks
    rw [hreq]
    simp only [hlb]
    rw [invoke_ok_eq _ _ w healthCheck hcr]
    exact waitForState_error_of_fetch l.rt.polls _ _ _ _ hp
      (healthCheckState_error l lb.ID healthCheck.ID _ _ hg)
  · intro hc origHC tl hreq hlb hdiff hu hg
    unfold updateHealthChecks
    rw [hreq]
    simp only [hlb, hdiff, if_true]
    exact update_then_fetch_error l.rt.polls (healthCheckState l lb.ID origHC.ID)
      "active" _ _ w _ hp hu (healthCheckState_error l lb.ID origHC.ID _ _ hg)
  · intro hdiff hu hg
    have hupd : (decide (loadBalancerName l.rt service ≠ lb.Name)
        || decide (loadBalancerBalancingAlgorithm service ≠ lb.BalancingAlgorithm)) = true := by
      rcases hdiff with h | h <;> simp [h]
    unfold updateLoadBalancerInfo
    simp only [hupd, Bool.true_eq_false, if_false]
    exact update_then_fetch_error l.rt.polls (updateLoadBalancerInfo_stateFunc l lb.ID)
      "active" _ _ w _ hp hu (updateLoadBalancerInfo_stateFunc_error l lb.ID _ _ hg)

/-- C21: `removeForwardingRule`, `deleteHealthChecks` and `removeBackendNode` poll for
"deleted" with a state-fetch function that maps a not-found `Get` to the state
"deleted" and returns any other `Get` error unchanged; so, with the convergence poller,
when the delete call succeeds, the first `Get` reports the state "deleting" and the
second reports not-found, the operation succeeds after exactly two `Get` calls. In the
create and update paths (`addForwardingRule`, `updateHealthChecks`,
`updateLoadBalancerInfo`) a not-found `Get` of the poll is no match: the operation
returns it as its error. -/
theorem not_found_is_deleted {σ : Type} (l : loadbalancers σ) (lbID id : String)
    (lb : LoadBalancer) (port : ServicePort) (service : Service) (w : World σ) :
    (removeForwardingRule l lbID id w
      = match invoke (Call.DeleteForwardingRule lbID id)
          (l.client.DeleteForwardingRule lbID id) w with
        | (some err, w1) => (some err, w1)
        | (none, w1) =>
          waitForState l.rt.polls (removeForwardingRule_stateFunc l lbID id) "deleted" w1)
    ∧ (∀ origHC tl, lb.HealthChecks = origHC :: tl →
        deleteHealthChecks l lb w
          = match invoke (Call.DeleteHealthCheck lb.ID origHC.ID)
              (l.client.DeleteHealthCheck lb.ID origHC.ID) w with
            | (some err, w1) => (some err, w1)
            | (none, w1) =>
              waitForState l.rt.polls (deleteHealthChecks_stateFunc l lb.ID origHC.ID)
                "deleted" w1)
    ∧ (removeBackendNode l lbID id w
      = match invoke (Call.DeleteBackendNode lbID id)
          (l.client.DeleteBackendNode lbID id) w with
        | (some err, w1) => (some err, w1)
        | (none, w1) =>
          waitForState l.rt.polls (removeBackendNode_stateFunc l lbID id) "deleted" w1)
    ∧ (∀ w1 : World σ,
        ((l.client.GetForwardingRule lbID id w1.st).1 = .error Error.ErrResourceNotFound →
          (removeForwardingRule_stateFunc l lbID id w1).1 = .ok "deleted")
        ∧ ((l.client.GetHealthCheck lbID id w1.st).1 = .error Error.ErrResourceNotFound →
          (deleteHealthChecks_stateFunc l lbID id w1).1 = .ok "deleted")
        ∧ ((l.client.GetBackendNode lbID id w1.st).1 = .error Error.ErrResourceNotFound →
          (removeBackendNode_stateFunc l lbID id w1).1 = .ok "deleted"))
    ∧ (∀ (w1 : World σ) (err : Error), err ≠ Error.ErrResourceNotFound →
        ((l.client.GetForwardingRule lbID id w1.st).1 = .error err →
          (removeForwardingRule_stateFunc l lbID id w1).1 = .error err)
        ∧ ((l.client.GetHealthCheck lbID id w1.st).1 = .error err →
          (deleteHealthChecks_stateFunc l lbID id w1).1 = .error err)
        ∧ ((l.client.GetBackendNode lbID id w1.st).1 = .error err →
          (removeBackendNode_stateFunc l lbID id w1).1 = .error err))
    ∧ (2 ≤ l.rt.polls →
        (∀ fr, (l.client.DeleteForwardingRule lbID id w.st).1 = none →
          (l.client.GetForwardingRule lbID id
            (l.client.DeleteForwardingRule lbID id w.st).2).1 = .ok fr →
          fr.State = "deleting" →
          (l.client.GetForwardingRule lbID id
            (l.client.GetForwardingRule lbID id
              (l.client.DeleteForwardingRule lbID id w.st).2).2).1
            = .error Error.ErrResourceNotFound →
          (removeForwardingRule l lbID id w).1 = none
          ∧ issued w (removeForwardingRule l lbID id w).2
            = [Call.DeleteForwardingRule lbID id, Call.GetForwardingRule lbID id,
               Call.GetForwardingRule lbID id])
        ∧ (∀ origHC tl hc, lb.HealthChecks = origHC :: tl →
          (l.client.DeleteHealthCheck lb.ID origHC.ID w.st).1 = none →
          (l.client.GetHealthCheck lb.ID origHC.ID
            (l.client.DeleteHealthCheck lb.ID origHC.ID w.st).2).1 = .ok hc →
          hc.State = "deleting" →
          (l.client.GetHealthCheck lb.ID origHC.ID
            (l.client.GetHealthCheck lb.ID origHC.ID
              (l.client.DeleteHealthCheck lb.ID origHC.ID w.st).2).2).1
            = .error Error.ErrResourceNotFound →
          (deleteHealthChecks l lb w).1 = none
          ∧ issued w (deleteHealthChecks l lb w).2
            = [Call.DeleteHealthCheck lb.ID origHC.ID, Call.GetHealthCheck lb.ID origHC.ID,
               Call.GetHealthCheck lb.ID origHC.ID])
        ∧ (∀ bn, (l.client.DeleteBackendNode lbID id w.st).1 = none →
          (l.client.GetBackendNode lbID id
            (l.client.DeleteBackendNode lbID id w.st).2).1 = .ok bn →
          bn.State = "deleting" →
          (l.client.GetBackendNode lbID id
            (l.client.GetBackendNode lbID id
              (l.client.DeleteBackendNode lbID id w.st).2).2).1
            = .error Error.ErrResourceNotFound →
          (removeBackendNode l lbID id w).1 = none
          ∧ issued w (removeBackendNode l lbID id w).2
            = [Call.DeleteBackendNode lbID id, Call.GetBackendNode lbID id,
               Call.GetBackendNode lbID id]))
    ∧ (0 < l.rt.polls →
        (∀ fr, (l.client.CreateForwardingRule lbID (lbForwardingRuleCreateRequest l.rt port)
              w.st).1 = .ok fr →
            (l.client.GetForwardingRule lbID fr.ID
              (l.client.CreateForwardingRule lbID (lbForwardingRuleCreateRequest l.rt port)
                w.st).2).1 = .error Error.ErrResourceNotFound →
            (addForwardingRule l lbID port w).1 = some Error.ErrResourceNotFound)
        ∧ (∀ hc healthCheck, loadBalancerHealthCheckRequest service = .ok hc →
            lb.HealthChecks = [] →
            (l.client.CreateHealthCheck lb.ID hc w.st).1 = .ok healthCheck →
            (l.client.GetHealthCheck lb.ID healthCheck.ID
              (l.client.CreateHealthCheck lb.ID hc w.st).2).1
              = .error Error.ErrResourceNotFound →
            (updateHealthChecks l service lb w).1 = some Error.ErrResourceNotFound)
        ∧ (∀ hc origHC tl, loadBalancerHealthCheckRequest service = .ok hc →
            lb.HealthChecks = origHC :: tl → healthCheckDiffers origHC hc = true →
            (l.client.UpdateHealthCheck lb.ID origHC.ID (healthCheckUpdateRequest hc)
              w.st).1 = none →
            (l.client.GetHealthCheck lb.ID origHC.ID
              (l.client.UpdateHealthCheck lb.ID origHC.ID (healthCheckUpdateRequest hc)
                w.st).2).1 = .error Error.ErrResourceNotFound →
            (updateHealthChecks l service lb w).1 = some Error.ErrResourceNotFound)
        ∧ ((loadBalancerName l.rt service ≠ lb.Name
              ∨ loadBalancerBalancingAlgorithm service ≠ lb.BalancingAlgorithm) →
            (l.client.Update lb.ID (loadBalancerUpdateRequest l.rt service lb) w.st).1
              = none →
            (l.client.Get lb.ID
              (l.client.Update lb.ID (loadBalancerUpdateRequest l.rt service lb)
                w.st).2).1 = .error Error.ErrResourceNotFound →
            (updateLoadBalancerInfo l service lb w).1 = some Error.ErrResourceNotFound)) := by
  refine ⟨rfl, ?_, rfl, ?_, ?_, ?_, fun hp => create_update_not_found l lbID lb port service w hp⟩
  · intro origHC tl hlb
    unfold deleteHealthChecks
    simp only [hlb]
    rfl
  · intro w1
    refine ⟨fun h => ?_, fun h => ?_, fun h => ?_⟩
    · rw [(removeForwardingRule_stateFunc_spec l lbID id w1).1 h]
    · rw [(deleteHealthChecks_stateFunc_spec l lbID id w1).1 h]
    · rw [(removeBackendNode_stateFunc_spec l lbID id w1).1 h]
  · intro w1 err hne
    refine ⟨fun h => ?_, fun h => ?_, fun h => ?_⟩
    · rw [(removeForwardingRule_stateFunc_spec l lbID id w1).2.1 err h hne]
    · rw [(deleteHealthChecks_stateFunc_spec l lbID id w1).2.1 err h hne]
    · rw [(removeBackendNode_stateFunc_spec l lbID id w1).2.1 err h hne]
  · intro hp
    refine ⟨?_, ?_, ?_⟩
    · intro fr hd h1 hx h2
      exact delete_then_two_fetches l.rt.polls (removeForwardingRule_stateFunc l lbID id)
        (Call.DeleteForwardingRule lbID id) (Call.GetForwardingRule lbID id) _ _
        LBForwardingRule.State w fr
        (fun w1 y h => (removeForwardingRule_stateFunc_spec l lbID id w1).2.2 y h)
        (fun w1 h => (removeForwardingRule_stateFunc_spec l lbID id w1).1 h) hp hd h1 hx h2
    · intro origHC tl hc hlb hd h1 hx h2
      unfold deleteHealthChecks
      simp only [hlb]
      exact delete_then_two_fetches l.rt.polls
        (deleteHealthChecks_stateFunc l lb.ID origHC.ID)
        (Call.DeleteHealthCheck lb.ID origHC.ID) (Call.GetHealthCheck lb.ID origHC.ID) _ _
        LBHealthCheck.State w hc
        (fun w1 y h => (deleteHealthChecks_stateFunc_spec l lb.ID origHC.ID w1).2.2 y h)
        (fun w1 h => (deleteHealthChecks_stateFunc_spec l lb.ID origHC.ID w1).1 h)
        hp hd h1 hx h2
    · intro bn hd h1 hx h2
      exact delete_then_two_fetches l.rt.polls (removeBackendNode_stateFunc l lbID id)
        (Call.DeleteBackendNode lbID id) (Call.GetBackendNode lbID id) _ _
        LBBackendNode.State w bn
        (fun w1 y h => (removeBackendNode_stateFunc_spec l lbID id w1).2.2 y h)
        (fun w1 h => (removeBackendNode_stateFunc_spec l lbID id w1).1 h) hp hd h1 hx h2

/-- Witness of C21: the deletion of `TestLoadBalancers_DisableHC`: the delete succeeds,
the first `GetHealthCheck` reports "deleting", the second the not-found error, and
`deleteHealthChecks` returns nil after these three calls. -/
theorem not_found_is_deleted_witness :
    (deleteHealthChecks testLoadbalancersDeletingThenGone testLBGetResponse
        { st := 0, trace := [] }).1 = none
    ∧ issued { st := 0, trace := [] }
        (deleteHealthChecks testLoadbalancersDeletingThenGone testLBGetResponse
          { st := 0, trace := [] }).2
      = [Call.DeleteHealthCheck "test-lb-id" "", Call.GetHealthCheck "test-lb-id" "",
         Call.GetHealthCheck "test-lb-id" ""] :=
  ((not_found_is_deleted testLoadbalancersDeletingThenGone "test-lb-id" ""
      testLBGetResponse { Name := "test-port", Protocol := "tcp", Port := 80, NodePort := 30000 }
      (testService testAnnotaions testPorts) { st := 0, trace := [] }).2.2.2.2.2.1
    (by decide)).2.1 _ _ _ rfl rfl rfl rfl rfl

/-! ## Repeated nodes and repeated ports -/

/-- The loop over the nodes, repeated nodes allowed: what it leaves of `bnsToDelete` are
entries of the map it started from, and none of them has the instance ID of a node as
its key. -/
theorem updateBackendNodes_nodes_left :
    ∀ (nodes : List Node) (bnsToAdd : List String) (m : GoMap String LBBackendNode)
      (r : List String × GoMap String LBBackendNode),
      updateBackendNodes_nodes nodes bnsToAdd m = .ok r →
      (∀ e ∈ r.2, e ∈ m)
      ∧ ∀ node ∈ nodes, ∀ id, instanceIDByProviderID node.ProviderID = .ok id →
          ∀ e ∈ r.2, e.1 ≠ id := by
  intro nodes
  induction nodes with
  | nil =>
    intro bnsToAdd m r h
    unfold updateBackendNodes_nodes at h
    injection h with h
    subst h
    exact ⟨fun e he => he, fun node hn => absurd hn (List.not_mem_nil _)⟩
  | cons n rest ih =>
    intro bnsToAdd m r h
    unfold updateBackendNodes_nodes at h
    cases hp : instanceIDByProviderID n.ProviderID with
    | error err => rw [hp] at h; cases h
    | ok id0 =>
      rw [hp] at h
      simp only at h
      cases hg : mapGet m id0 with
      | none =>
        rw [hg] at h
        simp only at h
        obtain ⟨h1, h2⟩ := ih _ _ _ h
        refine ⟨h1, ?_⟩
        intro node hn id hid e he
        rcases List.mem_cons.1 hn with hn | hn
        · subst hn
          rw [hp] at hid
          injection hid with hid
          subst hid
          exact (mapGet_eq_none_iff m id0).1 hg e (h1 e he)
        · exact h2 node hn id hid e he
      | some bn =>
        rw [hg] at h
        simp only at h
        obtain ⟨h1, h2⟩ := ih _ _ _ h
        refine ⟨fun e he => (mem_mapDelete.1 (h1 e he)).1, ?_⟩
        intro node hn id hid e he
        rcases List.mem_cons.1 hn with hn | hn
        · subst hn
          rw [hp] at hid
          injection hid with hid
          subst hid
          exact (mem_mapDelete.1 (h1 e he)).2
        · exact h2 node hn id hid e he

theorem updateBackendNodes_stale_targets {σ : Type} (l : loadbalancers σ) (lbID : String) :
    ∀ (es : List (String × LBBackendNode)) (w : World σ),
      Extends (fun c => ∀ bnID, c = Call.DeleteBackendNode lbID bnID → ∃ e ∈ es, e.2.ID = bnID)
        w (updateBackendNodes_stale l lbID es w).2 := by
  intro es
  induction es with
  | nil => intro w; exact Extends.refl _ w
  | cons e rest ih =>
    intro w
    unfold updateBackendNodes_stale
    have h : Extends (fun c => ∀ bnID, c = Call.DeleteBackendNode lbID bnID →
        ∃ e1 ∈ e :: rest, e1.2.ID = bnID) w (removeBackendNode l lbID e.2.ID w).2 := by
      refine extends_of_calls (removeBackendNode_calls l lbID e.2.ID w) ?_ ?_
      · intro bnID hc
        injection hc with _ hc
        exact ⟨e, List.mem_cons_self _ _, hc⟩
      · intro x hx bnID hc
        rw [hx] at hc
        cases hc
    revert h
    rcases removeBackendNode l lbID e.2.ID w with ⟨r, w1⟩
    intro h
    cases r with
    | some err => exact h
    | none =>
      refine h.trans ((ih w1).mono ?_)
      intro c hc bnID hcb
      obtain ⟨e1, he1, hid⟩ := hc bnID hcb
      exact ⟨e1, List.mem_cons_of_mem _ he1, hid⟩

/-- The part of C26 that holds, repeated nodes allowed: every `DeleteBackendNode` call
of `updateBackendNodes` is for the ID of an existing backend node whose CloudServerID
is the instance ID of no node of the list. -/
theorem updateBackendNodes_deletes_undesired {σ : Type} (l : loadbalancers σ)
    (nodes : List Node) (lb : LoadBalancer) (w : World σ) (bnID : String)
    (h : Call.DeleteBackendNode lb.ID bnID ∈ issued w (updateBackendNodes l nodes lb w).2) :
    ∃ bn ∈ lb.BackendNodes, bn.ID = bnID
      ∧ ∀ node ∈ nodes, instanceIDByProviderID node.ProviderID ≠ .ok bn.CloudServerID := by
  unfold updateBackendNodes at h
  cases hn : updateBackendNodes_nodes nodes [] (backendNodesByServer lb.BackendNodes) with
  | error err =>
    rw [hn] at h
    simp [issued_self] at h
  | ok r =>
    obtain ⟨bnsToAdd, bnsToDelete⟩ := r
    rw [hn] at h
    simp only at h
    obtain ⟨hsub, hkeys⟩ := updateBackendNodes_nodes_left nodes [] _ _ hn
    have hadd : Extends (fun c => ∀ bnID, c = Call.DeleteBackendNode lb.ID bnID →
        ∃ e ∈ l.rt.rangeBackendNodes bnsToDelete, e.2.ID = bnID) w
        (if 0 < bnsToAdd.length then addBackendNodes l lb.ID bnsToAdd w else (none, w)).2 := by
      split
      · refine extends_of_calls (addBackendNodes_calls l lb.ID bnsToAdd w) ?_ ?_
        · intro bnID hc; cases hc
        · intro x hx bnID hc
          rw [hx] at hc
          cases hc
      · exact Extends.refl _ w
    have hall : Extends (fun c => ∀ bnID, c = Call.DeleteBackendNode lb.ID bnID →
        ∃ e ∈ l.rt.rangeBackendNodes bnsToDelete, e.2.ID = bnID) w
        (match (if 0 < bnsToAdd.length then addBackendNodes l lb.ID bnsToAdd w
            else (none, w)) with
          | (some err, w1) => (some err, w1)
          | (none, w1) =>
            updateBackendNodes_stale l lb.ID (l.rt.rangeBackendNodes bnsToDelete) w1).2 := by
      revert hadd
      rcases (if 0 < bnsToAdd.length then addBackendNodes l lb.ID bnsToAdd w else (none, w))
        with ⟨r, w1⟩
      intro hadd
      cases r with
      | some err => exact hadd
      | none => exact hadd.trans (updateBackendNodes_stale_targets l lb.ID _ w1)
    obtain ⟨e, he, hid⟩ := hall.forall_issued _ h bnID rfl
    have hem : e ∈ bnsToDelete := (l.rt.rangeBackendNodes_perm bnsToDelete).mem_iff.1 he
    have hkey := byKey_mem LBBackendNode.CloudServerID lb.BackendNodes e (hsub e hem)
    refine ⟨e.2, hkey.1, hid, ?_⟩
    intro node hnode hp
    exact hkeys node hnode _ hp e hem hkey.2

theorem updateBackendNodes_deletes_undesired_witness :
    ∃ bn ∈ testLBGetResponse.BackendNodes, bn.ID = "test-id-2"
      ∧ ∀ node ∈ [({ ProviderID := "advancedhosting://test-cloud-server-1" } : Node)],
          instanceIDByProviderID node.ProviderID ≠ .ok bn.CloudServerID :=
  updateBackendNodes_deletes_undesired
    (testLoadbalancers (.ok testLBGetResponse) (.error (Error.New "unused")))
    [{ ProviderID := "advancedhosting://test-cloud-server-1" }] testLBGetResponse testWorld
    "test-id-2" (by decide)

/-- C27, the code at the failing input: the service exposes port 80 for TCP and for UDP,
and the load balancer has a rule for each that matches its mapping in all four fields.
The map `frsToDelete` is keyed by the request port alone, so it keeps one rule of port
80, the UDP one; at the TCP port `updateForwardingRules` finds it, sees it differ,
deletes it and issues `CreateForwardingRule` for the TCP mapping, which the existing TCP
rule matches exactly; at the UDP port it finds no entry and creates that rule too. -/
theorem updateForwardingRules_repeated_port_recreated :
    LBForwardingRule.mapping
        { ID := "fr-tcp", RequestProtocol := "tcp", RequestPort := 80,
          CommunicationProtocol := "tcp", CommunicationPort := 30000, State := "active" }
      = lbForwardingRuleCreateRequest testRuntime
          { Name := "web-tcp", Protocol := "TCP", Port := 80, NodePort := 30000 }
    ∧ issued testWorld (updateForwardingRules
        (testLoadbalancers (.ok testLBGetResponse) (.error (Error.New "unused")))
        (testService testAnnotaions
          [ { Name := "web-tcp", Protocol := "TCP", Port := 80, NodePort := 30000 },
            { Name := "web-udp", Protocol := "UDP", Port := 80, NodePort := 30000 } ])
        { testLBGetResponse with ForwardingRules :=
          [ { ID := "fr-tcp", RequestProtocol := "tcp", RequestPort := 80,
              CommunicationProtocol := "tcp", CommunicationPort := 30000,
              State := "active" },
            { ID := "fr-udp", RequestProtocol := "udp", RequestPort := 80,
              CommunicationProtocol := "udp", CommunicationPort := 30000,
              State := "active" } ] }
        testWorld).2
      = [ Call.DeleteForwardingRule "test-lb-id" "fr-udp",
          Call.GetForwardingRule "test-lb-id" "fr-udp",
          Call.CreateForwardingRule "test-lb-id"
            { RequestProtocol := "tcp", RequestPort := 80,
              CommunicationProtocol := "tcp", CommunicationPort := 30000 },
          Call.GetForwardingRule "test-lb-id" "test-new-id",
          Call.CreateForwardingRule "test-lb-id"
            { RequestProtocol := "udp", RequestPort := 80,
              CommunicationProtocol := "udp", CommunicationPort := 30000 },
          Call.GetForwardingRule "test-lb-id" "test-new-id" ] := by
  decide

/-! ## The service object after `EnsureLoadBalancer` -/

theorem EnsureLoadBalancer_not_found_service {σ : Type} (l : loadbalancers σ)
    (service : Service) (nodes : List Node) (w : World σ)
    (hloc : (loadBalancerByID l (loadBalancerID service) w).1
      = .error Error.ErrResourceNotFound) :
    (EnsureLoadBalancer l service nodes w).2.1
      = (createLoadBalancer l service nodes
          (loadBalancerByID l (loadBalancerID service) w).2).2.1 := by
  rw [EnsureLoadBalancer_of_not_found l service nodes w hloc]
  rcases createLoadBalancer l service nodes (loadBalancerByID l (loadBalancerID service) w).2
    with ⟨r, service1, w2⟩
  cases r with
  | error err => rfl
  | ok lb => exact EnsureLoadBalancer_gate_service l service1 nodes lb w2

/-- The service object `EnsureLoadBalancer` leaves: the one it was given, except on the
create path after a successful `Create`, where the identifier of the created load
balancer has been stored in its annotations. -/
theorem EnsureLoadBalancer_service {σ : Type} (l : loadbalancers σ) (service : Service)
    (nodes : List Node) (w : World σ) :
    (∀ lb, (loadBalancerByID l (loadBalancerID service) w).1 = .ok lb →
      (EnsureLoadBalancer l service nodes w).2.1 = service)
    ∧ (∀ err, (loadBalancerByID l (loadBalancerID service) w).1 = .error err →
        err ≠ Error.ErrResourceNotFound →
        (EnsureLoadBalancer l service nodes w).2.1 = service)
    ∧ ((loadBalancerByID l (loadBalancerID service) w).1
          = .error Error.ErrResourceNotFound →
        (∀ err, makeLoadBalancerCreateRequest l service nodes = .error err →
          (EnsureLoadBalancer l service nodes w).2.1 = service)
        ∧ ∀ request, makeLoadBalancerCreateRequest l service nodes = .ok request →
          (∀ err, (l.client.Create request
              (loadBalancerByID l (loadBalancerID service) w).2.st).1 = .error err →
            (EnsureLoadBalancer l service nodes w).2.1 = service)
          ∧ (∀ lb, (l.client.Create request
              (loadBalancerByID l (loadBalancerID service) w).2.st).1 = .ok lb →
            (EnsureLoadBalancer l service nodes w).2.1
              = annotateService service ServiceAnnotationLoadBalancerID lb.ID)) := by
  refine ⟨?_, ?_, ?_⟩
  · intro lb hloc
    rw [EnsureLoadBalancer_of_located l service nodes w lb hloc]
    exact EnsureLoadBalancer_gate_service l service nodes lb _
  · intro err hloc hne
    unfold EnsureLoadBalancer
    rcases hl : loadBalancerByID l (loadBalancerID service) w with ⟨r, w1⟩
    rw [hl] at hloc
    simp only at hloc
    subst hloc
    simp [hne]
  · intro hloc
    rw [EnsureLoadBalancer_not_found_service l service nodes w hloc]
    refine ⟨?_, ?_⟩
    · intro err hreq
      unfold createLoadBalancer
      rw [hreq]
    · intro request hreq
      have hs := createLoadBalancer_spec l service nodes
        (loadBalancerByID l (loadBalancerID service) w).2 request hreq
      exact ⟨fun err hc => (hs.1 err hc).2.1, fun lb hc => (hs.2 lb hc).1⟩

/-- C23, the code at the failing input: the service has no load-balancer-id annotation,
`Get` is not issued, `Create` returns the load balancer "test-lb-id", and after
`EnsureLoadBalancer` the service object carries the annotation load-balancer-id with
that identifier: its annotations are not the ones it had before the call. -/
theorem EnsureLoadBalancer_annotates_service :
    mapGet (testService (mapDelete testAnnotaions ServiceAnnotationLoadBalancerID)
        testPorts).Annotations ServiceAnnotationLoadBalancerID = none
    ∧ mapGet (EnsureLoadBalancer
        (testLoadbalancers (.error Error.ErrResourceNotFound) (.ok testLBGetResponse))
        (testService (mapDelete testAnnotaions ServiceAnnotationLoadBalancerID) testPorts)
        testNodes testWorld).2.1.Annotations ServiceAnnotationLoadBalancerID
      = some "test-lb-id"
    ∧ (EnsureLoadBalancer
        (testLoadbalancers (.error Error.ErrResourceNotFound) (.ok testLBGetResponse))
        (testService (mapDelete testAnnotaions ServiceAnnotationLoadBalancerID) testPorts)
        testNodes testWorld).2.1.Annotations
      ≠ (testService (mapDelete testAnnotaions ServiceAnnotationLoadBalancerID)
          testPorts).Annotations := by
  decide

/-! ## The errors of the remote calls and the error returned -/

theorem Propagates.unchanged {σ : Type} (log : σ → List Error) (r : Option Error) (w : World σ) :
    Propagates log r w w :=
  ⟨[], by simp, fun e he => absurd he (List.not_mem_nil e)⟩

theorem Propagates.seq {σ : Type} {log : σ → List Error} {r : Option Error}
    {w w1 w2 : World σ} (h1 : Propagates log none w w1) (h2 : Propagates log r w1 w2) :
    Propagates log r w w2 := by
  obtain ⟨e1, hl1, hp1⟩ := h1
  obtain ⟨e2, hl2, hp2⟩ := h2
  refine ⟨e1 ++ e2, by rw [hl2, hl1, List.append_assoc], ?_⟩
  intro e he hne
  rcases List.mem_append.1 he with h | h
  · exact absurd (hp1 e h hne) (by simp)
  · exact hp2 e h hne

/-- A step whose errors were all the not-found condition. -/
theorem Propagates.of_not_found {σ : Type} {log : σ → List Error} {w w1 : World σ}
    (h : Propagates log (some Error.ErrResourceNotFound) w w1) (r : Option Error) :
    Propagates log r w w1 := by
  obtain ⟨errs, hl, hp⟩ := h
  refine ⟨errs, hl, ?_⟩
  intro e he hne
  have := hp e he hne
  injection this with this
  exact absurd this.symm hne

theorem invoke_propagates_except {σ α : Type} {log : σ → List Error}
    {f : σ → Except Error α × σ} (hf : RecordsExcept log f) (c : Call) (w : World σ) :
    Propagates log (errorOf (invoke c f w).1) w (invoke c f w).2 := by
  refine ⟨failureOf (f w.st).1, hf w.st, ?_⟩
  intro e he _
  unfold invoke
  simp only
  cases hr : (f w.st).1 with
  | error err =>
    rw [hr] at he
    simp only [failureOf, List.mem_singleton] at he
    rw [he]
    rfl
  | ok x =>
    rw [hr] at he
    simp [failureOf] at he

theorem invoke_propagates_option {σ : Type} {log : σ → List Error}
    {f : σ → Option Error × σ} (hf : RecordsOption log f) (c : Call) (w : World σ) :
    Propagates log (invoke c f w).1 w (invoke c f w).2 := by
  refine ⟨(f w.st).1.toList, hf w.st, ?_⟩
  intro e he _
  unfold invoke
  simp only
  cases hr : (f w.st).1 with
  | none =>
    rw [hr] at he
    simp at he
  | some err =>
    rw [hr] at he
    simp only [Option.toList, List.mem_singleton] at he
    rw [he]

theorem waitForState_propagates {σ : Type} {log : σ → List Error}
    (stateFunc : World σ → Except Error String × World σ) (requiredState : String)
    (hsf : ∀ w, Propagates log (errorOf (stateFunc w).1) w (stateFunc w).2) :
    ∀ (polls : Nat) (w : World σ),
      Propagates log (waitForState polls stateFunc requiredState w).1 w
        (waitForState polls stateFunc requiredState w).2 := by
  intro polls
  induction polls with
  | zero => intro w; exact Propagates.unchanged log _ w
  | succ n ih =>
    intro w
    unfold waitForState
    have h := hsf w
    revert h
    rcases stateFunc w with ⟨r, w1⟩
    intro h
    cases r with
    | error err => exact h
    | ok state =>
      simp only
      split
      · exact h
      · exact Propagates.seq h (ih w1)

theorem updateLoadBalancerInfo_propagates {σ : Type} (l : loadbalancers σ)
    (log : σ → List Error) (hrec : Records l.client log) (service : Service)
    (lb : LoadBalancer) (w : World σ) :
    Propagates log (updateLoadBalancerInfo l service lb w).1 w
      (updateLoadBalancerInfo l service lb w).2 := by
  unfold updateLoadBalancerInfo
  simp only
  split
  · exact Propagates.unchanged log _ w
  · have h := invoke_propagates_option (hrec.Update lb.ID
      { Name := if loadBalancerName l.rt service ≠ lb.Name then loadBalancerName l.rt service
          else ""
        BalancingAlgorithm :=
          if loadBalancerBalancingAlgorithm service ≠ lb.BalancingAlgorithm then
            loadBalancerBalancingAlgorithm service
          else "" })
      (Call.Update lb.ID
        { Name := if loadBalancerName l.rt service ≠ lb.Name then
            loadBalancerName l.rt service else ""
          BalancingAlgorithm :=
            if loadBalancerBalancingAlgorithm service ≠ lb.BalancingAlgorithm then
              loadBalancerBalancingAlgorithm service
            else "" }) w
    revert h
    rcases invoke _ _ w with ⟨r, w1⟩
    intro h
    cases r with
    | some err => exact h
    | none =>
      refine Propagates.seq h (waitForState_propagates _ _ (fun w2 => ?_) _ w1)
      have h2 := invoke_propagates_except (hrec.Get lb.ID) (Call.Get lb.ID) w2
      revert h2
      rcases invoke (Call.Get lb.ID) (l.client.Get lb.ID) w2 with ⟨r2, w3⟩
      intro h2
      cases r2 with
      | error err => exact h2
      | ok x => exact h2

theorem addForwardingRule_propagates {σ : Type} (l : loadbalancers σ)
    (log : σ → List Error) (hrec : Records l.client log) (lbID : String)
    (port : ServicePort) (w : World σ) :
    Propagates log (addForwardingRule l lbID port w).1 w
      (addForwardingRule l lbID port w).2 := by
  unfold addForwardingRule
  have h := invoke_propagates_except
    (hrec.CreateForwardingRule lbID (lbForwardingRuleCreateRequest l.rt port))
    (Call.CreateForwardingRule lbID (lbForwardingRuleCreateRequest l.rt port)) w
  revert h
  rcases invoke _ _ w with ⟨r, w1⟩
  intro h
  cases r with
  | error err => exact h
  | ok fr =>
    refine Propagates.seq h (waitForState_propagates _ _ (fun w2 => ?_) _ w1)
    have h2 := invoke_propagates_except (hrec.GetForwardingRule lbID fr.ID) (Call.GetForwardingRule lbID fr.ID) w2
    revert h2
    rcases invoke (Call.GetForwardingRule lbID fr.ID) (l.client.GetForwardingRule lbID fr.ID) w2 with ⟨r2, w3⟩
    intro h2
    cases r2 with
    | error err => exact h2
    | ok x => exact h2

theorem removeForwardingRule_propagates {σ : Type} (l : loadbalancers σ)
    (log : σ → List Error) (hrec : Records l.client log) (lbID frID : String)
    (w : World σ) :
    Propagates log (removeForwardingRule l lbID frID w).1 w
      (removeForwardingRule l lbID frID w).2 := by
  unfold removeForwardingRule
  have h := invoke_propagates_option (hrec.DeleteForwardingRule lbID frID)
    (Call.DeleteForwardingRule lbID frID) w
  revert h
  rcases invoke _ _ w with ⟨r, w1⟩
  intro h
  cases r with
  | some err => exact h
  | none =>
    refine Propagates.seq h (waitForState_propagates _ _ (fun w2 => ?_) _ w1)
    have h2 := invoke_propagates_except (hrec.GetForwardingRule lbID frID) (Call.GetForwardingRule lbID frID) w2
    revert h2
    rcases invoke (Call.GetForwardingRule lbID frID) (l.client.GetForwardingRule lbID frID) w2 with ⟨r2, w3⟩
    intro h2
    cases r2 with
    | error err =>
      by_cases he : err = Error.ErrResourceNotFound
      · subst he
        simp only [if_true]
        exact Propagates.of_not_found h2 _
      · simp only [if_neg he]
        exact h2
    | ok x => exact h2

theorem healthCheckState_propagates {σ : Type} (l : loadbalancers σ)
    (log : σ → List Error) (hrec : Records l.client log) (lbID hcID : String)
    (w : World σ) :
    Propagates log (errorOf (healthCheckState l lbID hcID w).1) w
      (healthCheckState l lbID hcID w).2 := by
  unfold healthCheckState
  have h2 := invoke_propagates_except (hrec.GetHealthCheck lbID hcID)
    (Call.GetHealthCheck lbID hcID) w
  revert h2
  rcases invoke (Call.GetHealthCheck lbID hcID) (l.client.GetHealthCheck lbID hcID) w
    with ⟨r2, w3⟩
  intro h2
  cases r2 with
  | error err => exact h2
  | ok x => exact h2

theorem updateHealthChecks_propagates {σ : Type} (l : loadbalancers σ)
    (log : σ → List Error) (hrec : Records l.client log) (service : Service)
    (lb : LoadBalancer) (w : World σ) :
    Propagates log (updateHealthChecks l service lb w).1 w
      (updateHealthChecks l service lb w).2 := by
  unfold updateHealthChecks
  cases loadBalancerHealthCheckRequest service with
  | error err => exact Propagates.unchanged log _ w
  | ok hc =>
    simp only
    cases lb.HealthChecks with
    | nil =>
      simp only
      have h := invoke_propagates_except (hrec.CreateHealthCheck lb.ID hc)
        (Call.CreateHealthCheck lb.ID hc) w
      revert h
      rcases invoke _ _ w with ⟨r, w1⟩
      intro h
      cases r with
      | error err => exact h
      | ok healthCheck =>
        exact Propagates.seq h (waitForState_propagates _ _
          (healthCheckState_propagates l log hrec lb.ID healthCheck.ID) _ w1)
    | cons origHC tl =>
      simp only
      split
      · have h := invoke_propagates_option
          (hrec.UpdateHealthCheck lb.ID origHC.ID
            { Type_ := hc.Type_, URL := hc.URL, Interval := hc.Interval,
              Timeout := hc.Timeout, UnhealthyThreshold := hc.UnhealthyThreshold,
              HealthyThreshold := hc.HealthyThreshold, Port := hc.Port })
          (Call.UpdateHealthCheck lb.ID origHC.ID
            { Type_ := hc.Type_, URL := hc.URL, Interval := hc.Interval,
              Timeout := hc.Timeout, UnhealthyThreshold := hc.UnhealthyThreshold,
              HealthyThreshold := hc.HealthyThreshold, Port := hc.Port }) w
        revert h
        rcases invoke _ _ w with ⟨r, w1⟩
        intro h
        cases r with
        | some err => exact h
        | none =>
          exact Propagates.seq h (waitForState_propagates _ _
            (healthCheckState_propagates l log hrec lb.ID origHC.ID) _ w1)
      · exact Propagates.unchanged log _ w

theorem deleteHealthChecks_propagates {σ : Type} (l : loadbalancers σ)
    (log : σ → List Error) (hrec : Records l.client log) (lb : LoadBalancer) (w : World σ) :
    Propagates log (deleteHealthChecks l lb w).1 w (deleteHealthChecks l lb w).2 := by
  unfold deleteHealthChecks
  cases lb.HealthChecks with
  | nil => exact Propagates.unchanged log _ w
  | cons origHC tl =>
    simp only
    have h := invoke_propagates_option (hrec.DeleteHealthCheck lb.ID origHC.ID)
      (Call.DeleteHealthCheck lb.ID origHC.ID) w
    revert h
    rcases invoke _ _ w with ⟨r, w1⟩
    intro h
    cases r with
    | some err => exact h
    | none =>
      refine Propagates.seq h (waitForState_propagates _ _ (fun w2 => ?_) _ w1)
      have h2 := invoke_propagates_except (hrec.GetHealthCheck lb.ID origHC.ID) (Call.GetHealthCheck lb.ID origHC.ID) w2
      revert h2
      rcases invoke (Call.GetHealthCheck lb.ID origHC.ID) (l.client.GetHealthCheck lb.ID origHC.ID) w2 with ⟨r2, w3⟩
      intro h2
      cases r2 with
      | error err =>
        by_cases he : err = Error.ErrResourceNotFound
        · subst he
          simp only [if_true]
          exact Propagates.of_not_found h2 _
        · simp only [if_neg he]
          exact h2
      | ok x => exact h2

theorem addBackendNodes_propagates {σ : Type} (l : loadbalancers σ)
    (log : σ → List Error) (hrec : Records l.client log) (lbID : String)
    (bns : List String) (w : World σ) :
    Propagates log (addBackendNodes l lbID bns w).1 w (addBackendNodes l lbID bns w).2 := by
  unfold addBackendNodes
  have h := invoke_propagates_except (hrec.AddBackendNodes lbID bns)
    (Call.AddBackendNodes lbID bns) w
  revert h
  rcases invoke _ _ w with ⟨r, w1⟩
  intro h
  cases r with
  | error err => exact h
  | ok backendNodes =>
    refine Propagates.seq h (waitForState_propagates _ _ (fun w2 => ?_) _ w1)
    have h2 := invoke_propagates_except (hrec.ListBackendNodes lbID)
      (Call.ListBackendNodes lbID) w2
    revert h2
    rcases invoke (Call.ListBackendNodes lbID) (l.client.ListBackendNodes lbID) w2
      with ⟨r2, w3⟩
    intro h2
    cases r2 with
    | error err => exact h2
    | ok bns1 => exact h2

theorem removeBackendNode_propagates {σ : Type} (l : loadbalancers σ)
    (log : σ → List Error) (hrec : Records l.client log) (lbID bnID : String)
    (w : World σ) :
    Propagates log (removeBackendNode l lbID bnID w).1 w
      (removeBackendNode l lbID bnID w).2 := by
  unfold removeBackendNode
  have h := invoke_propagates_option (hrec.DeleteBackendNode lbID bnID)
    (Call.DeleteBackendNode lbID bnID) w
  revert h
  rcases invoke _ _ w with ⟨r, w1⟩
  intro h
  cases r with
  | some err => exact h
  | none =>
    refine Propagates.seq h (waitForState_propagates _ _ (fun w2 => ?_) _ w1)
    have h2 := invoke_propagates_except (hrec.GetBackendNode lbID bnID) (Call.GetBackendNode lbID bnID) w2
    revert h2
    rcases invoke (Call.GetBackendNode lbID bnID) (l.client.GetBackendNode lbID bnID) w2 with ⟨r2, w3⟩
    intro h2
    cases r2 with
    | error err =>
      by_cases he : err = Error.ErrResourceNotFound
      · subst he
        simp only [if_true]
        exact Propagates.of_not_found h2 _
      · simp only [if_neg he]
        exact h2
    | ok x => exact h2

theorem updateForwardingRule_propagates {σ : Type} (l : loadbalancers σ)
    (log : σ → List Error) (hrec : Records l.client log) (port : ServicePort)
    (fr : LBForwardingRule) (lbID : String) (w : World σ) :
    Propagates log (updateForwardingRule l port fr lbID w).1 w
      (updateForwardingRule l port fr lbID w).2 := by
  unfold updateForwardingRule
  split
  · have h := removeForwardingRule_propagates l log hrec lbID fr.ID w
    revert h
    rcases removeForwardingRule l lbID fr.ID w with ⟨r, w1⟩
    intro h
    cases r with
    | some err => exact h
    | none => exact Propagates.seq h (addForwardingRule_propagates l log hrec lbID port w1)
  · exact Propagates.unchanged log _ w

theorem updateForwardingRules_ports_propagates {σ : Type} (l : loadbalancers σ)
    (log : σ → List Error) (hrec : Records l.client log) (lbID : String) :
    ∀ (ports : List ServicePort) (frsToDelete : GoMap Int LBForwardingRule) (w : World σ),
      Propagates log (updateForwardingRules_ports l lbID ports frsToDelete w).1 w
        (updateForwardingRules_ports l lbID ports frsToDelete w).2.2 := by
  intro ports
  induction ports with
  | nil => intro frsToDelete w; exact Propagates.unchanged log _ w
  | cons port rest ih =>
    intro frsToDelete w
    unfold updateForwardingRules_ports
    cases mapGet frsToDelete port.Port with
    | none =>
      simp only
      have h := addForwardingRule_propagates l log hrec lbID port w
      revert h
      rcases addForwardingRule l lbID port w with ⟨r, w1⟩
      intro h
      cases r with
      | some err => exact h
      | none => exact Propagates.seq h (ih frsToDelete w1)
    | some fr =>
      simp only
      have h := updateForwardingRule_propagates l log hrec port fr lbID w
      revert h
      rcases updateForwardingRule l port fr lbID w with ⟨r, w1⟩
      intro h
      cases r with
      | some err => exact h
      | none => exact Propagates.seq h (ih (mapDelete frsToDelete port.Port) w1)

theorem updateForwardingRules_stale_propagates {σ : Type} (l : loadbalancers σ)
    (log : σ → List Error) (hrec : Records l.client log) (lbID : String) :
    ∀ (es : List (Int × LBForwardingRule)) (w : World σ),
      Propagates log (updateForwardingRules_stale l lbID es w).1 w
        (updateForwardingRules_stale l lbID es w).2 := by
  intro es
  induction es with
  | nil => intro w; exact Propagates.unchanged log _ w
  | cons e rest ih =>
    intro w
    unfold updateForwardingRules_stale
    have h := removeForwardingRule_propagates l log hrec lbID e.2.ID w
    revert h
    rcases removeForwardingRule l lbID e.2.ID w with ⟨r, w1⟩
    intro h
    cases r with
    | some err => exact h
    | none => exact Propagates.seq h (ih w1)

theorem updateForwardingRules_propagates {σ : Type} (l : loadbalancers σ)
    (log : σ → List Error) (hrec : Records l.client log) (service : Service)
    (lb : LoadBalancer) (w : World σ) :
    Propagates log (updateForwardingRules l service lb w).1 w
      (updateForwardingRules l service lb w).2 := by
  unfold updateForwardingRules
  have h := updateForwardingRules_ports_propagates l log hrec lb.ID service.Ports
    (forwardingRulesByPort lb.ForwardingRules) w
  revert h
  rcases updateForwardingRules_ports l lb.ID service.Ports
    (forwardingRulesByPort lb.ForwardingRules) w with ⟨r, frsToDelete, w1⟩
  intro h
  cases r with
  | some err => exact h
  | none =>
    exact Propagates.seq h (updateForwardingRules_stale_propagates l log hrec lb.ID _ w1)

theorem updateBackendNodes_stale_propagates {σ : Type} (l : loadbalancers σ)
    (log : σ → List Error) (hrec : Records l.client log) (lbID : String) :
    ∀ (es : List (String × LBBackendNode)) (w : World σ),
      Propagates log (updateBackendNodes_stale l lbID es w).1 w
        (updateBackendNodes_stale l lbID es w).2 := by
  intro es
  induction es with
  | nil => intro w; exact Propagates.unchanged log _ w
  | cons e rest ih =>
    intro w
    unfold updateBackendNodes_stale
    have h := removeBackendNode_propagates l log hrec lbID e.2.ID w
    revert h
    rcases removeBackendNode l lbID e.2.ID w with ⟨r, w1⟩
    intro h
    cases r with
    | some err => exact h
    | none => exact Propagates.seq h (ih w1)

theorem updateBackendNodes_propagates {σ : Type} (l : loadbalancers σ)
    (log : σ → List Error) (hrec : Records l.client log) (nodes : List Node)
    (lb : LoadBalancer) (w : World σ) :
    Propagates log (updateBackendNodes l nodes lb w).1 w
      (updateBackendNodes l nodes lb w).2 := by
  unfold updateBackendNodes
  cases updateBackendNodes_nodes nodes [] (backendNodesByServer lb.BackendNodes) with
  | error err => exact Propagates.unchanged log _ w
  | ok p =>
    obtain ⟨bnsToAdd, bnsToDelete⟩ := p
    simp only
    have h : Propagates log
        (if 0 < bnsToAdd.length then addBackendNodes l lb.ID bnsToAdd w else (none, w)).1 w
        (if 0 < bnsToAdd.length then addBackendNodes l lb.ID bnsToAdd w else (none, w)).2 := by
      split
      · exact addBackendNodes_propagates l log hrec lb.ID bnsToAdd w
      · exact Propagates.unchanged log _ w
    revert h
    rcases (if 0 < bnsToAdd.length then addBackendNodes l lb.ID bnsToAdd w else (none, w))
      with ⟨r, w1⟩
    intro h
    cases r with
    | some err => exact h
    | none =>
      exact Propagates.seq h (updateBackendNodes_stale_propagates l log hrec lb.ID _ w1)

/-- Every error other than the not-found condition that a remote call issued during
`updateLoadBalancer` returns is the error `updateLoadBalancer` returns. -/
theorem updateLoadBalancer_propagates {σ : Type} (l : loadbalancers σ)
    (log : σ → List Error) (hrec : Records l.client log) (service : Service)
    (nodes : List Node) (lb : LoadBalancer) (w : World σ) :
    Propagates log (updateLoadBalancer l service nodes lb w).1 w
      (updateLoadBalancer l service nodes lb w).2 := by
  unfold updateLoadBalancer
  have h1 := updateLoadBalancerInfo_propagates l log hrec service lb w
  revert h1
  rcases updateLoadBalancerInfo l service lb w with ⟨r1, w1⟩
  intro h1
  cases r1 with
  | some err => exact h1
  | none =>
    simp only
    have h2 := updateForwardingRules_propagates l log hrec service lb w1
    revert h2
    rcases updateForwardingRules l service lb w1 with ⟨r2, w2⟩
    intro h2
    cases r2 with
    | some err => exact Propagates.seq h1 h2
    | none =>
      simp only
      have h3 : Propagates log
          (if loadBalancerHealthChecksEnabled service then updateHealthChecks l service lb w2
            else deleteHealthChecks l lb w2).1 w2
          (if loadBalancerHealthChecksEnabled service then updateHealthChecks l service lb w2
            else deleteHealthChecks l lb w2).2 := by
        split
        · exact updateHealthChecks_propagates l log hrec service lb w2
        · exact deleteHealthChecks_propagates l log hrec lb w2
      revert h3
      rcases (if loadBalancerHealthChecksEnabled service then
          updateHealthChecks l service lb w2 else deleteHealthChecks l lb w2) with ⟨r3, w3⟩
      intro h3
      cases r3 with
      | some err => exact Propagates.seq h1 (Propagates.seq h2 h3)
      | none =>
        exact Propagates.seq h1 (Propagates.seq h2
          (Propagates.seq h3 (updateBackendNodes_propagates l log hrec nodes lb w3)))

theorem loadBalancerByID_log {σ : Type} (l : loadbalancers σ) (log : σ → List Error)
    (hrec : Records l.client log) (lbID : String) (w : World σ) :
    log (loadBalancerByID l lbID w).2.st
        = log w.st ++ (if lbID = "" then [] else failureOf (l.client.Get lbID w.st).1)
    ∧ ∀ e ∈ (if lbID = "" then [] else failureOf (l.client.Get lbID w.st).1),
        (loadBalancerByID l lbID w).1 = .error e := by
  unfold loadBalancerByID
  by_cases h : lbID = ""
  · simp [h]
  · simp only [if_neg h]
    refine ⟨hrec.Get lbID w.st, ?_⟩
    intro e he
    unfold invoke
    simp only
    cases hr : (l.client.Get lbID w.st).1 with
    | error err =>
      rw [hr] at he
      simp only [failureOf, List.mem_singleton] at he
      rw [he]
    | ok x =>
      rw [hr] at he
      simp [failureOf] at he

theorem Patch_log {σ : Type} (l : loadbalancers σ) (log : σ → List Error)
    (hrec : Records l.client log) (sp : servicePatcher) (updated : Service) (w : World σ) :
    log (sp.Patch l updated w).2.st = log w.st := by
  unfold servicePatcher.Patch
  split
  · rfl
  · have h : log (invoke (Call.PatchService sp.origin.Namespace sp.origin.Name
          (CreateTwoWayMergePatch sp.origin updated))
        (l.client.PatchService sp.origin.Namespace sp.origin.Name
          (CreateTwoWayMergePatch sp.origin updated)) w).2.st = log w.st :=
      hrec.PatchService _ _ _ w.st
    revert h
    rcases invoke _ _ w with ⟨r, w1⟩
    intro h
    cases r with
    | some err => exact h
    | none => exact h

/-- The errors `createLoadBalancer` gains in the log: the error of `Create`, which it
returns wrapped. -/
theorem createLoadBalancer_log {σ : Type} (l : loadbalancers σ) (log : σ → List Error)
    (hrec : Records l.client log) (service : Service) (nodes : List Node) (w : World σ) :
    ∃ created, log (createLoadBalancer l service nodes w).2.2.st = log w.st ++ created
      ∧ ∀ e ∈ created,
          (∃ request, makeLoadBalancerCreateRequest l service nodes = .ok request
            ∧ (l.client.Create request w.st).1 = .error e)
          ∧ (createLoadBalancer l service nodes w).1
            = .error (Error.Errorf "API LoadBalancers.Create error: %v" e) := by
  unfold createLoadBalancer
  cases hreq : makeLoadBalancerCreateRequest l service nodes with
  | error err => exact ⟨[], by simp, fun e he => absurd he (List.not_mem_nil e)⟩
  | ok request =>
    simp only
    have hc := hrec.Create request w.st
    cases hr : (l.client.Create request w.st).1 with
    | error err =>
      refine ⟨[err], ?_, ?_⟩
      · simp only [invoke, hr]
        rw [hc, hr]
        rfl
      · intro e he
        rw [List.mem_singleton] at he
        subst he
        refine ⟨⟨request, rfl, hr⟩, ?_⟩
        simp only [invoke, hr]
    | ok lb =>
      refine ⟨[], ?_, fun e he => absurd he (List.not_mem_nil e)⟩
      have hi : invoke (Call.Create request) (l.client.Create request) w
          = (.ok lb, (invoke (Call.Create request) (l.client.Create request) w).2) :=
        invoke_ok_eq _ _ w lb hr
      have hl1 : log (invoke (Call.Create request) (l.client.Create request) w).2.st
          = log w.st := by
        show log (l.client.Create request w.st).2 = log w.st
        rw [hc, hr]
        simp [failureOf]
      rw [hi]
      simp only
      have hp := Patch_log l log hrec (newServicePatcher service)
        (annotateService service ServiceAnnotationLoadBalancerID lb.ID)
        (invoke (Call.Create request) (l.client.Create request) w).2
      revert hp
      rcases (newServicePatcher service).Patch l
        (annotateService service ServiceAnnotationLoadBalancerID lb.ID)
        (invoke (Call.Create request) (l.client.Create request) w).2 with ⟨r, w2⟩
      intro hp
      cases r with
      | some err => simp only at hp ⊢; rw [hp, hl1, List.append_nil]
      | none => simp only at hp ⊢; rw [hp, hl1, List.append_nil]

/-- The errors the part of `EnsureLoadBalancer` after the locating gains in the log:
those of the update, of which one that is not the not-found condition is returned
wrapped. -/
theorem EnsureLoadBalancer_gate_log {σ : Type} (l : loadbalancers σ)
    (log : σ → List Error) (hrec : Records l.client log) (service : Service)
    (nodes : List Node) (lb : LoadBalancer) (w : World σ) :
    ∃ updated, log (EnsureLoadBalancer_gate l service nodes lb w).2.2.st
        = log w.st ++ updated
      ∧ ∀ e ∈ updated, e ≠ Error.ErrResourceNotFound →
          (EnsureLoadBalancer_gate l service nodes lb w).1
            = some (none, some (Error.Errorf "Error updating load balancer: %v" e)) := by
  unfold EnsureLoadBalancer_gate
  split
  · exact ⟨[], by simp, fun e he => absurd he (List.not_mem_nil e)⟩
  · have h := updateLoadBalancer_propagates l log hrec service nodes lb w
    revert h
    rcases updateLoadBalancer l service nodes lb w with ⟨r, w1⟩
    intro h
    obtain ⟨errs, hl, hp⟩ := h
    cases r with
    | some err =>
      refine ⟨errs, hl, ?_⟩
      intro e he hne
      have := hp e he hne
      injection this with this
      rw [this]
    | none =>
      refine ⟨errs, ?_, ?_⟩
      · cases loadBalancerStatus lb <;> exact hl
      · intro e he hne
        exact absurd (hp e he hne) (by simp)

/-- C22, the counterexample: the load balancer is not found and `Create` fails with the
error "create failed"; `EnsureLoadBalancer` does not return that error itself but a new
error that wraps it twice. -/
theorem EnsureLoadBalancer_wraps_Create_error :
    (EnsureLoadBalancer
        (testLoadbalancers (.error Error.ErrResourceNotFound)
          (.error (Error.New "create failed")))
        (testService testAnnotaions testPorts) testNodes testWorld).1
      = some (none, some (Error.Errorf "Error creating load balancer: %v"
          (Error.Errorf "API LoadBalancers.Create error: %v" (Error.New "create failed"))))
    ∧ (EnsureLoadBalancer
        (testLoadbalancers (.error Error.ErrResourceNotFound)
          (.error (Error.New "create failed")))
        (testService testAnnotaions testPorts) testNodes testWorld).1
      ≠ some (none, some (Error.New "create failed")) := by
  decide

/-- C22, amended: let the remote state keep a log of the errors the load-balancer calls
return. The errors `EnsureLoadBalancer` adds to the log are the error of the locating
`Get`, then those of `Create`, then those of the calls of the update. An error of the
locating `Get` other than the not-found condition is returned itself, unchanged; an
error of `Create` is returned wrapped by `fmt.Errorf` as "API LoadBalancers.Create
error: %v" and again as "Error creating load balancer: %v"; and an error other than the
not-found condition of `Update` or of any forwarding-rule, health-check or backend-node
call is returned wrapped as "Error updating load balancer: %v". -/
theorem EnsureLoadBalancer_errors {σ : Type} (l : loadbalancers σ) (log : σ → List Error)
    (hrec : Records l.client log) (service : Service) (nodes : List Node) (w : World σ) :
    ∃ created updated : List Error,
      log (EnsureLoadBalancer l service nodes w).2.2.st
        = log w.st
          ++ (if loadBalancerID service = "" then []
              else failureOf (l.client.Get (loadBalancerID service) w.st).1)
          ++ created ++ updated
      ∧ (∀ e ∈ (if loadBalancerID service = "" then []
            else failureOf (l.client.Get (loadBalancerID service) w.st).1),
          e ≠ Error.ErrResourceNotFound →
          (EnsureLoadBalancer l service nodes w).1 = some (none, some e))
      ∧ (∀ e ∈ created,
          (∃ request, makeLoadBalancerCreateRequest l service nodes = .ok request
            ∧ (l.client.Create request
                (loadBalancerByID l (loadBalancerID service) w).2.st).1 = .error e)
          ∧ (EnsureLoadBalancer l service nodes w).1
            = some (none, some (Error.Errorf "Error creating load balancer: %v"
                (Error.Errorf "API LoadBalancers.Create error: %v" e))))
      ∧ (∀ e ∈ updated, e ≠ Error.ErrResourceNotFound →
          (EnsureLoadBalancer l service nodes w).1
            = some (none, some (Error.Errorf "Error updating load balancer: %v" e))) := by
  obtain ⟨hl0, hp0⟩ := loadBalancerByID_log l log hrec (loadBalancerID service) w
  unfold EnsureLoadBalancer
  revert hl0 hp0
  rcases loadBalancerByID l (loadBalancerID service) w with ⟨r, w1⟩
  intro hl0 hp0
  simp only at hl0 hp0 ⊢
  cases r with
  | error err =>
    by_cases he : err = Error.ErrResourceNotFound
    · subst he
      simp only [if_true]
      obtain ⟨created, hlc, hpc⟩ := createLoadBalancer_log l log hrec service nodes w1
      revert hlc hpc
      rcases createLoadBalancer l service nodes w1 with ⟨rc, service1, w2⟩
      intro hlc hpc
      simp only at hlc hpc ⊢
      cases rc with
      | error err1 =>
        refine ⟨created, [], ?_, ?_, ?_, fun e h => absurd h (List.not_mem_nil e)⟩
        · simp only
          rw [hlc, hl0, List.append_nil]
        · intro e h hne
          have := hp0 e h
          injection this with this
          exact absurd this.symm hne
        · intro e h
          obtain ⟨h1, h2⟩ := hpc e h
          injection h2 with h2
          exact ⟨h1, by rw [h2]⟩
      | ok lb =>
        obtain ⟨updated, hlu, hpu⟩ :=
          EnsureLoadBalancer_gate_log l log hrec service1 nodes lb w2
        refine ⟨created, updated, ?_, ?_, ?_, hpu⟩
        · rw [hlu, hlc, hl0]
        · intro e h hne
          have := hp0 e h
          injection this with this
          exact absurd this.symm hne
        · intro e h
          exact absurd (hpc e h).2 (by simp)
    · simp only [if_neg he]
      refine ⟨[], [], ?_, ?_, fun e h => absurd h (List.not_mem_nil e),
        fun e h => absurd h (List.not_mem_nil e)⟩
      · simp only [List.append_nil]
        exact hl0
      · intro e h _
        have := hp0 e h
        injection this with this
        rw [this]
  | ok lb =>
    obtain ⟨updated, hlu, hpu⟩ := EnsureLoadBalancer_gate_log l log hrec service nodes lb w1
    refine ⟨[], updated, ?_, ?_, fun e h => absurd h (List.not_mem_nil e), hpu⟩
    · rw [hlu, hl0, List.append_nil]
    · intro e h _
      exact absurd (hp0 e h) (by simp)

/-- Every client can keep the log: the recording client over `c` records its errors. -/
theorem recording_records {σ : Type} (c : APIClient σ) :
    Records (APIClient.recording c) Prod.snd :=
  { Get := fun _ _ => rfl
    Create := fun _ _ => rfl
    Update := fun _ _ _ => rfl
    Delete := fun _ _ => rfl
    CreateForwardingRule := fun _ _ _ => rfl
    GetForwardingRule := fun _ _ _ => rfl
    DeleteForwardingRule := fun _ _ _ => rfl
    CreateHealthCheck := fun _ _ _ => rfl
    GetHealthCheck := fun _ _ _ => rfl
    UpdateHealthCheck := fun _ _ _ _ => rfl
    DeleteHealthCheck := fun _ _ _ => rfl
    AddBackendNodes := fun _ _ _ => rfl
    ListBackendNodes := fun _ _ => rfl
    GetBackendNode := fun _ _ _ => rfl
    DeleteBackendNode := fun _ _ _ => rfl
    PatchService := fun _ _ _ _ => rfl }

/-- Witness of C22 (amended): the located load balancer is active, the desired name
differs and `Update` fails with "update failed": that error is the one the run logs, and
`EnsureLoadBalancer` returns it wrapped as "Error updating load balancer: %v". -/
theorem EnsureLoadBalancer_errors_witness :
    Records (testLoadbalancersRecording (.ok testLBGetResponse)
        (.error (Error.New "unused")) (some (Error.New "update failed"))).client Prod.snd
    ∧ (EnsureLoadBalancer
        (testLoadbalancersRecording (.ok testLBGetResponse) (.error (Error.New "unused"))
          (some (Error.New "update failed")))
        (testService (mapSet testAnnotaions ServiceAnnotationLoadBalancerName "test2")
          testPorts)
        testNodes { st := ([], []), trace := [] }).2.2.st.2 = [Error.New "update failed"]
    ∧ ∃ created updated : List Error,
      (EnsureLoadBalancer
        (testLoadbalancersRecording (.ok testLBGetResponse) (.error (Error.New "unused"))
          (some (Error.New "update failed")))
        (testService (mapSet testAnnotaions ServiceAnnotationLoadBalancerName "test2")
          testPorts)
        testNodes { st := ([], []), trace := [] }).2.2.st.2
        = [] ++ [] ++ created ++ updated
      ∧ ∀ e ∈ updated, e ≠ Error.ErrResourceNotFound →
          (EnsureLoadBalancer
            (testLoadbalancersRecording (.ok testLBGetResponse)
              (.error (Error.New "unused")) (some (Error.New "update failed")))
            (testService (mapSet testAnnotaions ServiceAnnotationLoadBalancerName "test2")
              testPorts)
            testNodes { st := ([], []), trace := [] }).1
            = some (none, some (Error.Errorf "Error updating load balancer: %v" e)) := by
  refine ⟨recording_records _, by decide, ?_⟩
  obtain ⟨created, updated, h1, _, _, h4⟩ :=
    EnsureLoadBalancer_errors
      (testLoadbalancersRecording (.ok testLBGetResponse) (.error (Error.New "unused"))
        (some (Error.New "update failed")))
      Prod.snd (recording_records _)
      (testService (mapSet testAnnotaions ServiceAnnotationLoadBalancerName "test2")
        testPorts)
      testNodes { st := ([], []), trace := [] }
  exact ⟨created, updated, h1, h4⟩

end ah
